import Mathlib

/-!
# k-means kernel (`kmeansmodule.c`, `old_dont_git_code.c`)

Shallow embedding of the k-means kernel.

Data model.  A C `struct vector` owns a singly linked list of `struct cord`
nodes; it is embedded as the `List α` of its coordinate values.  A linked list
of vectors (dataset, centroid set, accumulator set) is a `List (List α)`.

Numbers.  The code is embedded twice.  In the first embedding a C `double` is
idealised as an element of a linearly ordered field `α` (exact arithmetic);
the C library function `sqrt` is a parameter `sqrt : α → α` of every function
that reaches it.  With `α := ℚ` every definition evaluates.  What the
algorithm computes is proved in this embedding.  In the second embedding
(namespace `IEEE`) the functions on the path of `fit` are repeated over
`Double`, a model of IEEE 754 binary64 with rounding to nearest, overflow to
an infinity and NaN; it shows where the C program leaves the exact results.

Failure.  A function returns `none` where the C code has no result: it
dereferences a `NULL` pointer, indexes outside an array, reads an
uninitialised node, or returns `NULL` to report a failure.

Integers.  `K`, `dim` and the cluster counts are C `int`s that are never
negative at any call site (list lengths, validated arguments, counters
incremented from zero); they are embedded as `Nat`.  The iteration cap of
`fit` may be negative and is an `Int`.
-/

namespace KMeans

variable {α : Type} [LinearOrderedField α]

/-! ## Vector helpers -/

/-- The function `zero_out_vector`: every coordinate of `v` is set to `0.0`. -/
def zero_out_vector (v : List α) : List α :=
  v.map (fun _ => 0)

/-- The function `add_coordinates_from_other_vector`: the first `dim`
coordinates of `v2` are added to those of `v1`; both lists are dereferenced
`dim` times, so both need at least `dim` nodes. -/
def add_coordinates_from_other_vector : List α → List α → Nat → Option (List α)
  | v1, _, 0 => some v1
  | x :: v1, y :: v2, dim + 1 =>
      (add_coordinates_from_other_vector v1 v2 dim).map (fun r => (x + y) :: r)
  | _, _, _ + 1 => none

/-- The function `divide_vector_by_scalar`: every coordinate divided by the
integer `scalar`. -/
def divide_vector_by_scalar (v : List α) (scalar : Nat) : List α :=
  v.map (fun x => x / (scalar : α))

/-- The function `initialize_sum_vectors`: `K` accumulators of `dim` zeros.
For `K = 0` the C function returns `NULL`; for `dim = 0` it links a
coordinate node that is never initialised. -/
def initialize_sum_vectors (K dim : Nat) : Option (List (List α)) :=
  if K = 0 ∨ dim = 0 then none
  else some (List.replicate K (List.replicate dim 0))

/-! ## Distance and nearest centroid -/

/-- The loop of `compute_distance`, with `sum_dist` as accumulator: returns
`0.0` as soon as one of the two coordinate lists ends before `dim` steps,
otherwise the square root of the accumulated sum. -/
def compute_distance_loop (sqrt : α → α) : List α → List α → Nat → α → α
  | _, _, 0, sum_dist => sqrt sum_dist
  | x :: v1, y :: v2, dim + 1, sum_dist =>
      compute_distance_loop sqrt v1 v2 dim (sum_dist + (x - y) * (x - y))
  | _, _, _ + 1, _ => 0

/-- The function `compute_distance`. -/
def compute_distance (sqrt : α → α) (v1 v2 : List α) (dim : Nat) : α :=
  compute_distance_loop sqrt v1 v2 dim 0

/-- The `for (i = 1; i < K; i++)` loop of `find_closest_centroid`: `n` is the
number of iterations left, `i` the loop index, `cs` the list from
`curr_centroid` on. -/
def find_closest_loop (sqrt : α → α) (vectorX : List α) (dim : Nat) :
    Nat → List (List α) → Nat → Nat → α → Option Nat
  | 0, _, _, min_index, _ => some min_index
  | _ + 1, [], _, _, _ => none
  | n + 1, c :: cs, i, min_index, min_distance =>
      if compute_distance sqrt c vectorX dim < min_distance then
        find_closest_loop sqrt vectorX dim n cs (i + 1) i (compute_distance sqrt c vectorX dim)
      else
        find_closest_loop sqrt vectorX dim n cs (i + 1) min_index min_distance

/-- The function `find_closest_centroid`. -/
def find_closest_centroid (sqrt : α → α) (centroids : List (List α)) (vectorX : List α)
    (K dim : Nat) : Option Nat :=
  match centroids with
  | [] => none
  | c :: cs => find_closest_loop sqrt vectorX dim (K - 1) cs 1 0 (compute_distance sqrt c vectorX dim)

/-! ## The Python binding `fit` -/

/-- The function `python_to_c_list` on a list of lists of floats: the linked
list it builds, with the out-parameters `*N` (number of vectors) and `*dim`
(length of the last inner list).  For an empty list it returns `NULL`, which
both call sites in `fit` treat as a failure. -/
def python_to_c_list (py_list : List (List α)) : Option (List (List α) × Nat × Nat) :=
  match py_list.getLast? with
  | none => none
  | some last => some (py_list, py_list.length, last.length)

/-- The loop `for (i = 0; i < K; i++) counts[i] = 0;` over the array `counts`. -/
def reset_counts : Nat → List Nat → Option (List Nat)
  | 0, counts => some counts
  | K + 1, _ :: counts => (reset_counts K counts).map (fun r => 0 :: r)
  | _ + 1, [] => none

/-- The body of the assignment loop of `fit` for one point `curr_vec`:
`counts[closest_idx]++`, then the point is added into accumulator
`closest_idx`. -/
def assign_point (sqrt : α → α) (head_centroids : List (List α)) (K dim : Nat)
    (acc : List (List α) × List Nat) (curr_vec : List α) : Option (List (List α) × List Nat) :=
  match find_closest_centroid sqrt head_centroids curr_vec K dim with
  | none => none
  | some closest_idx =>
    match acc.2.get? closest_idx, acc.1.get? closest_idx with
    | some count, some target_sum =>
      match add_coordinates_from_other_vector target_sum curr_vec dim with
      | none => none
      | some s => some (acc.1.set closest_idx s, acc.2.set closest_idx (count + 1))
    | _, _ => none

/-- The assignment loop of `fit`: `while (curr_vec != NULL)` over the dataset. -/
def assignment_step (sqrt : α → α) (head_centroids : List (List α)) (K dim : Nat) :
    List (List α) → List (List α) × List Nat → Option (List (List α) × List Nat)
  | [], acc => some acc
  | curr_vec :: rest, acc =>
    match assign_point sqrt head_centroids K dim acc curr_vec with
    | none => none
    | some acc1 => assignment_step sqrt head_centroids K dim rest acc1

/-- The empty-cluster copy loop `while (src != NULL && dst != NULL)`: `dst`
receives the values of `src` as far as both lists go. -/
def copy_first_point : List α → List α → List α
  | s :: src, _ :: dst => s :: copy_first_point src dst
  | _, dst => dst

/-- The centroid update loop `while (cent_c != NULL)` of `fit`: every
coordinate of the centroid receives the matching coordinate of the
accumulator, which is dereferenced once per centroid coordinate. -/
def copy_sum_to_centroid : List α → List α → Option (List α)
  | [], _ => some []
  | _ :: cent_c, s :: sum_c => (copy_sum_to_centroid cent_c sum_c).map (fun r => s :: r)
  | _ :: _, [] => none

/-- The update loop `while (curr_cent != NULL)` of `fit`.  The three lists are
walked in step: `curr_cent` and `curr_sum` by their `next` pointers, and
`counts[idx]` is the head of the remaining counts.  Returns the new centroids,
the accumulators as the loop leaves them, and the `converged` flag. -/
def update_step (sqrt : α → α) (head_data : List (List α)) (dim : Nat) (epsilon : α) :
    List (List α) → List (List α) → List Nat → Bool → Option (List (List α) × List (List α) × Bool)
  | [], sums, _, converged => some ([], sums, converged)
  | curr_cent :: cents, curr_sum :: sums, count :: counts, converged =>
    if count = 0 then
      match head_data with
      | [] => none
      | first :: _ =>
        match update_step sqrt head_data dim epsilon cents sums counts false with
        | none => none
        | some (cs, ss, conv) => some (copy_first_point first curr_cent :: cs, curr_sum :: ss, conv)
    else
      match copy_sum_to_centroid curr_cent (divide_vector_by_scalar curr_sum count) with
      | none => none
      | some new_cent =>
        match update_step sqrt head_data dim epsilon cents sums counts
            (if compute_distance sqrt curr_cent (divide_vector_by_scalar curr_sum count) dim ≥ epsilon
              then false else converged) with
        | none => none
        | some (cs, ss, conv) =>
          some (new_cent :: cs, divide_vector_by_scalar curr_sum count :: ss, conv)
  | _ :: _, _, _, _ => none

/-- The state the main loop of `fit` works on. -/
structure FitState (α : Type) where
  /-- The list `head_centroids`. -/
  centroids : List (List α)
  /-- The list `sum_head`. -/
  sums : List (List α)
  /-- The array `counts`. -/
  counts : List Nat

/-- The first half of the loop body of `fit`: the accumulators and the counts
are reset, then the assignment loop runs over the dataset.  Returns the
accumulators and counts as they stand before the update loop. -/
def fit_assignment (sqrt : α → α) (head_data : List (List α)) (K dim : Nat)
    (st : FitState α) : Option (List (List α) × List Nat) :=
  match reset_counts K st.counts with
  | none => none
  | some counts0 =>
    assignment_step sqrt st.centroids K dim head_data (st.sums.map zero_out_vector, counts0)

/-- One execution of the body of `while (iteration < iter && !converged)`:
reset and assignment, then update.  Returns the state after the body and the
value of `converged`. -/
def fit_iteration (sqrt : α → α) (head_data : List (List α)) (K dim : Nat) (epsilon : α)
    (st : FitState α) : Option (FitState α × Bool) :=
  match fit_assignment sqrt head_data K dim st with
  | none => none
  | some (sums1, counts1) =>
    match update_step sqrt head_data dim epsilon st.centroids sums1 counts1 true with
    | none => none
    | some (cs, ss, conv) => some (⟨cs, ss, counts1⟩, conv)

/-- The loop `while (iteration < iter && !converged)` entered with
`converged = 0`; the first argument is `iter - iteration`. -/
def fit_loop (sqrt : α → α) (head_data : List (List α)) (K dim : Nat) (epsilon : α) :
    Nat → FitState α → Option (FitState α)
  | 0, st => some st
  | n + 1, st =>
    match fit_iteration sqrt head_data K dim epsilon st with
    | none => none
    | some (st1, converged) =>
      if converged then some st1 else fit_loop sqrt head_data K dim epsilon n st1

/-- The value of the counter `iteration` when the loop
`while (iteration < iter && !converged)` of `fit` ends: the number of times the
loop body ran; the first argument is `iter - iteration`. -/
def fit_loop_count (sqrt : α → α) (head_data : List (List α)) (K dim : Nat) (epsilon : α) :
    Nat → FitState α → Option Nat
  | 0, _ => some 0
  | n + 1, st =>
    match fit_iteration sqrt head_data K dim epsilon st with
    | none => none
    | some (st1, converged) =>
      if converged then some 1
      else (fit_loop_count sqrt head_data K dim epsilon n st1).map (fun c => c + 1)

/-- The inner result loop `for (j = 0; j < dim; j++)`: the first `dim`
coordinates of a centroid. -/
def cords_to_python : List α → Nat → Option (List α)
  | _, 0 => some []
  | c :: cs, dim + 1 => (cords_to_python cs dim).map (fun r => c :: r)
  | [], _ + 1 => none

/-- The result loop `for (i = 0; i < K; i++)` of `fit`. -/
def result_to_python : List (List α) → Nat → Nat → Option (List (List α))
  | _, 0, _ => some []
  | curr_cent :: cents, K + 1, dim =>
    match cords_to_python curr_cent dim, result_to_python cents K dim with
    | some v, some r => some (v :: r)
    | _, _ => none
  | [], _ + 1, _ => none

/-- The function `fit` on already parsed arguments.  The argument `K` is
overwritten by the length of `centroid_list_py`, and `dim` by the length of
its last entry. -/
def fit (sqrt : α → α) (_K : Int) (iter : Int) (epsilon : α)
    (data_list centroid_list_py : List (List α)) : Option (List (List α)) :=
  match python_to_c_list data_list with
  | none => none
  | some (head_data, _, _) =>
    match python_to_c_list centroid_list_py with
    | none => none
    | some (head_centroids, K, dim) =>
      match initialize_sum_vectors K dim with
      | none => none
      | some sum_head =>
        match fit_loop sqrt head_data K dim epsilon iter.toNat
            ⟨head_centroids, sum_head, List.replicate K 0⟩ with
        | none => none
        | some st => result_to_python st.centroids K dim

/-! ## The standalone program's loop (`old_dont_git_code.c`) -/

/-- The constant `EPS`, `0.001`. -/
def EPS : α := 1 / 1000

/-- The loop `for (i = 0; i < K && source_v != NULL; i++)` of
`initialize_centroids`: a deep copy of the first `K` vectors of the list,
`dim` coordinates each, every source vector being dereferenced `dim` times. -/
def initialize_centroids_loop : List (List α) → Nat → Nat → Option (List (List α))
  | _, 0, _ => some []
  | [], _ + 1, _ => some []
  | source_v :: rest, K + 1, dim =>
    match cords_to_python source_v dim, initialize_centroids_loop rest K dim with
    | some v, some r => some (v :: r)
    | _, _ => none

/-- The function `initialize_centroids`.  It returns `NULL` when it copies no
vector; for `dim = 0` it links a coordinate node that is never initialised. -/
def initialize_centroids (head_vec : List (List α)) (K dim : Nat) : Option (List (List α)) :=
  if dim = 0 then none
  else
    match initialize_centroids_loop head_vec K dim with
    | some (v :: r) => some (v :: r)
    | _ => none

/-- The update loop `for (j = 0; j < K; j++)` of `main`: a non-empty cluster's
copy of the accumulator is divided by the count, an empty cluster's receives
the first input vector. -/
def main_update (head_vec : List (List α)) :
    Nat → List (List α) → List Nat → Option (List (List α))
  | 0, next_cents, _ => some next_cents
  | K + 1, curr_next_cent :: next_cents, count :: counts =>
    match main_update head_vec K next_cents counts with
    | none => none
    | some r =>
      if count ≠ 0 then some (divide_vector_by_scalar curr_next_cent count :: r)
      else
        match head_vec with
        | [] => none
        | first :: _ => some (copy_first_point first curr_next_cent :: r)
  | _ + 1, _, _ => none

/-- The convergence loop `for (j = 0; j < K; j++)` of `main`: the value of
`changed`. -/
def main_changed (sqrt : α → α) (dim : Nat) :
    Nat → List (List α) → List (List α) → Bool → Option Bool
  | 0, _, _, changed => some changed
  | K + 1, curr_cent :: cents, curr_next_cent :: next_cents, changed =>
    main_changed sqrt dim K cents next_cents
      (if compute_distance sqrt curr_cent curr_next_cent dim ≥ EPS then true else changed)
  | _ + 1, _, _, _ => none

/-- One execution of the body of `for (iter = 0; iter < max_iter; iter++)` in
`main`, whose reset and assignment loops are those of `fit`: returns the state
after the body and the value of `changed`. -/
def main_iteration (sqrt : α → α) (head_vec : List (List α)) (K dim : Nat)
    (st : FitState α) : Option (FitState α × Bool) :=
  match fit_assignment sqrt head_vec K dim st with
  | none => none
  | some (sums1, counts1) =>
    match initialize_centroids sums1 K dim with
    | none => none
    | some next0 =>
      match main_update head_vec K next0 counts1 with
      | none => none
      | some next_centroids =>
        match main_changed sqrt dim K st.centroids next_centroids false with
        | none => none
        | some changed => some (⟨next_centroids, sums1, counts1⟩, changed)

/-- The loop `for (iter = 0; iter < max_iter; iter++)` of `main` with its
`if (!changed) break;`; the first argument is `max_iter - iter`. -/
def main_loop (sqrt : α → α) (head_vec : List (List α)) (K dim : Nat) :
    Nat → FitState α → Option (FitState α)
  | 0, st => some st
  | n + 1, st =>
    match main_iteration sqrt head_vec K dim st with
    | none => none
    | some (st1, changed) =>
      if changed then main_loop sqrt head_vec K dim n st1 else some st1

/-! ## The standalone program's front end (`old_dont_git_code.c`) -/

/-- The message `ERROR_NUM_CLUSTERS`. -/
def ERROR_NUM_CLUSTERS : String := "Incorrect number of clusters!"

/-- The message `ERROR_MAX_ITER`. -/
def ERROR_MAX_ITER : String := "Incorrect maximum iteration!"

/-- The message `ERROR_OCCURED`. -/
def ERROR_OCCURED : String := "An Error Has Occurred"

/-- The constant `MAX_ITER_DEFAULT`. -/
def MAX_ITER_DEFAULT : Int := 400

/-- The loop `while (*str)` of `isInteger` over the characters before the
terminating NUL. -/
def isInteger_loop : List Char → Bool
  | [] => true
  | ch :: rest => if ch < '0' ∨ ch > '9' then false else isInteger_loop rest

/-- The function `isInteger` on a C string (`none` is the `NULL` pointer):
`true` for the return value 1 and `false` for 0. -/
def isInteger : Option (List Char) → Bool
  | none => false
  | some [] => false
  | some (ch :: rest) => isInteger_loop (ch :: rest)

/-- The value of the leading decimal digits of a string, `acc` being the value
read so far. -/
def digits_value : List Char → Nat → Nat
  | [], acc => acc
  | ch :: rest, acc =>
    if ch < '0' ∨ ch > '9' then acc else digits_value rest (10 * acc + (ch.toNat - '0'.toNat))

/-- The value `INT_MAX` of a 32-bit `int`. -/
def INT_MAX : Nat := 2147483647

/-- The C library function `atoi` on the strings `main` passes to it, which
start with a digit: the value of the leading digits, and no result when that
value does not fit an `int` (the behaviour is then undefined). -/
def atoi (str : List Char) : Option Int :=
  if digits_value str 0 ≤ INT_MAX then some (digits_value str 0 : Int) else none

/-- The function `find_dim` (`none` is the `NULL` pointer). -/
def find_dim : Option (List α) → Nat
  | none => 0
  | some vec => vec.length

/-- How `main` leaves its set-up phase: rejected with a message printed and
`return 1`, or about to enter the clustering loop with `K`, `max_iter`, `dim`
and the freshly built centroids, accumulators and counts. -/
inductive Start (α : Type) where
  /-- A call of `printf("%s\n", message)` followed by `return 1`. -/
  | rejected (message : String) : Start α
  /-- The loop `for (iter = 0; iter < max_iter; iter++)` is reached. -/
  | loop (K : Nat) (max_iter : Nat) (dim : Nat) (st : FitState α) : Start α

/-- The set-up phase of `main`, from the argument checks to the allocation of
the counts.  `args` is `argv[1..argc-1]`; `head_vec` is the list of the `N`
vectors read from the input, the trailing empty vector removed.  Allocation
failures are left out. -/
def main_start (args : List (List Char)) (head_vec : List (List α)) : Option (Start α) :=
  match args with
  | [] => some (.rejected ERROR_OCCURED)
  | _ :: _ :: _ :: _ => some (.rejected ERROR_OCCURED)
  | arg1 :: rest =>
    if ¬ isInteger (some arg1) then some (.rejected ERROR_NUM_CLUSTERS)
    else
      match atoi arg1 with
      | none => none
      | some K =>
        match
          (match rest with
            | arg2 :: _ =>
              if ¬ isInteger (some arg2) then some (Sum.inl ERROR_MAX_ITER)
              else (atoi arg2).map Sum.inr
            | [] => some (Sum.inr MAX_ITER_DEFAULT)) with
        | none => none
        | some (Sum.inl message) => some (.rejected message)
        | some (Sum.inr max_iter) =>
          if K ≤ 1 then some (.rejected ERROR_NUM_CLUSTERS)
          else if max_iter ≤ 1 ∨ max_iter ≥ 800 then some (.rejected ERROR_MAX_ITER)
          else if head_vec.length = 0 ∨ find_dim head_vec.head? ≤ 0 then
            some (.rejected ERROR_OCCURED)
          else if K ≥ (head_vec.length : Int) then some (.rejected ERROR_NUM_CLUSTERS)
          else
            match initialize_centroids head_vec K.toNat (find_dim head_vec.head?),
              initialize_sum_vectors K.toNat (find_dim head_vec.head?) with
            | some centroids, some sum_vectors =>
              some (.loop K.toNat max_iter.toNat (find_dim head_vec.head?)
                ⟨centroids, sum_vectors, List.replicate K.toNat 0⟩)
            | _, _ => none

/-- The function `print_the_result`: the values it prints, at most `K`
centroids and at most `dim` coordinates of each. -/
def print_the_result (centroids_for_print : List (List α)) (K dim : Nat) : List (List α) :=
  (centroids_for_print.take K).map (fun curr_vec => curr_vec.take dim)

/-- What a run of `main` does: an error message and `return 1`, or the
centroids handed to `printf` by `print_the_result` and `return 0`. -/
inductive Outcome (α : Type) where
  /-- A message was printed and `main` returned 1. -/
  | error (message : String) : Outcome α
  /-- The centroids were printed and `main` returned 0. -/
  | printed (centroids : List (List α)) : Outcome α

/-- The exit status of a run. -/
def Outcome.status : Outcome α → Nat
  | .error _ => 1
  | .printed _ => 0

/-- The centroids a run printed, if any. -/
def Outcome.output : Outcome α → Option (List (List α))
  | .error _ => none
  | .printed centroids => some centroids

/-- The function `main`: set-up, loop, output. -/
def main (sqrt : α → α) (args : List (List Char)) (head_vec : List (List α)) :
    Option (Outcome α) :=
  match main_start args head_vec with
  | none => none
  | some (.rejected message) => some (.error message)
  | some (.loop K max_iter dim st) =>
    match main_loop sqrt head_vec K dim max_iter st with
    | none => none
    | some st1 => some (.printed (print_the_result st1.centroids K dim))

/-! ## Specification-level notions -/

/-- The distance from centroid number `j` of a list to a point. -/
def dist_to (sqrt : α → α) (centroids : List (List α)) (vectorX : List α) (dim j : Nat) : α :=
  compute_distance sqrt (centroids.getD j []) vectorX dim

/-- The points of the dataset whose nearest centroid is number `j`. -/
def cluster (sqrt : α → α) (centroids : List (List α)) (K dim : Nat) (data : List (List α))
    (j : Nat) : List (List α) :=
  data.filter (fun p => find_closest_centroid sqrt centroids p K dim = some j)

/-- Coordinate-wise sum of a list of points, starting from `dim` zeros. -/
def vector_sum (dim : Nat) : List (List α) → List α
  | [] => List.replicate dim 0
  | p :: ps => List.zipWith (fun a b => a + b) p (vector_sum dim ps)

/-- Arithmetic mean of a list of points. -/
def vector_mean (dim : Nat) (ps : List (List α)) : List α :=
  (vector_sum dim ps).map (fun x => x / (ps.length : α))

/-- One assignment and update pass: centroid `j` becomes the mean of its
cluster, or dataset point 0 when the cluster is empty. -/
def one_pass (sqrt : α → α) (data centroids : List (List α)) (dim : Nat) : List (List α) :=
  (List.range centroids.length).map (fun j =>
    if (cluster sqrt centroids centroids.length dim data j).length = 0 then data.headD []
    else vector_mean dim (cluster sqrt centroids centroids.length dim data j))

/-- The loop body of `fit` applied `t` times in a row, whatever the flag says:
the state after iteration `t` and the flag iteration `t` reported. -/
def fit_iterate (sqrt : α → α) (head_data : List (List α)) (K dim : Nat) (epsilon : α) :
    Nat → FitState α → Option (FitState α × Bool)
  | 0, st => some (st, false)
  | t + 1, st =>
    match fit_iterate sqrt head_data K dim epsilon t st with
    | none => none
    | some (st1, _) => fit_iteration sqrt head_data K dim epsilon st1

/-- The iteration cap the arguments of the standalone program ask for: the
value of the second argument, or `MAX_ITER_DEFAULT` when there is none. -/
def given_max_iter : Option (List Char) → Nat
  | none => 400
  | some arg2 => digits_value arg2 0

/-- A string of decimal digits: not empty, every character between `'0'` and
`'9'`. -/
def digit_string (str : List Char) : Prop :=
  str ≠ [] ∧ ∀ ch ∈ str, '0' ≤ ch ∧ ch ≤ '9'

/-- The `K` argument is a digit string with `1 < K < N`. -/
def valid_K_arg (arg1 : List Char) (N : Nat) : Prop :=
  digit_string arg1 ∧ 1 < digits_value arg1 0 ∧ digits_value arg1 0 < N

/-- The `max_iter` argument, when given, is a digit string with
`1 < max_iter < 800`. -/
def valid_max_iter_arg (arg2 : Option (List Char)) : Prop :=
  ∀ x, arg2 = some x → digit_string x ∧ 1 < digits_value x 0 ∧ digits_value x 0 < 800

/-- The flag one pass of `fit` reports, read off the centroids: every
cluster is non-empty and every centroid moves by less than `epsilon`. -/
def pass_converged (sqrt : α → α) (data centroids : List (List α)) (dim : Nat) (epsilon : α) :
    Bool :=
  (List.range centroids.length).all (fun j =>
    decide ((cluster sqrt centroids centroids.length dim data j).length ≠ 0)
    && decide (compute_distance sqrt (centroids.getD j [])
        ((one_pass sqrt data centroids dim).getD j []) dim < epsilon))

/-- Lloyd's loop on centroid lists: at most `n` passes, stopping after the
first pass that reports convergence. -/
def lloyd_loop (sqrt : α → α) (data : List (List α)) (dim : Nat) (epsilon : α) :
    Nat → List (List α) → List (List α)
  | 0, centroids => centroids
  | n + 1, centroids =>
    if pass_converged sqrt data centroids dim epsilon then one_pass sqrt data centroids dim
    else lloyd_loop sqrt data dim epsilon n (one_pass sqrt data centroids dim)

/-- The flag one pass of the standalone loop computes, read off the centroids:
some centroid moves by `EPS` or more. -/
def pass_changed (sqrt : α → α) (data centroids : List (List α)) (dim : Nat) : Bool :=
  (List.range centroids.length).any (fun j =>
    decide (EPS ≤ compute_distance sqrt (centroids.getD j [])
        ((one_pass sqrt data centroids dim).getD j []) dim))

/-- The standalone loop on centroid lists: at most `n` passes, stopping after
the first pass in which no centroid moved by `EPS` or more. -/
def standalone_loop (sqrt : α → α) (data : List (List α)) (dim : Nat) :
    Nat → List (List α) → List (List α)
  | 0, centroids => centroids
  | n + 1, centroids =>
    if pass_changed sqrt data centroids dim then
      standalone_loop sqrt data dim n (one_pass sqrt data centroids dim)
    else one_pass sqrt data centroids dim

/-- The state `fit` enters its loop with: the given centroids, `K` accumulators
of `dim` zeros from `initialize_sum_vectors`, and `K` zero counts from
`calloc`, where `K` is the number of centroids. -/
def initial_state (centroids : List (List α)) (dim : Nat) : FitState α :=
  ⟨centroids, List.replicate centroids.length (List.replicate dim 0),
    List.replicate centroids.length 0⟩

/-- The shape the loop of `fit` keeps: `K ≥ 1` centroids, `K` accumulators and
`K` counts, every centroid, accumulator and point with `dim` coordinates, and
a non-empty dataset. -/
structure WellFormed (head_data : List (List α)) (K dim : Nat) (st : FitState α) : Prop where
  /-- There is at least one cluster. -/
  K_pos : 1 ≤ K
  /-- The dataset has a first point. -/
  data_ne : head_data ≠ []
  /-- Every point has `dim` coordinates. -/
  data_dim : ∀ p ∈ head_data, p.length = dim
  /-- There are `K` centroids. -/
  cent_len : st.centroids.length = K
  /-- Every centroid has `dim` coordinates. -/
  cent_dim : ∀ c ∈ st.centroids, c.length = dim
  /-- There are `K` accumulators. -/
  sums_len : st.sums.length = K
  /-- Every accumulator has `dim` coordinates. -/
  sums_dim : ∀ s ∈ st.sums, s.length = dim
  /-- There are `K` counts. -/
  counts_len : st.counts.length = K

/-- The control flow of the loop of `compute_distance`: `true` when the branch
`if (curr_cord1 == NULL || curr_cord2 == NULL) return 0.0;` is taken. -/
def takes_short_circuit : List α → List α → Nat → Bool
  | _, _, 0 => false
  | _ :: v1, _ :: v2, dim + 1 => takes_short_circuit v1 v2 dim
  | _, _, _ + 1 => true

/-- The cluster index `find_closest_centroid` assigns to a point (0 when the
call has no result). -/
def assigned_index (sqrt : α → α) (centroids : List (List α)) (K dim : Nat) (p : List α) :
    Nat :=
  (find_closest_centroid sqrt centroids p K dim).getD 0

/-- The minimum of coordinate `i` over a list of points (0 for no point). -/
def coordinate_min (i : Nat) : List (List α) → α
  | [] => 0
  | [p] => p.getD i 0
  | p :: q :: ps => min (p.getD i 0) (coordinate_min i (q :: ps))

/-- The maximum of coordinate `i` over a list of points (0 for no point). -/
def coordinate_max (i : Nat) : List (List α) → α
  | [] => 0
  | [p] => p.getD i 0
  | p :: q :: ps => max (p.getD i 0) (coordinate_max i (q :: ps))

/-- The displacement of every centroid between two centroid lists: the
distance `compute_distance` reports between the old and the new centroid `j`. -/
def displacements (sqrt : α → α) (old new : List (List α)) (dim : Nat) : List α :=
  (List.range old.length).map (fun j =>
    compute_distance sqrt (old.getD j []) (new.getD j []) dim)

/-- The maximum of a list of numbers (0 for the empty list). -/
def list_max : List α → α
  | [] => 0
  | d :: ds => ds.foldl max d

/-- The maximum over `j` of the displacement of centroid `j`. -/
def max_displacement (sqrt : α → α) (old new : List (List α)) (dim : Nat) : α :=
  list_max (displacements sqrt old new dim)

/-- The squared Euclidean distance over the first `dim` coordinates. -/
def sq_dist (a b : List α) (dim : Nat) : α :=
  ∑ i in Finset.range dim, (a.getD i 0 - b.getD i 0) ^ 2

/-- The squared distance from a point to its nearest centroid (0 when there is
no centroid). -/
def nearest_sq_dist (centroids : List (List α)) (p : List α) (dim : Nat) : α :=
  match centroids with
  | [] => 0
  | c :: cs => cs.foldl (fun m c2 => min m (sq_dist c2 p dim)) (sq_dist c p dim)

/-- The k-means objective: the sum over the dataset of the squared distance
from each point to its nearest centroid. -/
def objective (data centroids : List (List α)) (dim : Nat) : α :=
  (data.map (fun p => nearest_sq_dist centroids p dim)).sum

/-- The number of passes Lloyd's loop makes: at most `n`, stopping after the
first pass that reports convergence. -/
def lloyd_count (sqrt : α → α) (data : List (List α)) (dim : Nat) (epsilon : α) :
    Nat → List (List α) → Nat
  | 0, _ => 0
  | n + 1, centroids =>
    if pass_converged sqrt data centroids dim epsilon then 1
    else lloyd_count sqrt data dim epsilon n (one_pass sqrt data centroids dim) + 1

/-! ## C doubles

The definitions above compute in exact arithmetic.  The C program computes
with `double`: its sums, products and quotients are rounded, overflow to an
infinity, and `inf - inf` is a NaN, with which every comparison is false.
`Double` is IEEE 754 binary64 with the default rounding (to nearest, ties to
the even significand), and `IEEE.fit` below is the code of `fit` once more,
word for word, over `Double`. -/

/-- A C `double`.  Every finite double is a whole number `n` of units of
`2 ^ (-1074)` (the smallest subnormal), with `n < 2 ^ 2098` and `n` a multiple
of `2 ^ k` from `2 ^ (k + 53)` on; `finite s n` is `± n` units (`- n` when `s`
is `true`, so that there are two zeros), `inf s` is `±inf`, and `nan` stands
for every NaN. -/
inductive Double where
  | finite (s : Bool) (n : Nat)
  | inf (s : Bool)
  | nan
deriving DecidableEq

namespace Double

/-- The position of the leading binary digit of `q`: `2 ^ log2 q ≤ q` and
`q < 2 ^ (log2 q + 1)` for `1 ≤ q < 2 ^ 4096`, found by bisection. -/
def log2 (q : Nat) : Nat :=
  [2048, 1024, 512, 256, 128, 64, 32, 16, 8, 4, 2, 1].foldl
    (fun lo step => if 2 ^ (lo + step) ≤ q then lo + step else lo) 0

/-- The double nearest to `± a / b` units (`b ≠ 0`), ties to the even
significand.  Below `2 ^ 53` units neighbouring doubles are one unit apart
(`k = 0`); a larger double has 53 significant binary digits, so neighbours are
`2 ^ k` units apart with `k = log2 (a / b) - 52`.  `m` is `a / b` in steps of
`2 ^ k` units rounded down, `r` what is left; the result is `±inf` from
`2 ^ 1024 = 2 ^ 2098` units on. -/
def round (s : Bool) (a b : Nat) : Double :=
  let q := a / b
  let k := if q < 2 ^ 53 then 0 else log2 q - 52
  let d := b * 2 ^ k
  let m := a / d
  let r := a % d
  let m1 := if 2 * r > d ∨ (2 * r = d ∧ m % 2 = 1) then m + 1 else m
  if m1 * 2 ^ k ≥ 2 ^ 2098 then inf s else finite s (m1 * 2 ^ k)

/-- The double `m * 2 ^ e` (rounded, should it not be one), for `e ≥ -1074`. -/
def dyadic (m e : Int) : Double :=
  round (decide (m < 0)) (m.natAbs * 2 ^ (e + 1074).toNat) 1

/-- The conversion of a C `int` that is not negative to `double`. -/
def ofNat (n : Nat) : Double :=
  round false (n * 2 ^ 1074) 1

/-- Unary minus. -/
def neg : Double → Double
  | finite s n => finite (!s) n
  | inf s => inf (!s)
  | nan => nan

/-- The sum `x + y` of C: the exact sum, rounded; `inf + (-inf)` is a NaN, and
an exact sum zero of two numbers of opposite sign is `+0`. -/
def add : Double → Double → Double
  | nan, _ => nan
  | _, nan => nan
  | inf s, inf t => if s = t then inf s else nan
  | inf s, finite _ _ => inf s
  | finite _ _, inf t => inf t
  | finite s a, finite t b =>
    if s = t then round s (a + b) 1
    else if a = b then finite false 0
    else if b < a then round s (a - b) 1
    else round t (b - a) 1

/-- The difference `x - y` of C. -/
def sub (x y : Double) : Double :=
  add x (neg y)

/-- The product `x * y` of C: the exact product, rounded; `0 * inf` is a
NaN. -/
def mul : Double → Double → Double
  | nan, _ => nan
  | _, nan => nan
  | inf s, inf t => inf (s != t)
  | inf s, finite t b => if b = 0 then nan else inf (s != t)
  | finite s a, inf t => if a = 0 then nan else inf (s != t)
  | finite s a, finite t b => round (s != t) (a * b) (2 ^ 1074)

/-- The quotient `x / y` of C: the exact quotient, rounded; `0 / 0` and
`inf / inf` are NaNs. -/
def div : Double → Double → Double
  | nan, _ => nan
  | _, nan => nan
  | inf _, inf _ => nan
  | inf s, finite t _ => inf (s != t)
  | finite s _, inf t => finite (s != t) 0
  | finite s a, finite t b =>
    if b = 0 then (if a = 0 then nan else inf (s != t))
    else round (s != t) (a * 2 ^ 1074) b

/-- Newton's iteration for the integer square root, from a start `x` above
the root: it stops at the first step that does not go down. -/
def isqrt_loop : Nat → Nat → Nat → Nat
  | 0, x, _ => x
  | fuel + 1, x, N =>
    if (x + N / x) / 2 < x then isqrt_loop fuel ((x + N / x) / 2) N else x

/-- The integer square root of `N`, rounded down. -/
def isqrt (N : Nat) : Nat :=
  if N = 0 then 0 else isqrt_loop 64 (2 ^ (log2 N / 2 + 1)) N

/-- The C library function `sqrt`: the exact square root, rounded.  The root
of `n` units is the root of `N = n * 2 ^ 1074`, in units; `m` is that root in
steps of `2 ^ k` units rounded down, and it is rounded up when the root lies
above the midpoint `h` of `m` and `m + 1`. -/
def sqrt : Double → Double
  | nan => nan
  | inf s => if s then nan else inf false
  | finite s n =>
    if n = 0 then finite s 0
    else if s then nan
    else
      let N := n * 2 ^ 1074
      let k := log2 (isqrt N) - 52
      let m := isqrt N / 2 ^ k
      let h := (2 * m + 1) * 2 ^ (k - 1)
      let m1 := if N > h * h ∨ (N = h * h ∧ m % 2 = 1) then m + 1 else m
      finite false (m1 * 2 ^ k)

/-- The comparison `x < y` of C: false as soon as one side is a NaN; the two
zeros are equal. -/
def lt : Double → Double → Bool
  | nan, _ => false
  | _, nan => false
  | inf s, inf t => s && !t
  | inf s, finite _ _ => s
  | finite _ _, inf t => !t
  | finite false a, finite false b => decide (a < b)
  | finite true a, finite true b => decide (b < a)
  | finite true a, finite false b => !(a == 0 && b == 0)
  | finite false _, finite true _ => false

/-- The comparison `x <= y` of C: false as soon as one side is a NaN. -/
def le : Double → Double → Bool
  | nan, _ => false
  | _, nan => false
  | inf s, inf t => s || !t
  | inf s, finite _ _ => s
  | finite _ _, inf t => !t
  | finite false a, finite false b => decide (a ≤ b)
  | finite true a, finite true b => decide (b ≤ a)
  | finite true _, finite false _ => true
  | finite false a, finite true b => a == 0 && b == 0

end Double

instance : Zero Double := ⟨Double.finite false 0⟩

instance : NatCast Double := ⟨Double.ofNat⟩

instance : Add Double := ⟨Double.add⟩

instance : Sub Double := ⟨Double.sub⟩

instance : Mul Double := ⟨Double.mul⟩

instance : Div Double := ⟨Double.div⟩

instance : LT Double := ⟨fun x y => Double.lt x y = true⟩

instance : LE Double := ⟨fun x y => Double.le x y = true⟩

instance (x y : Double) : Decidable (x < y) :=
  inferInstanceAs (Decidable (Double.lt x y = true))

instance (x y : Double) : Decidable (x ≤ y) :=
  inferInstanceAs (Decidable (Double.le x y = true))

deriving instance DecidableEq for FitState

/-! ## The code of `fit` over C doubles

The functions that `fit` reaches and that compute with `double`, as above with
`Double` for the number type: `+`, `-`, `*`, `/`, `<` and `>=` are those of C,
and `sqrt` is `Double.sqrt`.  The functions that only move values
(`python_to_c_list`, `reset_counts`, `copy_first_point`, `copy_sum_to_centroid`,
`result_to_python`) are shared. -/

namespace IEEE

/-- The function `zero_out_vector`: every coordinate of `v` is set to `0.0`. -/
def zero_out_vector (v : List Double) : List Double :=
  v.map (fun _ => 0)

/-- The function `add_coordinates_from_other_vector`: the first `dim`
coordinates of `v2` are added to those of `v1`; both lists are dereferenced
`dim` times, so both need at least `dim` nodes. -/
def add_coordinates_from_other_vector : List Double → List Double → Nat → Option (List Double)
  | v1, _, 0 => some v1
  | x :: v1, y :: v2, dim + 1 =>
      (add_coordinates_from_other_vector v1 v2 dim).map (fun r => (x + y) :: r)
  | _, _, _ + 1 => none

/-- The function `divide_vector_by_scalar`: every coordinate divided by the
integer `scalar`. -/
def divide_vector_by_scalar (v : List Double) (scalar : Nat) : List Double :=
  v.map (fun x => x / (scalar : Double))

/-- The function `initialize_sum_vectors`: `K` accumulators of `dim` zeros.
For `K = 0` the C function returns `NULL`; for `dim = 0` it links a
coordinate node that is never initialised. -/
def initialize_sum_vectors (K dim : Nat) : Option (List (List Double)) :=
  if K = 0 ∨ dim = 0 then none
  else some (List.replicate K (List.replicate dim 0))

/-- The loop of `compute_distance`, with `sum_dist` as accumulator: returns
`0.0` as soon as one of the two coordinate lists ends before `dim` steps,
otherwise the square root of the accumulated sum. -/
def compute_distance_loop : List Double → List Double → Nat → Double → Double
  | _, _, 0, sum_dist => Double.sqrt sum_dist
  | x :: v1, y :: v2, dim + 1, sum_dist =>
      compute_distance_loop v1 v2 dim (sum_dist + (x - y) * (x - y))
  | _, _, _ + 1, _ => 0

/-- The function `compute_distance`. -/
def compute_distance (v1 v2 : List Double) (dim : Nat) : Double :=
  compute_distance_loop v1 v2 dim 0

/-- The `for (i = 1; i < K; i++)` loop of `find_closest_centroid`: `n` is the
number of iterations left, `i` the loop index, `cs` the list from
`curr_centroid` on. -/
def find_closest_loop (vectorX : List Double) (dim : Nat) :
    Nat → List (List Double) → Nat → Nat → Double → Option Nat
  | 0, _, _, min_index, _ => some min_index
  | _ + 1, [], _, _, _ => none
  | n + 1, c :: cs, i, min_index, min_distance =>
      if compute_distance c vectorX dim < min_distance then
        find_closest_loop vectorX dim n cs (i + 1) i (compute_distance c vectorX dim)
      else
        find_closest_loop vectorX dim n cs (i + 1) min_index min_distance

/-- The function `find_closest_centroid`. -/
def find_closest_centroid (centroids : List (List Double)) (vectorX : List Double)
    (K dim : Nat) : Option Nat :=
  match centroids with
  | [] => none
  | c :: cs => find_closest_loop vectorX dim (K - 1) cs 1 0 (compute_distance c vectorX dim)

/-- The body of the assignment loop of `fit` for one point `curr_vec`:
`counts[closest_idx]++`, then the point is added into accumulator
`closest_idx`. -/
def assign_point (head_centroids : List (List Double)) (K dim : Nat)
    (acc : List (List Double) × List Nat) (curr_vec : List Double) :
    Option (List (List Double) × List Nat) :=
  match find_closest_centroid head_centroids curr_vec K dim with
  | none => none
  | some closest_idx =>
    match acc.2.get? closest_idx, acc.1.get? closest_idx with
    | some count, some target_sum =>
      match add_coordinates_from_other_vector target_sum curr_vec dim with
      | none => none
      | some s => some (acc.1.set closest_idx s, acc.2.set closest_idx (count + 1))
    | _, _ => none

/-- The assignment loop of `fit`: `while (curr_vec != NULL)` over the dataset. -/
def assignment_step (head_centroids : List (List Double)) (K dim : Nat) :
    List (List Double) → List (List Double) × List Nat → Option (List (List Double) × List Nat)
  | [], acc => some acc
  | curr_vec :: rest, acc =>
    match assign_point head_centroids K dim acc curr_vec with
    | none => none
    | some acc1 => assignment_step head_centroids K dim rest acc1

/-- The update loop `while (curr_cent != NULL)` of `fit`.  The three lists are
walked in step: `curr_cent` and `curr_sum` by their `next` pointers, and
`counts[idx]` is the head of the remaining counts.  Returns the new centroids,
the accumulators as the loop leaves them, and the `converged` flag. -/
def update_step (head_data : List (List Double)) (dim : Nat) (epsilon : Double) :
    List (List Double) → List (List Double) → List Nat → Bool →
      Option (List (List Double) × List (List Double) × Bool)
  | [], sums, _, converged => some ([], sums, converged)
  | curr_cent :: cents, curr_sum :: sums, count :: counts, converged =>
    if count = 0 then
      match head_data with
      | [] => none
      | first :: _ =>
        match update_step head_data dim epsilon cents sums counts false with
        | none => none
        | some (cs, ss, conv) => some (copy_first_point first curr_cent :: cs, curr_sum :: ss, conv)
    else
      match copy_sum_to_centroid curr_cent (divide_vector_by_scalar curr_sum count) with
      | none => none
      | some new_cent =>
        match update_step head_data dim epsilon cents sums counts
            (if compute_distance curr_cent (divide_vector_by_scalar curr_sum count) dim ≥ epsilon
              then false else converged) with
        | none => none
        | some (cs, ss, conv) =>
          some (new_cent :: cs, divide_vector_by_scalar curr_sum count :: ss, conv)
  | _ :: _, _, _, _ => none

/-- The first half of the loop body of `fit`: the accumulators and the counts
are reset, then the assignment loop runs over the dataset.  Returns the
accumulators and counts as they stand before the update loop. -/
def fit_assignment (head_data : List (List Double)) (K dim : Nat)
    (st : FitState Double) : Option (List (List Double) × List Nat) :=
  match reset_counts K st.counts with
  | none => none
  | some counts0 =>
    assignment_step st.centroids K dim head_data (st.sums.map zero_out_vector, counts0)

/-- One execution of the body of `while (iteration < iter && !converged)`:
reset and assignment, then update.  Returns the state after the body and the
value of `converged`. -/
def fit_iteration (head_data : List (List Double)) (K dim : Nat) (epsilon : Double)
    (st : FitState Double) : Option (FitState Double × Bool) :=
  match fit_assignment head_data K dim st with
  | none => none
  | some (sums1, counts1) =>
    match update_step head_data dim epsilon st.centroids sums1 counts1 true with
    | none => none
    | some (cs, ss, conv) => some (⟨cs, ss, counts1⟩, conv)

/-- The loop `while (iteration < iter && !converged)` entered with
`converged = 0`; the first argument is `iter - iteration`. -/
def fit_loop (head_data : List (List Double)) (K dim : Nat) (epsilon : Double) :
    Nat → FitState Double → Option (FitState Double)
  | 0, st => some st
  | n + 1, st =>
    match fit_iteration head_data K dim epsilon st with
    | none => none
    | some (st1, converged) =>
      if converged then some st1 else fit_loop head_data K dim epsilon n st1

/-- The value of the counter `iteration` when the loop
`while (iteration < iter && !converged)` of `fit` ends: the number of times the
loop body ran; the first argument is `iter - iteration`. -/
def fit_loop_count (head_data : List (List Double)) (K dim : Nat) (epsilon : Double) :
    Nat → FitState Double → Option Nat
  | 0, _ => some 0
  | n + 1, st =>
    match fit_iteration head_data K dim epsilon st with
    | none => none
    | some (st1, converged) =>
      if converged then some 1
      else (fit_loop_count head_data K dim epsilon n st1).map (fun c => c + 1)

/-- The function `fit` on already parsed arguments.  The argument `K` is
overwritten by the length of `centroid_list_py`, and `dim` by the length of
its last entry. -/
def fit (_K : Int) (iter : Int) (epsilon : Double)
    (data_list centroid_list_py : List (List Double)) : Option (List (List Double)) :=
  match python_to_c_list data_list with
  | none => none
  | some (head_data, _, _) =>
    match python_to_c_list centroid_list_py with
    | none => none
    | some (head_centroids, K, dim) =>
      match initialize_sum_vectors K dim with
      | none => none
      | some sum_head =>
        match fit_loop head_data K dim epsilon iter.toNat
            ⟨head_centroids, sum_head, List.replicate K 0⟩ with
        | none => none
        | some st => result_to_python st.centroids K dim

end IEEE

/-! ## Example inputs -/

/-- The example dataset of the specification. -/
def sample_data : List (List ℚ) := [[1, 1], [1, 2], [10, 10], [10, 11]]

/-- A loop state over `sample_data`: the two initial centroids of the
specification's example with cleared accumulators. -/
def sample_state : FitState ℚ := ⟨[[1, 1], [10, 10]], [[0, 0], [0, 0]], [0, 0]⟩

/-- Four points on a line. -/
def line_data : List (List ℚ) := [[1], [2], [10], [11]]

/-- A loop state over `line_data` with one centroid in each group of points. -/
def line_state : FitState ℚ := ⟨[[1], [10]], [[0], [0]], [0, 0]⟩

/-- A loop state over `line_data` whose second centroid attracts no point. -/
def far_state : FitState ℚ := ⟨[[1], [100]], [[0], [0]], [0, 0]⟩

/-- Three points on a line, the second one halfway between the centroids
`0` and `10`. -/
def boundary_data : List (List ℚ) := [[-5001 / 1000], [5], [10]]

/-- Three equal points: the second of two initial centroids attracts none. -/
def zero_data : List (List ℚ) := [[0], [0], [0]]

/-- Two equal points and a third one close by. -/
def close_data : List (List ℚ) := [[0], [0], [1 / 10000]]

/-- The double `1e308`. -/
def huge : Double := Double.dyadic 156575653125701 976

/-- Two equal points whose sum overflows. -/
def overflow_data : List (List Double) := [[huge], [huge]]

/-- The double `0.1`. -/
def tenth : Double := Double.dyadic 3602879701896397 (-55)

/-- The double next above `0.1`, `0.10000000000000002`. -/
def tenth_up : Double := Double.dyadic 7205759403792795 (-56)

/-- The double `0.001`. -/
def thousandth : Double := Double.dyadic 1152921504606847 (-60)

/-- Three equal points `0.1`. -/
def tenth_data : List (List Double) := [[tenth], [tenth], [tenth]]

/-- The double `1e16`, a whole number of more than 53 binary digits' size:
its neighbours are `2` apart. -/
def ten_to_16 : Double := Double.ofNat (10 ^ 16)

/-- The points `1e16`, `-1e16` and `1.0`: the third is lost when it is added
to the first. -/
def absorb_data : List (List Double) :=
  [[ten_to_16], [Double.neg ten_to_16], [Double.ofNat 1]]

/-! ## Distance -/

theorem compute_distance_loop_eq (sqrt : α → α) :
    ∀ (dim : Nat) (a b : List α) (acc : α), dim ≤ a.length → dim ≤ b.length →
      compute_distance_loop sqrt a b dim acc =
        sqrt (acc + ∑ i in Finset.range dim, (a.getD i 0 - b.getD i 0) ^ 2)
  | 0, a, b, acc, _, _ => by simp [compute_distance_loop]
  | dim + 1, [], _, _, ha, _ => by simp at ha
  | dim + 1, _ :: _, [], _, _, hb => by simp at hb
  | dim + 1, x :: a, y :: b, acc, ha, hb => by
      have ha1 : dim ≤ a.length := by simpa using ha
      have hb1 : dim ≤ b.length := by simpa using hb
      rw [compute_distance_loop, compute_distance_loop_eq sqrt dim a b _ ha1 hb1,
        Finset.sum_range_succ']
      simp only [List.getD_cons_succ, List.getD_cons_zero]
      congr 1
      ring

theorem compute_distance_loop_take (sqrt : α → α) :
    ∀ (dim : Nat) (a b : List α) (acc : α),
      compute_distance_loop sqrt (a.take dim) (b.take dim) dim acc =
        compute_distance_loop sqrt a b dim acc
  | 0, a, b, acc => by simp [compute_distance_loop]
  | dim + 1, [], b, acc => by simp [compute_distance_loop]
  | dim + 1, x :: a, [], acc => by simp [compute_distance_loop]
  | dim + 1, x :: a, y :: b, acc => by
      simp only [List.take_succ_cons, compute_distance_loop]
      exact compute_distance_loop_take sqrt dim a b _

/-- C3: for two points with at least `dim` coordinates each,
`compute_distance` is the square root of the sum over `i < dim` of
`(a[i] - b[i])^2`, and it reads only the first `dim` coordinates of each
point. -/
theorem compute_distance_euclidean (sqrt : α → α) (a b : List α) (dim : Nat)
    (ha : dim ≤ a.length) (hb : dim ≤ b.length) :
    compute_distance sqrt a b dim
        = sqrt (∑ i in Finset.range dim, (a.getD i 0 - b.getD i 0) ^ 2)
      ∧ compute_distance sqrt a b dim = compute_distance sqrt (a.take dim) (b.take dim) dim := by
  refine ⟨?_, ?_⟩
  · rw [compute_distance, compute_distance_loop_eq sqrt dim a b 0 ha hb, zero_add]
  · rw [compute_distance, compute_distance, compute_distance_loop_take]

theorem compute_distance_euclidean_witness :
    compute_distance Rat.sqrt [3, 0, 7] [0, 4, 9] 2
        = Rat.sqrt (∑ i in Finset.range 2,
            (([3, 0, 7] : List ℚ).getD i 0 - ([0, 4, 9] : List ℚ).getD i 0) ^ 2)
      ∧ compute_distance Rat.sqrt [3, 0, 7] [0, 4, 9] 2
        = compute_distance Rat.sqrt (([3, 0, 7] : List ℚ).take 2)
            (([0, 4, 9] : List ℚ).take 2) 2 :=
  compute_distance_euclidean Rat.sqrt [3, 0, 7] [0, 4, 9] 2 (by decide) (by decide)

/-! ## Nearest centroid -/

theorem getD_of_drop_eq_cons {β : Type} (l : List β) (i : Nat) (c : β) (cs : List β) (d : β)
    (h : l.drop i = c :: cs) : l.getD i d = c ∧ l.drop (i + 1) = cs := by
  have h1 : l.drop (i + 1) = cs := by
    have := congrArg List.tail h
    simpa [List.tail_drop] using this
  refine ⟨?_, h1⟩
  have h2 : (l.drop i)[0]? = some c := by rw [h]; simp
  rw [List.getElem?_drop] at h2
  simp only [add_zero] at h2
  simp [List.getD_eq_getElem?_getD, h2]

/-- Invariant of the scan of `find_closest_centroid`: entering the loop at
index `i` with a running minimum that is attained first at `min_index`, the
loop returns the first index attaining the minimum over `0 .. i + n - 1`. -/
theorem find_closest_loop_spec (sqrt : α → α) (vectorX : List α) (dim : Nat)
    (all : List (List α)) :
    ∀ (n : Nat) (cs : List (List α)) (i min_index : Nat) (min_distance : α),
      all.drop i = cs → n ≤ cs.length → min_index < i →
      min_distance = dist_to sqrt all vectorX dim min_index →
      (∀ j, j < i → min_distance ≤ dist_to sqrt all vectorX dim j) →
      (∀ j, j < min_index → min_distance < dist_to sqrt all vectorX dim j) →
      ∃ m, find_closest_loop sqrt vectorX dim n cs i min_index min_distance = some m
        ∧ m < i + n
        ∧ (∀ j, j < i + n → dist_to sqrt all vectorX dim m ≤ dist_to sqrt all vectorX dim j)
        ∧ (∀ j, j < m → dist_to sqrt all vectorX dim m < dist_to sqrt all vectorX dim j) := by
  intro n
  induction n with
  | zero =>
    intro cs i mi md _ _ hmi hmd hle hlt
    refine ⟨mi, by simp [find_closest_loop], by simpa using hmi, ?_, ?_⟩
    · intro j hj; rw [← hmd]; exact hle j (by simpa using hj)
    · intro j hj; rw [← hmd]; exact hlt j hj
  | succ n ih =>
    intro cs i mi md hdrop hn hmi hmd hle hlt
    match cs, hdrop, hn with
    | [], _, hn => simp at hn
    | c :: cs, hdrop, hn =>
      obtain ⟨hc, hdrop1⟩ := getD_of_drop_eq_cons all i c cs [] hdrop
      have hn1 : n ≤ cs.length := by simpa using hn
      have hci : compute_distance sqrt c vectorX dim = dist_to sqrt all vectorX dim i := by
        rw [dist_to, hc]
      rw [find_closest_loop]
      by_cases hlt1 : compute_distance sqrt c vectorX dim < md
      · rw [if_pos hlt1]
        obtain ⟨m, h1, h2, h3, h4⟩ := ih cs (i + 1) i (compute_distance sqrt c vectorX dim)
          hdrop1 hn1 (Nat.lt_succ_self i) hci
          (fun j hj => by
            rcases Nat.lt_succ_iff_lt_or_eq.mp hj with h | h
            · exact le_of_lt (lt_of_lt_of_le hlt1 (hle j h))
            · rw [h, hci])
          (fun j hj => lt_of_lt_of_le hlt1 (hle j hj))
        exact ⟨m, h1, by omega, fun j hj => h3 j (by omega), h4⟩
      · rw [if_neg hlt1]
        obtain ⟨m, h1, h2, h3, h4⟩ := ih cs (i + 1) mi md hdrop1 hn1 (by omega) hmd
          (fun j hj => by
            rcases Nat.lt_succ_iff_lt_or_eq.mp hj with h | h
            · exact hle j h
            · rw [h, ← hci]; exact not_lt.mp hlt1)
          hlt
        exact ⟨m, h1, by omega, fun j hj => h3 j (by omega), h4⟩

/-- With `K ≥ 1` centroids `find_closest_centroid` returns the first index
that attains the minimum distance. -/
theorem find_closest_centroid_spec (sqrt : α → α) (centroids : List (List α))
    (vectorX : List α) (K dim : Nat) (hK : 1 ≤ K) (hlen : centroids.length = K) :
    ∃ m, find_closest_centroid sqrt centroids vectorX K dim = some m ∧ m < K
      ∧ (∀ j, j < K → dist_to sqrt centroids vectorX dim m ≤ dist_to sqrt centroids vectorX dim j)
      ∧ (∀ j, j < m → dist_to sqrt centroids vectorX dim m < dist_to sqrt centroids vectorX dim j) := by
  match centroids, hlen with
  | [], hlen => simp at hlen; omega
  | c :: cs, hlen =>
    have hlen1 : cs.length + 1 = K := by simpa using hlen
    obtain ⟨m, h1, h2, h3, h4⟩ := find_closest_loop_spec sqrt vectorX dim (c :: cs) (K - 1) cs 1 0
      (compute_distance sqrt c vectorX dim) (by simp) (by omega) (by omega)
      (by simp [dist_to])
      (fun j hj => by
        have : j = 0 := by omega
        subst this
        simp [dist_to])
      (fun j hj => by omega)
    refine ⟨m, ?_, by omega, fun j hj => h3 j (by omega), h4⟩
    rw [find_closest_centroid, h1]

/-- C1: for `K ≥ 1` centroids and any point, `find_closest_centroid` returns
an index `m < K` whose centroid is at a distance from the point no larger
than that of every centroid `i < K`. -/
theorem find_closest_centroid_minimizes (sqrt : α → α) (centroids : List (List α))
    (point : List α) (K dim : Nat) (hK : 1 ≤ K) (hlen : centroids.length = K) :
    ∃ m, find_closest_centroid sqrt centroids point K dim = some m ∧ m < K
      ∧ ∀ i, i < K →
          compute_distance sqrt (centroids.getD m []) point dim
            ≤ compute_distance sqrt (centroids.getD i []) point dim := by
  obtain ⟨m, h1, h2, h3, _⟩ := find_closest_centroid_spec sqrt centroids point K dim hK hlen
  exact ⟨m, h1, h2, h3⟩

theorem find_closest_centroid_minimizes_witness :
    ∃ m, find_closest_centroid Rat.sqrt [[5, 5], [1, 2], [0, 0]] [1, 1] 3 2 = some m
      ∧ m < 3
      ∧ ∀ i, i < 3 →
          compute_distance Rat.sqrt (([[5, 5], [1, 2], [0, 0]] : List (List ℚ)).getD m [])
              [1, 1] 2
            ≤ compute_distance Rat.sqrt
                (([[5, 5], [1, 2], [0, 0]] : List (List ℚ)).getD i []) [1, 1] 2 :=
  find_closest_centroid_minimizes Rat.sqrt [[5, 5], [1, 2], [0, 0]] [1, 1] 3 2
    (by decide) (by decide)

/-- C2: the index `m` returned by `find_closest_centroid` is the smallest one
attaining the minimum: every centroid `i < m` is strictly farther from the
point than centroid `m`. -/
theorem find_closest_centroid_first_minimum (sqrt : α → α) (centroids : List (List α))
    (point : List α) (K dim : Nat) (hK : 1 ≤ K) (hlen : centroids.length = K) :
    ∃ m, find_closest_centroid sqrt centroids point K dim = some m ∧ m < K
      ∧ (∀ i, i < K →
          compute_distance sqrt (centroids.getD m []) point dim
            ≤ compute_distance sqrt (centroids.getD i []) point dim)
      ∧ ∀ i, i < m →
          compute_distance sqrt (centroids.getD m []) point dim
            < compute_distance sqrt (centroids.getD i []) point dim := by
  obtain ⟨m, h1, h2, h3, h4⟩ := find_closest_centroid_spec sqrt centroids point K dim hK hlen
  exact ⟨m, h1, h2, h3, h4⟩

theorem find_closest_centroid_first_minimum_witness :
    ∃ m, find_closest_centroid Rat.sqrt [[3, 3], [0, 1], [1, 0]] [0, 0] 3 2 = some m
      ∧ m < 3
      ∧ (∀ i, i < 3 →
          compute_distance Rat.sqrt (([[3, 3], [0, 1], [1, 0]] : List (List ℚ)).getD m [])
              [0, 0] 2
            ≤ compute_distance Rat.sqrt
                (([[3, 3], [0, 1], [1, 0]] : List (List ℚ)).getD i []) [0, 0] 2)
      ∧ ∀ i, i < m →
          compute_distance Rat.sqrt (([[3, 3], [0, 1], [1, 0]] : List (List ℚ)).getD m [])
              [0, 0] 2
            < compute_distance Rat.sqrt
                (([[3, 3], [0, 1], [1, 0]] : List (List ℚ)).getD i []) [0, 0] 2 :=
  find_closest_centroid_first_minimum Rat.sqrt [[3, 3], [0, 1], [1, 0]] [0, 0] 3 2
    (by decide) (by decide)

/-! ## Vector arithmetic -/

theorem add_coordinates_eq :
    ∀ (dim : Nat) (v1 v2 : List α), v1.length = dim → v2.length = dim →
      add_coordinates_from_other_vector v1 v2 dim = some (List.zipWith (fun a b => a + b) v1 v2)
  | 0, [], [], _, _ => by simp [add_coordinates_from_other_vector]
  | 0, _ :: _, _, h, _ => by simp at h
  | 0, [], _ :: _, _, h => by simp at h
  | dim + 1, [], _, h, _ => by simp at h
  | dim + 1, _ :: _, [], _, h => by simp at h
  | dim + 1, x :: v1, y :: v2, h1, h2 => by
      have h1a : v1.length = dim := by simpa using h1
      have h2a : v2.length = dim := by simpa using h2
      simp [add_coordinates_from_other_vector, add_coordinates_eq dim v1 v2 h1a h2a]

theorem zipWith_add_zero :
    ∀ (dim : Nat) (v : List α), v.length = dim →
      List.zipWith (fun a b => a + b) v (List.replicate dim 0) = v
  | 0, [], _ => by simp
  | 0, _ :: _, h => by simp at h
  | dim + 1, [], h => by simp at h
  | dim + 1, x :: v, h => by
      have h1 : v.length = dim := by simpa using h
      simp [List.replicate_succ, zipWith_add_zero dim v h1]

theorem zipWith_add_assoc :
    ∀ (a b c : List α),
      List.zipWith (fun a b => a + b) (List.zipWith (fun a b => a + b) a b) c
        = List.zipWith (fun a b => a + b) a (List.zipWith (fun a b => a + b) b c)
  | [], _, _ => by simp
  | _ :: _, [], _ => by simp
  | _ :: _, _ :: _, [] => by simp
  | x :: a, y :: b, z :: c => by
      simp [zipWith_add_assoc a b c, add_assoc]

theorem vector_sum_length (dim : Nat) :
    ∀ (ps : List (List α)), (∀ p ∈ ps, p.length = dim) → (vector_sum dim ps).length = dim
  | [], _ => by simp [vector_sum]
  | p :: ps, h => by
      have hp : p.length = dim := h p (by simp)
      have hps : (vector_sum dim ps).length = dim :=
        vector_sum_length dim ps (fun q hq => h q (by simp [hq]))
      simp [vector_sum, hp, hps]

theorem zipWith_add_getD :
    ∀ (a b : List α) (i : Nat), i < a.length → i < b.length →
      (List.zipWith (fun a b => a + b) a b).getD i 0 = a.getD i 0 + b.getD i 0
  | [], _, _, h, _ => by simp at h
  | _ :: _, [], _, _, h => by simp at h
  | x :: a, y :: b, 0, _, _ => by simp
  | x :: a, y :: b, i + 1, h1, h2 => by
      have h1a : i < a.length := by simpa using h1
      have h2a : i < b.length := by simpa using h2
      simpa using zipWith_add_getD a b i h1a h2a

/-- Coordinate `i` of the coordinate-wise sum is the sum of the coordinates
`i` of the points. -/
theorem vector_sum_getD (dim : Nat) (i : Nat) (hi : i < dim) :
    ∀ (ps : List (List α)), (∀ p ∈ ps, p.length = dim) →
      (vector_sum dim ps).getD i 0 = (ps.map (fun p => p.getD i 0)).sum
  | [], _ => by simp [vector_sum, List.getD_eq_getElem?_getD, hi]
  | p :: ps, h => by
      have hp : p.length = dim := h p (by simp)
      have hps : ∀ q ∈ ps, q.length = dim := fun q hq => h q (by simp [hq])
      have hl := vector_sum_length dim ps hps
      rw [vector_sum, zipWith_add_getD p _ i (by omega) (by omega), vector_sum_getD dim i hi ps hps]
      simp

theorem reset_counts_eq :
    ∀ (K : Nat) (counts : List Nat), counts.length = K →
      reset_counts K counts = some (List.replicate K 0)
  | 0, [], _ => by simp [reset_counts]
  | 0, _ :: _, h => by simp at h
  | K + 1, [], h => by simp at h
  | K + 1, _ :: counts, h => by
      have h1 : counts.length = K := by simpa using h
      simp [reset_counts, reset_counts_eq K counts h1, List.replicate_succ]

/-! ## Example states are well formed -/

theorem sample_state_wf : WellFormed sample_data 2 2 sample_state := by
  refine ⟨by decide, by simp [sample_data], ?_, rfl, ?_, rfl, ?_, rfl⟩
  · intro p hp
    simp only [sample_data, List.mem_cons, List.mem_singleton, List.not_mem_nil, or_false] at hp
    rcases hp with rfl | rfl | rfl | rfl <;> rfl
  · intro p hp
    simp only [sample_state, List.mem_cons, List.mem_singleton, List.not_mem_nil, or_false] at hp
    rcases hp with rfl | rfl <;> rfl
  · intro p hp
    simp only [sample_state, List.mem_cons, List.mem_singleton, List.not_mem_nil, or_false] at hp
    rcases hp with rfl | rfl <;> rfl

theorem line_state_wf : WellFormed line_data 2 1 line_state := by
  refine ⟨by decide, by simp [line_data], ?_, rfl, ?_, rfl, ?_, rfl⟩
  · intro p hp
    simp only [line_data, List.mem_cons, List.mem_singleton, List.not_mem_nil, or_false] at hp
    rcases hp with rfl | rfl | rfl | rfl <;> rfl
  · intro p hp
    simp only [line_state, List.mem_cons, List.mem_singleton, List.not_mem_nil, or_false] at hp
    rcases hp with rfl | rfl <;> rfl
  · intro p hp
    simp only [line_state, List.mem_cons, List.mem_singleton, List.not_mem_nil, or_false] at hp
    rcases hp with rfl | rfl <;> rfl

theorem far_state_wf : WellFormed line_data 2 1 far_state := by
  refine ⟨by decide, by simp [line_data], ?_, rfl, ?_, rfl, ?_, rfl⟩
  · intro p hp
    simp only [line_data, List.mem_cons, List.mem_singleton, List.not_mem_nil, or_false] at hp
    rcases hp with rfl | rfl | rfl | rfl <;> rfl
  · intro p hp
    simp only [far_state, List.mem_cons, List.mem_singleton, List.not_mem_nil, or_false] at hp
    rcases hp with rfl | rfl <;> rfl
  · intro p hp
    simp only [far_state, List.mem_cons, List.mem_singleton, List.not_mem_nil, or_false] at hp
    rcases hp with rfl | rfl <;> rfl

/-! ## Assignment pass -/

theorem cluster_cons (sqrt : α → α) (centroids : List (List α)) (K dim : Nat)
    (x : List α) (rest : List (List α)) (j : Nat) :
    cluster sqrt centroids K dim (x :: rest) j =
      if find_closest_centroid sqrt centroids x K dim = some j
        then x :: cluster sqrt centroids K dim rest j
        else cluster sqrt centroids K dim rest j := by
  simp [cluster, List.filter_cons]

theorem cluster_subset (sqrt : α → α) (centroids : List (List α)) (K dim : Nat)
    (data : List (List α)) (j : Nat) :
    ∀ p ∈ cluster sqrt centroids K dim data j, p ∈ data := by
  intro p hp
  exact (List.mem_filter.mp hp).1

/-- Invariant of the assignment loop: started from accumulators `S` and counts
`Cn` of the right shape, it ends with every count raised by the size of its
cluster and every accumulator raised by the sum of its cluster. -/
theorem assignment_step_spec (sqrt : α → α) (centroids : List (List α)) (K dim : Nat)
    (hK : 1 ≤ K) (hlen : centroids.length = K) :
    ∀ (data : List (List α)) (S : List (List α)) (Cn : List Nat),
      (∀ p ∈ data, p.length = dim) → S.length = K → (∀ s ∈ S, s.length = dim) →
      Cn.length = K →
      ∃ S1 Cn1, assignment_step sqrt centroids K dim data (S, Cn) = some (S1, Cn1)
        ∧ S1.length = K ∧ (∀ s ∈ S1, s.length = dim) ∧ Cn1.length = K
        ∧ ∀ j, j < K →
            Cn1.getD j 0 = Cn.getD j 0 + (cluster sqrt centroids K dim data j).length
            ∧ S1.getD j [] = List.zipWith (fun a b => a + b) (S.getD j [])
                (vector_sum dim (cluster sqrt centroids K dim data j)) := by
  intro data
  induction data with
  | nil =>
    intro S Cn _ hS hSd hCn
    refine ⟨S, Cn, by simp [assignment_step], hS, hSd, hCn, ?_⟩
    intro j hj
    have hmem : S.getD j [] ∈ S := by
      rw [List.getD_eq_getElem?_getD, List.getElem?_eq_getElem (by omega)]
      simp
    have hz := zipWith_add_zero dim _ (hSd _ hmem)
    simp only [cluster, List.filter_nil, List.length_nil, vector_sum, add_zero, hz, and_self]
  | cons x rest ih =>
    intro S Cn hdata hS hSd hCn
    obtain ⟨m, hm, hmK, _, _⟩ := find_closest_centroid_spec sqrt centroids x K dim hK hlen
    have hx : x.length = dim := hdata x (by simp)
    have hmS : m < S.length := by omega
    have hmC : m < Cn.length := by omega
    have hSm : S[m] ∈ S := List.getElem_mem _
    have hadd := add_coordinates_eq dim S[m] x (hSd _ hSm) hx
    have hstep : assign_point sqrt centroids K dim (S, Cn) x
        = some (S.set m (List.zipWith (fun a b => a + b) S[m] x), Cn.set m (Cn[m] + 1)) := by
      simp [assign_point, hm, List.get?_eq_getElem?, List.getElem?_eq_getElem hmS,
        List.getElem?_eq_getElem hmC, hadd]
    have hSd1 : ∀ s ∈ S.set m (List.zipWith (fun a b => a + b) S[m] x), s.length = dim := by
      intro s hs
      rcases List.mem_or_eq_of_mem_set hs with h | h
      · exact hSd s h
      · rw [h]; simp [hSd _ hSm, hx]
    obtain ⟨S1, Cn1, h1, h2, h3, h4, h5⟩ := ih (S.set m (List.zipWith (fun a b => a + b) S[m] x))
      (Cn.set m (Cn[m] + 1)) (fun p hp => hdata p (by simp [hp])) (by simpa using hS) hSd1
      (by simpa using hCn)
    refine ⟨S1, Cn1, by simp [assignment_step, hstep, h1], h2, h3, h4, ?_⟩
    intro j hj
    obtain ⟨h5a, h5b⟩ := h5 j hj
    rw [h5a, h5b, cluster_cons, hm]
    by_cases hjm : m = j
    · subst hjm
      simp only [if_true, List.length_cons, vector_sum]
      refine ⟨?_, ?_⟩
      · simp [List.getD_eq_getElem?_getD, List.getElem?_set, hmC, List.getElem?_eq_getElem hmC]
        omega
      · simp [List.getD_eq_getElem?_getD, List.getElem?_set, hmS, List.getElem?_eq_getElem hmS,
          zipWith_add_assoc]
    · have hne : ¬ (some m = some j) := by simpa using hjm
      simp only [if_neg hne]
      refine ⟨?_, ?_⟩
      · simp [List.getD_eq_getElem?_getD, List.getElem?_set, hjm]
      · simp [List.getD_eq_getElem?_getD, List.getElem?_set, hjm]

theorem zipWith_zero_add :
    ∀ (dim : Nat) (v : List α), v.length = dim →
      List.zipWith (fun a b => a + b) (List.replicate dim 0) v = v
  | 0, [], _ => by simp
  | 0, _ :: _, h => by simp at h
  | dim + 1, [], h => by simp at h
  | dim + 1, x :: v, h => by
      have h1 : v.length = dim := by simpa using h
      simp [List.replicate_succ, zipWith_zero_add dim v h1]

theorem zero_out_vector_eq (v : List α) : zero_out_vector v = List.replicate v.length 0 := by
  induction v with
  | nil => rfl
  | cons x v ih =>
    simp only [zero_out_vector, List.map_cons, List.length_cons, List.replicate_succ] at ih ⊢
    rw [ih]

theorem getD_mem_of_lt {β : Type} (l : List β) (j : Nat) (d : β) (h : j < l.length) :
    l.getD j d ∈ l := by
  rw [List.getD_eq_getElem?_getD, List.getElem?_eq_getElem h]
  simp

/-- What the reset and assignment loops leave behind: count `j` is the size of
cluster `j` and accumulator `j` is the sum of its points. -/
theorem fit_assignment_spec (sqrt : α → α) (head_data : List (List α)) (K dim : Nat)
    (st : FitState α) (hwf : WellFormed head_data K dim st) :
    ∃ sums1 counts1, fit_assignment sqrt head_data K dim st = some (sums1, counts1)
      ∧ sums1.length = K ∧ (∀ s ∈ sums1, s.length = dim) ∧ counts1.length = K
      ∧ ∀ j, j < K →
          counts1.getD j 0 = (cluster sqrt st.centroids K dim head_data j).length
          ∧ sums1.getD j [] = vector_sum dim (cluster sqrt st.centroids K dim head_data j) := by
  have hSd : ∀ s ∈ st.sums.map zero_out_vector, s.length = dim := by
    intro s hs
    obtain ⟨t, ht, rfl⟩ := List.mem_map.mp hs
    simpa [zero_out_vector] using hwf.sums_dim t ht
  obtain ⟨S1, Cn1, h1, h2, h3, h4, h5⟩ := assignment_step_spec sqrt st.centroids K dim hwf.K_pos
    hwf.cent_len head_data (st.sums.map zero_out_vector) (List.replicate K 0) hwf.data_dim
    (by simpa using hwf.sums_len) hSd (by simp)
  refine ⟨S1, Cn1, ?_, h2, h3, h4, ?_⟩
  · simp [fit_assignment, reset_counts_eq K st.counts hwf.counts_len, h1]
  · intro j hj
    obtain ⟨h5a, h5b⟩ := h5 j hj
    have hjs : j < st.sums.length := by rw [hwf.sums_len]; exact hj
    have hcl : ∀ p ∈ cluster sqrt st.centroids K dim head_data j, p.length = dim :=
      fun p hp => hwf.data_dim p (cluster_subset sqrt st.centroids K dim head_data j p hp)
    have hzero : (st.sums.map zero_out_vector).getD j [] = List.replicate dim 0 := by
      rw [List.getD_eq_getElem?_getD, List.getElem?_map, List.getElem?_eq_getElem hjs]
      simp only [Option.map_some', Option.getD_some]
      rw [zero_out_vector_eq, hwf.sums_dim _ (List.getElem_mem _)]
    refine ⟨?_, ?_⟩
    · rw [h5a]
      simp [List.getD_eq_getElem?_getD, hj]
    · rw [h5b, hzero, zipWith_zero_add dim _ (vector_sum_length dim _ hcl)]

theorem copy_first_point_eq {β : Type} :
    ∀ (src dst : List β), src.length = dst.length → copy_first_point src dst = src
  | [], [], _ => by simp [copy_first_point]
  | [], _ :: _, h => by simp at h
  | _ :: _, [], h => by simp at h
  | s :: src, d :: dst, h => by
      have h1 : src.length = dst.length := by simpa using h
      simp [copy_first_point, copy_first_point_eq src dst h1]

theorem copy_sum_to_centroid_eq {β : Type} :
    ∀ (cent sum : List β), cent.length = sum.length → copy_sum_to_centroid cent sum = some sum
  | [], [], _ => by simp [copy_sum_to_centroid]
  | [], _ :: _, h => by simp at h
  | _ :: _, [], h => by simp at h
  | c :: cent, s :: sum, h => by
      have h1 : cent.length = sum.length := by simpa using h
      simp [copy_sum_to_centroid, copy_sum_to_centroid_eq cent sum h1]

theorem divide_vector_by_scalar_length (v : List α) (n : Nat) :
    (divide_vector_by_scalar v n).length = v.length := by
  simp [divide_vector_by_scalar]

/-- What the update loop computes on lists of matching shape: centroid `j`
becomes the first data point when `counts[j] = 0` and accumulator `j` divided
by `counts[j]` otherwise; the flag ends true exactly when it was true on entry
and every cluster is non-empty with a displacement below `epsilon`. -/
theorem update_step_spec (sqrt : α → α) (first : List α) (tail : List (List α)) (dim : Nat)
    (epsilon : α) (hfirst : first.length = dim) :
    ∀ (cents sums : List (List α)) (counts : List Nat) (conv : Bool),
      sums.length = cents.length → counts.length = cents.length →
      (∀ c ∈ cents, c.length = dim) → (∀ s ∈ sums, s.length = dim) →
      ∃ cs ss conv1,
        update_step sqrt (first :: tail) dim epsilon cents sums counts conv = some (cs, ss, conv1)
        ∧ cs.length = cents.length ∧ ss.length = cents.length
        ∧ (∀ c ∈ cs, c.length = dim) ∧ (∀ s ∈ ss, s.length = dim)
        ∧ (∀ j, j < cents.length →
            cs.getD j [] = if counts.getD j 0 = 0 then first
              else divide_vector_by_scalar (sums.getD j []) (counts.getD j 0))
        ∧ (conv1 = true ↔ conv = true ∧ ∀ j, j < cents.length →
            counts.getD j 0 ≠ 0
            ∧ compute_distance sqrt (cents.getD j [])
                (divide_vector_by_scalar (sums.getD j []) (counts.getD j 0)) dim < epsilon) := by
  intro cents
  induction cents with
  | nil =>
    intro sums counts conv hs _ _ hsd
    have : sums = [] := List.eq_nil_of_length_eq_zero (by simpa using hs)
    subst this
    exact ⟨[], [], conv, by simp [update_step], rfl, rfl, by simp, by simp, by simp, by simp⟩
  | cons cent cents ih =>
    intro sums counts conv hs hc hcd hsd
    match sums, counts, hs, hc, hsd with
    | [], _, hs, _, _ => simp at hs
    | _ :: _, [], _, hc, _ => simp at hc
    | sum :: sums, count :: counts, hs, hc, hsd =>
      have hs1 : sums.length = cents.length := by simpa using hs
      have hc1 : counts.length = cents.length := by simpa using hc
      have hcd1 : ∀ c ∈ cents, c.length = dim := fun c h => hcd c (by simp [h])
      have hsd1 : ∀ s ∈ sums, s.length = dim := fun s h => hsd s (by simp [h])
      have hcent : cent.length = dim := hcd cent (by simp)
      have hsum : sum.length = dim := hsd sum (by simp)
      by_cases h0 : count = 0
      · obtain ⟨cs, ss, conv1, e1, e2, e3, e4, e5, e6, e7⟩ := ih sums counts false hs1 hc1 hcd1 hsd1
        refine ⟨copy_first_point first cent :: cs, sum :: ss, conv1, ?_, by simp [e2], by simp [e3],
          ?_, ?_, ?_, ?_⟩
        · simp [update_step, h0, e1]
        · intro c h
          rcases List.mem_cons.mp h with h | h
          · rw [h, copy_first_point_eq first cent (by omega)]; exact hfirst
          · exact e4 c h
        · intro t h
          rcases List.mem_cons.mp h with h | h
          · rw [h]; exact hsum
          · exact e5 t h
        · intro j hj
          cases j with
          | zero => simp [h0, copy_first_point_eq first cent (by omega)]
          | succ j => simpa using e6 j (by simpa using hj)
        · constructor
          · intro h
            exact absurd (e7.mp h).1 (by simp)
          · intro h
            exact absurd h0 (by simpa using (h.2 0 (by simp)).1)
      · obtain ⟨cs, ss, conv1, e1, e2, e3, e4, e5, e6, e7⟩ := ih sums counts
          (if compute_distance sqrt cent (divide_vector_by_scalar sum count) dim ≥ epsilon
            then false else conv) hs1 hc1 hcd1 hsd1
        have hdl : (divide_vector_by_scalar sum count).length = dim := by
          rw [divide_vector_by_scalar_length]; exact hsum
        refine ⟨divide_vector_by_scalar sum count :: cs, divide_vector_by_scalar sum count :: ss,
          conv1, ?_, by simp [e2], by simp [e3], ?_, ?_, ?_, ?_⟩
        · have hcopy := copy_sum_to_centroid_eq cent (divide_vector_by_scalar sum count)
            (by rw [hdl]; exact hcent)
          rw [update_step, if_neg h0]
          simp only [hcopy, e1]
        · intro c h
          rcases List.mem_cons.mp h with h | h
          · rw [h]; exact hdl
          · exact e4 c h
        · intro t h
          rcases List.mem_cons.mp h with h | h
          · rw [h]; exact hdl
          · exact e5 t h
        · intro j hj
          cases j with
          | zero => simp [h0]
          | succ j => simpa using e6 j (by simpa using hj)
        · rw [e7]
          constructor
          · rintro ⟨hif, hall⟩
            by_cases hge : compute_distance sqrt cent (divide_vector_by_scalar sum count) dim
                ≥ epsilon
            · simp [hge] at hif
            · rw [if_neg hge] at hif
              refine ⟨hif, ?_⟩
              intro j hj
              cases j with
              | zero => exact ⟨by simpa using h0, by simpa using hge⟩
              | succ j => simpa using hall j (by simpa using hj)
          · rintro ⟨hconv, hall⟩
            have h00 := (hall 0 (by simp)).2
            simp only [List.getD_cons_zero] at h00
            refine ⟨?_, ?_⟩
            · rw [if_neg (not_le.mpr h00)]; exact hconv
            · intro j hj
              simpa using hall (j + 1) (by simpa using hj)

/-! ## One iteration of `fit` -/

/-- One iteration on a well-formed state returns a well-formed state; the
accumulators and counts it goes through are those of `fit_assignment`, the
new centroids and the flag are those of `update_step_spec`. -/
theorem fit_iteration_spec (sqrt : α → α) (head_data : List (List α)) (K dim : Nat)
    (epsilon : α) (st : FitState α) (hwf : WellFormed head_data K dim st) :
    ∃ sums1 counts1 st1 conv,
      fit_assignment sqrt head_data K dim st = some (sums1, counts1)
      ∧ fit_iteration sqrt head_data K dim epsilon st = some (st1, conv)
      ∧ WellFormed head_data K dim st1
      ∧ (∀ j, j < K →
          counts1.getD j 0 = (cluster sqrt st.centroids K dim head_data j).length
          ∧ sums1.getD j [] = vector_sum dim (cluster sqrt st.centroids K dim head_data j))
      ∧ (∀ j, j < K →
          st1.centroids.getD j [] = if counts1.getD j 0 = 0 then head_data.headD []
            else divide_vector_by_scalar (sums1.getD j []) (counts1.getD j 0))
      ∧ (conv = true ↔ ∀ j, j < K →
          counts1.getD j 0 ≠ 0
          ∧ compute_distance sqrt (st.centroids.getD j [])
              (divide_vector_by_scalar (sums1.getD j []) (counts1.getD j 0)) dim < epsilon) := by
  obtain ⟨sums1, counts1, h1, h2, h3, h4, h5⟩ := fit_assignment_spec sqrt head_data K dim st hwf
  match head_data, hwf, h1, h5 with
  | [], hwf, _, _ => exact absurd rfl hwf.data_ne
  | first :: tail, hwf, h1, h5 =>
    have hfirst : first.length = dim := hwf.data_dim first (by simp)
    obtain ⟨cs, ss, conv, e1, e2, e3, e4, e5, e6, e7⟩ := update_step_spec sqrt first tail dim
      epsilon hfirst st.centroids sums1 counts1 true (by rw [h2, hwf.cent_len])
      (by rw [h4, hwf.cent_len]) hwf.cent_dim h3
    refine ⟨sums1, counts1, ⟨cs, ss, counts1⟩, conv, h1, ?_, ?_, h5, ?_, ?_⟩
    · simp [fit_iteration, h1, e1]
    · exact ⟨hwf.K_pos, hwf.data_ne, hwf.data_dim, by rw [e2, hwf.cent_len], e4,
        by rw [e3, hwf.cent_len], e5, h4⟩
    · intro j hj
      simpa using e6 j (by rw [hwf.cent_len]; exact hj)
    · rw [e7, hwf.cent_len]
      simp

/-! ## One iteration of the standalone loop -/

theorem cords_to_python_eq {β : Type} :
    ∀ (dim : Nat) (v : List β), v.length = dim → cords_to_python v dim = some v
  | 0, [], _ => by simp [cords_to_python]
  | 0, _ :: _, h => by simp at h
  | dim + 1, [], h => by simp at h
  | dim + 1, c :: v, h => by
      have h1 : v.length = dim := by simpa using h
      simp [cords_to_python, cords_to_python_eq dim v h1]

theorem initialize_centroids_loop_eq {β : Type} (dim : Nat) :
    ∀ (K : Nat) (l : List (List β)), l.length = K → (∀ v ∈ l, v.length = dim) →
      initialize_centroids_loop l K dim = some l
  | 0, [], _, _ => by simp [initialize_centroids_loop]
  | 0, _ :: _, h, _ => by simp at h
  | K + 1, [], h, _ => by simp at h
  | K + 1, v :: l, h, hd => by
      have h1 : l.length = K := by simpa using h
      have hv : v.length = dim := hd v (by simp)
      have hl : ∀ w ∈ l, w.length = dim := fun w hw => hd w (by simp [hw])
      simp [initialize_centroids_loop, cords_to_python_eq dim v hv,
        initialize_centroids_loop_eq dim K l h1 hl]

theorem initialize_centroids_eq {β : Type} (K dim : Nat) (l : List (List β)) (hK : 1 ≤ K)
    (hdim : 1 ≤ dim) (hl : l.length = K) (hd : ∀ v ∈ l, v.length = dim) :
    initialize_centroids l K dim = some l := by
  have hne : dim ≠ 0 := by omega
  rw [initialize_centroids, if_neg hne, initialize_centroids_loop_eq dim K l hl hd]
  match l, hl with
  | [], hl => simp at hl; omega
  | _ :: _, _ => rfl

/-- What the update loop of `main` computes on lists of matching shape. -/
theorem main_update_spec (first : List α) (tail : List (List α)) (dim : Nat)
    (hfirst : first.length = dim) :
    ∀ (K : Nat) (next : List (List α)) (counts : List Nat),
      next.length = K → counts.length = K → (∀ v ∈ next, v.length = dim) →
      ∃ r, main_update (first :: tail) K next counts = some r
        ∧ r.length = K ∧ (∀ v ∈ r, v.length = dim)
        ∧ ∀ j, j < K →
            r.getD j [] = if counts.getD j 0 = 0 then first
              else divide_vector_by_scalar (next.getD j []) (counts.getD j 0) := by
  intro K
  induction K with
  | zero =>
    intro next counts hn _ _
    have : next = [] := List.eq_nil_of_length_eq_zero hn
    subst this
    exact ⟨[], by simp [main_update], rfl, by simp, by simp⟩
  | succ K ih =>
    intro next counts hn hc hd
    match next, counts, hn, hc, hd with
    | [], _, hn, _, _ => simp at hn
    | _ :: _, [], _, hc, _ => simp at hc
    | v :: next, count :: counts, hn, hc, hd =>
      have hv : v.length = dim := hd v (by simp)
      obtain ⟨r, e1, e2, e3, e4⟩ := ih next counts (by simpa using hn) (by simpa using hc)
        (fun w hw => hd w (by simp [hw]))
      by_cases h0 : count = 0
      · refine ⟨copy_first_point first v :: r, by simp [main_update, e1, h0], by simp [e2], ?_, ?_⟩
        · intro c h
          rcases List.mem_cons.mp h with h | h
          · rw [h, copy_first_point_eq first v (by omega)]; exact hfirst
          · exact e3 c h
        · intro j hj
          cases j with
          | zero => simp [h0, copy_first_point_eq first v (by omega)]
          | succ j => simpa using e4 j (by simpa using hj)
      · refine ⟨divide_vector_by_scalar v count :: r, by simp [main_update, e1, h0],
          by simp [e2], ?_, ?_⟩
        · intro c h
          rcases List.mem_cons.mp h with h | h
          · rw [h, divide_vector_by_scalar_length]; exact hv
          · exact e3 c h
        · intro j hj
          cases j with
          | zero => simp [h0]
          | succ j => simpa using e4 j (by simpa using hj)

/-- The convergence loop of `main` sets `changed` exactly when some centroid
moved by `EPS` or more. -/
theorem main_changed_spec (sqrt : α → α) (dim : Nat) :
    ∀ (K : Nat) (cents next : List (List α)) (changed : Bool),
      cents.length = K → next.length = K →
      ∃ b, main_changed sqrt dim K cents next changed = some b
        ∧ (b = true ↔ changed = true ∨ ∃ j, j < K ∧
            EPS ≤ compute_distance sqrt (cents.getD j []) (next.getD j []) dim) := by
  intro K
  induction K with
  | zero =>
    intro cents next changed _ _
    exact ⟨changed, by simp [main_changed], by simp⟩
  | succ K ih =>
    intro cents next changed hc hn
    match cents, next, hc, hn with
    | [], _, hc, _ => simp at hc
    | _ :: _, [], _, hn => simp at hn
    | c :: cents, v :: next, hc, hn =>
      obtain ⟨b, e1, e2⟩ := ih cents next
        (if compute_distance sqrt c v dim ≥ EPS then true else changed)
        (by simpa using hc) (by simpa using hn)
      refine ⟨b, by rw [main_changed, e1], ?_⟩
      rw [e2]
      constructor
      · rintro (h | ⟨j, hj, hd⟩)
        · by_cases hge : compute_distance sqrt c v dim ≥ EPS
          · exact Or.inr ⟨0, by omega, by simpa using hge⟩
          · rw [if_neg hge] at h; exact Or.inl h
        · exact Or.inr ⟨j + 1, by omega, by simpa using hd⟩
      · rintro (h | ⟨j, hj, hd⟩)
        · by_cases hge : compute_distance sqrt c v dim ≥ EPS
          · left; rw [if_pos hge]
          · left; rw [if_neg hge]; exact h
        · cases j with
          | zero =>
            left
            have hge : compute_distance sqrt c v dim ≥ EPS := by simpa using hd
            rw [if_pos hge]
          | succ j => exact Or.inr ⟨j, by omega, by simpa using hd⟩

/-- One iteration of the standalone loop on a well-formed state. -/
theorem main_iteration_spec (sqrt : α → α) (head_vec : List (List α)) (K dim : Nat)
    (st : FitState α) (hwf : WellFormed head_vec K dim st) (hdim : 1 ≤ dim) :
    ∃ sums1 counts1 st1 changed,
      fit_assignment sqrt head_vec K dim st = some (sums1, counts1)
      ∧ main_iteration sqrt head_vec K dim st = some (st1, changed)
      ∧ WellFormed head_vec K dim st1
      ∧ (∀ j, j < K →
          counts1.getD j 0 = (cluster sqrt st.centroids K dim head_vec j).length
          ∧ sums1.getD j [] = vector_sum dim (cluster sqrt st.centroids K dim head_vec j))
      ∧ (∀ j, j < K →
          st1.centroids.getD j [] = if counts1.getD j 0 = 0 then head_vec.headD []
            else divide_vector_by_scalar (sums1.getD j []) (counts1.getD j 0))
      ∧ (changed = true ↔ ∃ j, j < K ∧
          EPS ≤ compute_distance sqrt (st.centroids.getD j []) (st1.centroids.getD j []) dim) := by
  obtain ⟨sums1, counts1, h1, h2, h3, h4, h5⟩ := fit_assignment_spec sqrt head_vec K dim st hwf
  match head_vec, hwf, h1, h5 with
  | [], hwf, _, _ => exact absurd rfl hwf.data_ne
  | first :: tail, hwf, h1, h5 =>
    have hfirst : first.length = dim := hwf.data_dim first (by simp)
    have hinit := initialize_centroids_eq K dim sums1 hwf.K_pos hdim h2 h3
    obtain ⟨r, e1, e2, e3, e4⟩ := main_update_spec first tail dim hfirst K sums1 counts1 h2 h4 h3
    obtain ⟨b, f1, f2⟩ := main_changed_spec sqrt dim K st.centroids r false hwf.cent_len e2
    refine ⟨sums1, counts1, ⟨r, sums1, counts1⟩, b, h1, ?_, ?_, h5, ?_, ?_⟩
    · simp [main_iteration, h1, hinit, e1, f1]
    · exact ⟨hwf.K_pos, hwf.data_ne, hwf.data_dim, e2, e3, h2, h3, h4⟩
    · intro j hj
      simpa using e4 j hj
    · rw [f2]
      simp

/-! ## The update step: claims -/

theorem headD_eq_getD_zero {β : Type} (l : List β) (d : β) : l.headD d = l.getD 0 d := by
  cases l <;> rfl

/-- C6: in the update step of one iteration, in `fit` and in the standalone
loop alike, for every cluster index `j` with `counts[j] = 0` the new centroid
`j` is dataset point 0, whatever cluster point 0 was assigned to and wherever
the centroid was before. -/
theorem update_empty_cluster_is_first_point (sqrt : α → α) (head_data : List (List α))
    (K dim : Nat) (epsilon : α) (st : FitState α) (hwf : WellFormed head_data K dim st)
    (hdim : 1 ≤ dim) :
    ∃ sums1 counts1 st1 conv st2 changed,
      fit_assignment sqrt head_data K dim st = some (sums1, counts1)
      ∧ fit_iteration sqrt head_data K dim epsilon st = some (st1, conv)
      ∧ main_iteration sqrt head_data K dim st = some (st2, changed)
      ∧ ∀ j, j < K → counts1.getD j 0 = 0 →
          st1.centroids.getD j [] = head_data.getD 0 []
          ∧ st2.centroids.getD j [] = head_data.getD 0 [] := by
  obtain ⟨sums1, counts1, st1, conv, h1, h2, _, _, h5, _⟩ :=
    fit_iteration_spec sqrt head_data K dim epsilon st hwf
  obtain ⟨sums2, counts2, st2, changed, g1, g2, _, _, g5, _⟩ :=
    main_iteration_spec sqrt head_data K dim st hwf hdim
  have hsame : (sums2, counts2) = (sums1, counts1) := Option.some.inj (g1.symm.trans h1)
  obtain ⟨hs, hc⟩ := Prod.mk.inj hsame
  subst hs hc
  refine ⟨sums2, counts2, st1, conv, st2, changed, h1, h2, g2, ?_⟩
  intro j hj h0
  have e1 := h5 j hj
  have e2 := g5 j hj
  rw [if_pos h0, headD_eq_getD_zero] at e1 e2
  exact ⟨e1, e2⟩

theorem update_empty_cluster_is_first_point_witness :
    WellFormed line_data 2 1 far_state
      ∧ ∃ st1 conv, fit_iteration Rat.sqrt line_data 2 1 (1 / 10000) far_state
          = some (st1, conv) :=
  ⟨far_state_wf, by
    obtain ⟨_, _, st1, conv, _, _, _, h2, _⟩ :=
      update_empty_cluster_is_first_point Rat.sqrt line_data 2 1 (1 / 10000) far_state
        far_state_wf (by decide)
    exact ⟨st1, conv, h2⟩⟩

/-! ## Convergence flag -/

/-- C7: an iteration of `fit` in which some cluster receives no point reports
`converged = false`, whatever the displacements and `epsilon` are; the loop
then goes on exactly as long as the iteration cap allows. -/
theorem fit_iteration_empty_cluster_not_converged (sqrt : α → α) (head_data : List (List α))
    (K dim : Nat) (epsilon : α) (st : FitState α) (hwf : WellFormed head_data K dim st)
    (j : Nat) (hj : j < K)
    (hempty : head_data.filter
      (fun p => find_closest_centroid sqrt st.centroids p K dim = some j) = []) :
    ∃ st1, fit_iteration sqrt head_data K dim epsilon st = some (st1, false)
      ∧ fit_loop sqrt head_data K dim epsilon 1 st = some st1
      ∧ ∀ n, fit_loop sqrt head_data K dim epsilon (n + 1) st
          = fit_loop sqrt head_data K dim epsilon n st1 := by
  obtain ⟨sums1, counts1, st1, conv, _, h2, _, h4, _, h6⟩ :=
    fit_iteration_spec sqrt head_data K dim epsilon st hwf
  have hc : counts1.getD j 0 = 0 := by
    rw [(h4 j hj).1, cluster, hempty]; rfl
  have hconv : conv = false := by
    cases conv with
    | false => rfl
    | true => exact absurd hc ((h6.mp rfl) j hj).1
  subst hconv
  refine ⟨st1, h2, ?_, ?_⟩
  · simp [fit_loop, h2]
  · intro n
    simp [fit_loop, h2]

theorem fit_iteration_empty_cluster_not_converged_witness :
    ∃ st1, fit_iteration Rat.sqrt line_data 2 1 1000 far_state = some (st1, false)
      ∧ fit_loop Rat.sqrt line_data 2 1 1000 1 far_state = some st1
      ∧ ∀ n, fit_loop Rat.sqrt line_data 2 1 1000 (n + 1) far_state
          = fit_loop Rat.sqrt line_data 2 1 1000 n st1 :=
  fit_iteration_empty_cluster_not_converged Rat.sqrt line_data 2 1 1000 far_state far_state_wf
    1 (by decide) (by
      simp [line_data, far_state, find_closest_centroid, find_closest_loop, compute_distance,
        compute_distance_loop, Rat.sqrt_eq]
      norm_num [abs_of_nonneg, abs_of_nonpos])

/-- C8, amended: in exact arithmetic, for an iteration of `fit` in which every
cluster receives at least one point, `converged` is true if and only if for
every `j < K` the distance between centroid `j` at the start of the iteration
and its new mean is strictly below `epsilon`; a displacement equal to
`epsilon` makes the iteration not converged.  (On C doubles a displacement can
be a NaN.) -/
theorem fit_iteration_converged_iff (sqrt : α → α) (head_data : List (List α))
    (K dim : Nat) (epsilon : α) (st : FitState α) (hwf : WellFormed head_data K dim st)
    (hne : ∀ j, j < K → head_data.filter
      (fun p => find_closest_centroid sqrt st.centroids p K dim = some j) ≠ []) :
    ∃ st1 conv, fit_iteration sqrt head_data K dim epsilon st = some (st1, conv)
      ∧ (∀ j, j < K → st1.centroids.getD j []
          = vector_mean dim (head_data.filter
              (fun p => find_closest_centroid sqrt st.centroids p K dim = some j)))
      ∧ (conv = true ↔ ∀ j, j < K →
          compute_distance sqrt (st.centroids.getD j []) (st1.centroids.getD j []) dim < epsilon)
      ∧ ((∃ j, j < K ∧
          compute_distance sqrt (st.centroids.getD j []) (st1.centroids.getD j []) dim = epsilon)
          → conv = false) := by
  obtain ⟨sums1, counts1, st1, conv, _, h2, _, h4, h5, h6⟩ :=
    fit_iteration_spec sqrt head_data K dim epsilon st hwf
  have hpos : ∀ j, j < K → counts1.getD j 0 ≠ 0 := by
    intro j hj
    rw [(h4 j hj).1]
    exact fun h => hne j hj (List.eq_nil_of_length_eq_zero h)
  have hcent : ∀ j, j < K → st1.centroids.getD j []
      = divide_vector_by_scalar (sums1.getD j []) (counts1.getD j 0) := by
    intro j hj
    rw [h5 j hj, if_neg (hpos j hj)]
  have hiff : conv = true ↔ ∀ j, j < K →
      compute_distance sqrt (st.centroids.getD j []) (st1.centroids.getD j []) dim < epsilon := by
    rw [h6]
    constructor
    · intro h j hj
      rw [hcent j hj]; exact (h j hj).2
    · intro h j hj
      refine ⟨hpos j hj, ?_⟩
      rw [← hcent j hj]; exact h j hj
  refine ⟨st1, conv, h2, ?_, hiff, ?_⟩
  · intro j hj
    rw [hcent j hj, (h4 j hj).2, (h4 j hj).1]
    rfl
  · rintro ⟨j, hj, heq⟩
    cases conv with
    | false => rfl
    | true => exact absurd heq (ne_of_lt (hiff.mp rfl j hj))

theorem fit_iteration_converged_iff_witness :
    ∃ st1 conv, fit_iteration Rat.sqrt line_data 2 1 (1 / 1000) line_state = some (st1, conv)
      ∧ (conv = true ↔ ∀ j, j < 2 →
          compute_distance Rat.sqrt (line_state.centroids.getD j []) (st1.centroids.getD j []) 1
            < 1 / 1000) := by
  obtain ⟨st1, conv, h1, _, h3, _⟩ :=
    fit_iteration_converged_iff Rat.sqrt line_data 2 1 (1 / 1000) line_state line_state_wf
      (by
        intro j hj
        interval_cases j <;>
          (simp [line_data, line_state, find_closest_centroid, find_closest_loop,
            compute_distance, compute_distance_loop, Rat.sqrt_eq]
           try norm_num [abs_of_nonneg, abs_of_nonpos]))
  exact ⟨st1, conv, h1, h3⟩

/-! ## The driver loop -/

/-- Iteration `t + 2` from a state is iteration `t + 1` from the state one
iteration later. -/
theorem fit_iterate_shift (sqrt : α → α) (head_data : List (List α)) (K dim : Nat)
    (epsilon : α) (st st1 : FitState α) (c : Bool)
    (h : fit_iteration sqrt head_data K dim epsilon st = some (st1, c)) :
    ∀ t, fit_iterate sqrt head_data K dim epsilon (t + 2) st
      = fit_iterate sqrt head_data K dim epsilon (t + 1) st1 := by
  intro t
  induction t with
  | zero => simp [fit_iterate, h]
  | succ t ih =>
    rw [fit_iterate, ih]
    rfl

theorem fit_iterate_one (sqrt : α → α) (head_data : List (List α)) (K dim : Nat)
    (epsilon : α) (st : FitState α) :
    fit_iterate sqrt head_data K dim epsilon 1 st
      = fit_iteration sqrt head_data K dim epsilon st := by
  simp [fit_iterate]

/-- The loop of `fit` with a cap `n ≥ 1` on a well-formed state ends with the
state of the first iteration `t` that reaches the cap or reports convergence. -/
theorem fit_loop_spec (sqrt : α → α) (head_data : List (List α)) (K dim : Nat) (epsilon : α) :
    ∀ (n : Nat) (st : FitState α), WellFormed head_data K dim st →
      ∃ t st_t conv_t, 1 ≤ t ∧ t ≤ n + 1
        ∧ fit_iterate sqrt head_data K dim epsilon t st = some (st_t, conv_t)
        ∧ (t = n + 1 ∨ conv_t = true)
        ∧ (∀ s, 1 ≤ s → s < t →
            ∃ st_s, fit_iterate sqrt head_data K dim epsilon s st = some (st_s, false))
        ∧ fit_loop sqrt head_data K dim epsilon (n + 1) st = some st_t
        ∧ WellFormed head_data K dim st_t := by
  intro n
  induction n with
  | zero =>
    intro st hwf
    obtain ⟨_, _, st1, conv, _, h2, h3, _⟩ := fit_iteration_spec sqrt head_data K dim epsilon st hwf
    refine ⟨1, st1, conv, le_refl 1, le_refl 1, ?_, Or.inl rfl, ?_, ?_, h3⟩
    · rw [fit_iterate_one, h2]
    · intro s h1 h2; omega
    · cases conv <;> simp [fit_loop, h2]
  | succ n ih =>
    intro st hwf
    obtain ⟨_, _, st1, conv, _, h2, h3, _⟩ := fit_iteration_spec sqrt head_data K dim epsilon st hwf
    cases conv with
    | true =>
      refine ⟨1, st1, true, le_refl 1, by omega, ?_, Or.inr rfl, ?_, ?_, h3⟩
      · rw [fit_iterate_one, h2]
      · intro s h1 h2; omega
      · simp [fit_loop, h2]
    | false =>
      obtain ⟨t, st_t, conv_t, e1, e2, e3, e4, e5, e6, e7⟩ := ih st1 h3
      obtain ⟨u, rfl⟩ : ∃ u, t = u + 1 := ⟨t - 1, by omega⟩
      refine ⟨u + 2, st_t, conv_t, by omega, by omega, ?_, ?_, ?_, ?_, e7⟩
      · rw [fit_iterate_shift sqrt head_data K dim epsilon st st1 false h2, e3]
      · rcases e4 with h | h
        · left; omega
        · right; exact h
      · intro s hs1 hs2
        obtain ⟨v, rfl⟩ : ∃ v, s = v + 1 := ⟨s - 1, by omega⟩
        cases v with
        | zero => exact ⟨st1, by rw [fit_iterate_one, h2]⟩
        | succ v =>
          rw [fit_iterate_shift sqrt head_data K dim epsilon st st1 false h2]
          exact e5 (v + 1) (by omega) (by omega)
      · rw [fit_loop, h2]
        simpa using e6

theorem result_to_python_eq {β : Type} (dim : Nat) :
    ∀ (K : Nat) (cs : List (List β)), cs.length = K → (∀ c ∈ cs, c.length = dim) →
      result_to_python cs K dim = some cs
  | 0, [], _, _ => by simp [result_to_python]
  | 0, _ :: _, h, _ => by simp at h
  | K + 1, [], h, _ => by simp at h
  | K + 1, c :: cs, h, hd => by
      have h1 : cs.length = K := by simpa using h
      have hc : c.length = dim := hd c (by simp)
      have hl : ∀ w ∈ cs, w.length = dim := fun w hw => hd w (by simp [hw])
      simp [result_to_python, cords_to_python_eq dim c hc, result_to_python_eq dim K cs h1 hl]

theorem python_to_c_list_eq {β : Type} (l : List (List β)) (dim : Nat) (hne : l ≠ [])
    (hd : ∀ v ∈ l, v.length = dim) :
    python_to_c_list l = some (l, l.length, dim) := by
  have hmem := List.getLast_mem hne
  rw [python_to_c_list, List.getLast?_eq_getLast l hne]
  simp [hd _ hmem]

theorem initial_state_wf (data centroids : List (List α)) (dim : Nat)
    (hdata : data ≠ []) (hdd : ∀ p ∈ data, p.length = dim)
    (hcent : centroids ≠ []) (hcd : ∀ c ∈ centroids, c.length = dim) :
    WellFormed data centroids.length dim (initial_state centroids dim) := by
  refine ⟨?_, hdata, hdd, rfl, hcd, by simp [initial_state], ?_, by simp [initial_state]⟩
  · exact Nat.one_le_iff_ne_zero.mpr (fun h => hcent (List.eq_nil_of_length_eq_zero h))
  · intro s hs
    simp only [initial_state] at hs
    rw [List.eq_of_mem_replicate hs]
    simp

/-- Under the preconditions of `fit`, the call is its loop run from
`initial_state`, followed by the conversion of the centroids. -/
theorem fit_unfold (sqrt : α → α) (K0 iter : Int) (epsilon : α)
    (data centroids : List (List α)) (dim : Nat) (hdim : 1 ≤ dim)
    (hdata : data ≠ []) (hdd : ∀ p ∈ data, p.length = dim)
    (hcent : centroids ≠ []) (hcd : ∀ c ∈ centroids, c.length = dim) :
    fit sqrt K0 iter epsilon data centroids =
      match fit_loop sqrt data centroids.length dim epsilon iter.toNat
          (initial_state centroids dim) with
      | none => none
      | some st => result_to_python st.centroids centroids.length dim := by
  have hK : centroids.length ≠ 0 := fun h => hcent (List.eq_nil_of_length_eq_zero h)
  have hd : dim ≠ 0 := by omega
  simp [fit, python_to_c_list_eq data dim hdata hdd, python_to_c_list_eq centroids dim hcent hcd,
    initialize_sum_vectors, hK, hd, initial_state]

theorem ext_of_getD {β : Type} (l1 l2 : List β) (d : β) (hlen : l1.length = l2.length)
    (h : ∀ j, j < l1.length → l1.getD j d = l2.getD j d) : l1 = l2 := by
  apply List.ext_getElem hlen
  intro n h1 h2
  have := h n h1
  rwa [List.getD_eq_getElem _ _ h1, List.getD_eq_getElem _ _ h2] at this

/-- C9: for `max_iter ≥ 1`, `fit` runs iterations 1, 2, ... and stops after the
first iteration `t` with `t = max_iter` or with `converged` reported; the
centroids it returns are those produced by iteration `t`. -/
theorem fit_stops_at_cap_or_convergence (sqrt : α → α) (K0 max_iter : Int) (epsilon : α)
    (data centroids : List (List α)) (dim : Nat) (hdim : 1 ≤ dim)
    (hdata : data ≠ []) (hdd : ∀ p ∈ data, p.length = dim)
    (hcent : centroids ≠ []) (hcd : ∀ c ∈ centroids, c.length = dim)
    (hmax : 1 ≤ max_iter) :
    ∃ (t : Nat) (st_t : FitState α) (conv_t : Bool), 1 ≤ t ∧ (t : Int) ≤ max_iter
      ∧ fit_iterate sqrt data centroids.length dim epsilon t (initial_state centroids dim)
          = some (st_t, conv_t)
      ∧ ((t : Int) = max_iter ∨ conv_t = true)
      ∧ (∀ s : Nat, 1 ≤ s → s < t →
          ∃ st_s, fit_iterate sqrt data centroids.length dim epsilon s
            (initial_state centroids dim) = some (st_s, false))
      ∧ fit sqrt K0 max_iter epsilon data centroids = some st_t.centroids := by
  have hwf := initial_state_wf data centroids dim hdata hdd hcent hcd
  obtain ⟨n, hn⟩ : ∃ n, max_iter.toNat = n + 1 := ⟨max_iter.toNat - 1, by omega⟩
  obtain ⟨t, st_t, conv_t, e1, e2, e3, e4, e5, e6, e7⟩ :=
    fit_loop_spec sqrt data centroids.length dim epsilon n (initial_state centroids dim) hwf
  refine ⟨t, st_t, conv_t, e1, by omega, e3, ?_, e5, ?_⟩
  · rcases e4 with h | h
    · left; omega
    · right; exact h
  · rw [fit_unfold sqrt K0 max_iter epsilon data centroids dim hdim hdata hdd hcent hcd, hn, e6]
    exact result_to_python_eq dim centroids.length st_t.centroids e7.cent_len e7.cent_dim

theorem fit_stops_at_cap_or_convergence_witness :
    ∃ (t : Nat) (st_t : FitState ℚ) (conv_t : Bool), 1 ≤ t ∧ (t : Int) ≤ 10
      ∧ fit_iterate Rat.sqrt sample_data ([[1, 1], [10, 10]] : List (List ℚ)).length 2
          (1 / 10000) t (initial_state [[1, 1], [10, 10]] 2) = some (st_t, conv_t)
      ∧ ((t : Int) = 10 ∨ conv_t = true)
      ∧ (∀ s : Nat, 1 ≤ s → s < t →
          ∃ st_s, fit_iterate Rat.sqrt sample_data ([[1, 1], [10, 10]] : List (List ℚ)).length 2
            (1 / 10000) s (initial_state [[1, 1], [10, 10]] 2) = some (st_s, false))
      ∧ fit Rat.sqrt 2 10 (1 / 10000) sample_data [[1, 1], [10, 10]] = some st_t.centroids :=
  fit_stops_at_cap_or_convergence Rat.sqrt 2 10 (1 / 10000) sample_data [[1, 1], [10, 10]] 2
    (by decide) (by simp [sample_data]) sample_state_wf.data_dim (by simp)
    sample_state_wf.cent_dim (by decide)

theorem one_pass_length (sqrt : α → α) (data centroids : List (List α)) (dim : Nat) :
    (one_pass sqrt data centroids dim).length = centroids.length := by
  simp [one_pass]

theorem one_pass_getD (sqrt : α → α) (data centroids : List (List α)) (dim : Nat) (j : Nat)
    (hj : j < centroids.length) :
    (one_pass sqrt data centroids dim).getD j [] =
      if (cluster sqrt centroids centroids.length dim data j).length = 0 then data.headD []
      else vector_mean dim (cluster sqrt centroids centroids.length dim data j) := by
  simp [one_pass, List.getD_eq_getElem?_getD, List.getElem?_range hj, hj]

/-- One iteration of `fit` on a well-formed state replaces the centroids by
`one_pass` of them. -/
theorem fit_iteration_centroids (sqrt : α → α) (head_data : List (List α)) (K dim : Nat)
    (epsilon : α) (st : FitState α) (hwf : WellFormed head_data K dim st) :
    ∃ st1 conv, fit_iteration sqrt head_data K dim epsilon st = some (st1, conv)
      ∧ WellFormed head_data K dim st1
      ∧ st1.centroids = one_pass sqrt head_data st.centroids dim := by
  obtain ⟨sums1, counts1, st1, conv, _, h2, h3, h4, h5, _⟩ :=
    fit_iteration_spec sqrt head_data K dim epsilon st hwf
  refine ⟨st1, conv, h2, h3, ?_⟩
  apply ext_of_getD _ _ [] (by rw [h3.cent_len, one_pass_length, hwf.cent_len])
  intro j hj
  have hjK : j < K := by rw [← h3.cent_len]; exact hj
  rw [h5 j hjK, one_pass_getD sqrt head_data st.centroids dim j (by rw [hwf.cent_len]; exact hjK),
    hwf.cent_len, (h4 j hjK).1, (h4 j hjK).2]
  rfl

/-- Iteration `t` of `fit` from a well-formed state exists, is well formed,
and its centroids are `one_pass` applied `t` times. -/
theorem fit_iterate_spec (sqrt : α → α) (head_data : List (List α)) (K dim : Nat)
    (epsilon : α) (st : FitState α) (hwf : WellFormed head_data K dim st) :
    ∀ t, ∃ st_t conv_t, fit_iterate sqrt head_data K dim epsilon t st = some (st_t, conv_t)
      ∧ WellFormed head_data K dim st_t
      ∧ st_t.centroids = (fun C => one_pass sqrt head_data C dim)^[t] st.centroids := by
  intro t
  induction t with
  | zero => exact ⟨st, false, rfl, hwf, rfl⟩
  | succ t ih =>
    obtain ⟨st_t, conv_t, h1, h2, h3⟩ := ih
    obtain ⟨st1, conv, e1, e2, e3⟩ :=
      fit_iteration_centroids sqrt head_data K dim epsilon st_t h2
    refine ⟨st1, conv, ?_, e2, ?_⟩
    · rw [fit_iterate, h1]
      exact e1
    · rw [e3, h3, Function.iterate_succ_apply']

/-- The loop of `fit` from a well-formed state ends, for every cap, in a
well-formed state whose centroids are `one_pass` applied `t` times, with
`t` at most the cap and at least 1 when the cap is. -/
theorem fit_loop_total (sqrt : α → α) (head_data : List (List α)) (K dim : Nat)
    (epsilon : α) (st : FitState α) (hwf : WellFormed head_data K dim st) (n : Nat) :
    ∃ st1 t, fit_loop sqrt head_data K dim epsilon n st = some st1
      ∧ WellFormed head_data K dim st1 ∧ t ≤ n ∧ (1 ≤ n → 1 ≤ t)
      ∧ st1.centroids = (fun C => one_pass sqrt head_data C dim)^[t] st.centroids := by
  cases n with
  | zero => exact ⟨st, 0, rfl, hwf, le_refl 0, fun h => absurd h (by omega), rfl⟩
  | succ n =>
    obtain ⟨t, st_t, conv_t, e1, e2, e3, _, _, e6, e7⟩ :=
      fit_loop_spec sqrt head_data K dim epsilon n st hwf
    obtain ⟨st2, conv2, f1, _, f3⟩ := fit_iterate_spec sqrt head_data K dim epsilon st hwf t
    have hsame : st2 = st_t := by
      have := Option.some.inj (f1.symm.trans e3)
      exact (Prod.mk.inj this).1
    subst hsame
    exact ⟨st2, t, e6, e7, e2, fun _ => e1, f3⟩

/-- Under the preconditions of `fit` the call returns, for every iteration
cap, `one_pass` applied `t` times to the initial centroids, with `t` at most
the cap and at least 1 when the cap is. -/
theorem fit_result (sqrt : α → α) (K0 max_iter : Int) (epsilon : α)
    (data centroids : List (List α)) (dim : Nat) (hdim : 1 ≤ dim)
    (hdata : data ≠ []) (hdd : ∀ p ∈ data, p.length = dim)
    (hcent : centroids ≠ []) (hcd : ∀ c ∈ centroids, c.length = dim) :
    ∃ t, t ≤ max_iter.toNat ∧ (1 ≤ max_iter → 1 ≤ t)
      ∧ fit sqrt K0 max_iter epsilon data centroids
          = some ((fun C => one_pass sqrt data C dim)^[t] centroids)
      ∧ ((fun C => one_pass sqrt data C dim)^[t] centroids).length = centroids.length
      ∧ ∀ c ∈ (fun C => one_pass sqrt data C dim)^[t] centroids, c.length = dim := by
  have hwf := initial_state_wf data centroids dim hdata hdd hcent hcd
  obtain ⟨st1, t, e1, e2, e3, e4, e5⟩ := fit_loop_total sqrt data centroids.length dim epsilon
    (initial_state centroids dim) hwf max_iter.toNat
  have e5a : st1.centroids = (fun C => one_pass sqrt data C dim)^[t] centroids := e5
  refine ⟨t, e3, fun h => e4 (by omega), ?_, ?_, ?_⟩
  · rw [fit_unfold sqrt K0 max_iter epsilon data centroids dim hdim hdata hdd hcent hcd, e1,
      ← e5a]
    exact result_to_python_eq dim centroids.length st1.centroids e2.cent_len e2.cent_dim
  · rw [← e5a]; exact e2.cent_len
  · rw [← e5a]; exact e2.cent_dim

/-- C13: under the preconditions of `fit`, with `initial_centroids` of exactly
`K` entries, the number of centroids returned is `K`, for every `max_iter`
and `epsilon`. -/
theorem fit_returns_K_centroids (sqrt : α → α) (K max_iter : Int) (epsilon : α)
    (data centroids : List (List α)) (dim : Nat) (hdim : 1 ≤ dim)
    (hdata : data ≠ []) (hdd : ∀ p ∈ data, p.length = dim)
    (hcd : ∀ c ∈ centroids, c.length = dim)
    (hK : 1 ≤ K) (hlen : (centroids.length : Int) = K) :
    ∃ result, fit sqrt K max_iter epsilon data centroids = some result
      ∧ (result.length : Int) = K := by
  have hcent : centroids ≠ [] := by
    intro h
    rw [h] at hlen
    simp at hlen
    omega
  obtain ⟨t, _, _, h3, h4, _⟩ :=
    fit_result sqrt K max_iter epsilon data centroids dim hdim hdata hdd hcent hcd
  exact ⟨_, h3, by rw [h4, hlen]⟩

theorem fit_returns_K_centroids_witness :
    ∃ result, fit Rat.sqrt 2 (-3) (1 / 10000) sample_data [[1, 1], [10, 10]] = some result
      ∧ (result.length : Int) = 2 :=
  fit_returns_K_centroids Rat.sqrt 2 (-3) (1 / 10000) sample_data [[1, 1], [10, 10]] 2
    (by decide) (by simp [sample_data]) sample_state_wf.data_dim sample_state_wf.cent_dim
    (by decide) (by decide)

/-- C14: under the preconditions of `fit` (all points and initial centroids of
one length `dim ≥ 1`), every returned centroid has exactly `dim` coordinates,
and after every iteration every centroid and every accumulator has exactly
`dim` coordinates. -/
theorem fit_keeps_dimension (sqrt : α → α) (K max_iter : Int) (epsilon : α)
    (data centroids : List (List α)) (dim : Nat) (hdim : 1 ≤ dim)
    (hdata : data ≠ []) (hdd : ∀ p ∈ data, p.length = dim)
    (hcent : centroids ≠ []) (hcd : ∀ c ∈ centroids, c.length = dim) :
    (∃ result, fit sqrt K max_iter epsilon data centroids = some result
        ∧ ∀ c ∈ result, c.length = dim)
      ∧ ∀ t, ∃ st_t conv_t,
          fit_iterate sqrt data centroids.length dim epsilon t (initial_state centroids dim)
            = some (st_t, conv_t)
          ∧ (∀ c ∈ st_t.centroids, c.length = dim)
          ∧ (∀ s ∈ st_t.sums, s.length = dim) := by
  refine ⟨?_, ?_⟩
  · obtain ⟨t, _, _, h3, _, h5⟩ :=
      fit_result sqrt K max_iter epsilon data centroids dim hdim hdata hdd hcent hcd
    exact ⟨_, h3, h5⟩
  · intro t
    obtain ⟨st_t, conv_t, h1, h2, _⟩ := fit_iterate_spec sqrt data centroids.length dim epsilon
      (initial_state centroids dim) (initial_state_wf data centroids dim hdata hdd hcent hcd) t
    exact ⟨st_t, conv_t, h1, h2.cent_dim, h2.sums_dim⟩

theorem fit_keeps_dimension_witness :
    ∃ result, fit Rat.sqrt 2 10 (1 / 10000) sample_data [[1, 1], [10, 10]] = some result
      ∧ ∀ c ∈ result, c.length = 2 :=
  (fit_keeps_dimension Rat.sqrt 2 10 (1 / 10000) sample_data [[1, 1], [10, 10]] 2
    (by decide) (by simp [sample_data]) sample_state_wf.data_dim (by simp)
    sample_state_wf.cent_dim).1

/-! ## A single cluster -/

theorem find_closest_single (sqrt : α → α) (c p : List α) (dim : Nat) :
    find_closest_centroid sqrt [c] p 1 dim = some 0 := by
  simp [find_closest_centroid, find_closest_loop]

/-- With one centroid, one pass yields the mean of the whole dataset. -/
theorem one_pass_single (sqrt : α → α) (data : List (List α)) (centroids : List (List α))
    (dim : Nat) (hdata : data ≠ []) (hlen : centroids.length = 1) :
    one_pass sqrt data centroids dim = [vector_mean dim data] := by
  match centroids, hlen with
  | [c], _ =>
    have hcl : cluster sqrt [c] 1 dim data 0 = data := by
      simp [cluster, find_closest_single]
    simp [one_pass, List.range_succ, hcl, hdata]

theorem iterate_one_pass_single (sqrt : α → α) (data : List (List α)) (c : List α)
    (dim : Nat) (hdata : data ≠ []) :
    ∀ t, 1 ≤ t → (fun C => one_pass sqrt data C dim)^[t] [c] = [vector_mean dim data] := by
  intro t ht
  obtain ⟨u, rfl⟩ : ∃ u, t = u + 1 := ⟨t - 1, by omega⟩
  rw [Function.iterate_succ_apply']
  apply one_pass_single sqrt data _ dim hdata
  have hl : ∀ n, ((fun C => one_pass sqrt data C dim)^[n] [c]).length = 1 := by
    intro n
    induction n with
    | zero => rfl
    | succ n ih => rw [Function.iterate_succ_apply', one_pass_length, ih]
  exact hl u

/-- C11: for `K = 1`, a non-empty dataset of uniform dimension, an initial
centroid of that dimension and `max_iter ≥ 1`, `fit` returns a single centroid,
the coordinate-wise arithmetic mean of all points, whatever `epsilon` is. -/
theorem fit_single_cluster_is_mean (sqrt : α → α) (max_iter : Int) (epsilon : α)
    (data : List (List α)) (c : List α) (dim : Nat) (hdim : 1 ≤ dim)
    (hdata : data ≠ []) (hdd : ∀ p ∈ data, p.length = dim) (hc : c.length = dim)
    (hmax : 1 ≤ max_iter) :
    fit sqrt 1 max_iter epsilon data [c] = some [vector_mean dim data]
      ∧ (vector_mean dim data).length = dim
      ∧ ∀ i, i < dim →
          (vector_mean dim data).getD i 0
            = (data.map (fun p => p.getD i 0)).sum / (data.length : α) := by
  obtain ⟨t, _, h2, h3, _⟩ := fit_result sqrt 1 max_iter epsilon data [c] dim hdim hdata hdd
    (by simp) (by intro c1 h1; rw [List.mem_singleton.mp h1]; exact hc)
  have hsl := vector_sum_length dim data hdd
  refine ⟨?_, by simp [vector_mean, hsl], ?_⟩
  · rw [h3, iterate_one_pass_single sqrt data c dim hdata t (h2 hmax)]
  · intro i hi
    rw [← vector_sum_getD dim i hi data hdd]
    simp [vector_mean, List.getD_eq_getElem?_getD, List.getElem?_map, hsl, hi]

theorem fit_single_cluster_is_mean_witness :
    fit Rat.sqrt 1 7 (1 / 1000) sample_data [[100, 100]] = some [vector_mean 2 sample_data] :=
  (fit_single_cluster_is_mean Rat.sqrt 7 (1 / 1000) sample_data [100, 100] 2 (by decide)
    (by simp [sample_data]) sample_state_wf.data_dim rfl (by decide)).1

/-! ## The example scenario of the specification -/

theorem find_closest_two (sqrt : α → α) (c0 c1 p : List α) (dim : Nat) :
    find_closest_centroid sqrt [c0, c1] p 2 dim
      = some (if compute_distance sqrt c1 p dim < compute_distance sqrt c0 p dim then 1 else 0) := by
  simp only [find_closest_centroid, find_closest_loop]
  split <;> rfl

theorem compute_distance_two (sqrt : α → α) (a b x y : α) :
    compute_distance sqrt [a, b] [x, y] 2 = sqrt ((a - x) * (a - x) + (b - y) * (b - y)) := by
  simp [compute_distance, compute_distance_loop]

theorem not_sqrt_lt_of_le (sqrt : α → α)
    (hlt : ∀ x y : α, 0 ≤ x → x < y → sqrt x < sqrt y) :
    ∀ x y : α, 0 ≤ x → x ≤ y → ¬ sqrt y < sqrt x := by
  intro x y hx hxy h
  rcases eq_or_lt_of_le hxy with h1 | h1
  · rw [h1] at h; exact lt_irrefl _ h
  · exact lt_asymm h (hlt x y hx h1)

/-- One pass over the example dataset from the example's initial centroids. -/
theorem example_first_pass (sqrt : α → α)
    (hlt : ∀ x y : α, 0 ≤ x → x < y → sqrt x < sqrt y) :
    one_pass sqrt [[1, 1], [1, 2], [10, 10], [10, 11]] [[1, 1], [10, 10]] 2
      = [[1, 3 / 2], [10, 21 / 2]] := by
  have hnlt := not_sqrt_lt_of_le sqrt hlt
  have e1 : find_closest_centroid sqrt [[1, 1], [10, 10]] [1, 1] 2 2 = some 0 := by
    rw [find_closest_two, compute_distance_two, compute_distance_two,
      if_neg (hnlt _ _ (by norm_num) (by norm_num))]
  have e2 : find_closest_centroid sqrt [[1, 1], [10, 10]] [1, 2] 2 2 = some 0 := by
    rw [find_closest_two, compute_distance_two, compute_distance_two,
      if_neg (hnlt _ _ (by norm_num) (by norm_num))]
  have e3 : find_closest_centroid sqrt [[1, 1], [10, 10]] [10, 10] 2 2 = some 1 := by
    rw [find_closest_two, compute_distance_two, compute_distance_two,
      if_pos (hlt _ _ (by norm_num) (by norm_num))]
  have e4 : find_closest_centroid sqrt [[1, 1], [10, 10]] [10, 11] 2 2 = some 1 := by
    rw [find_closest_two, compute_distance_two, compute_distance_two,
      if_pos (hlt _ _ (by norm_num) (by norm_num))]
  simp [one_pass, cluster, List.range_succ, List.filter_cons, e1, e2, e3, e4, vector_mean,
    vector_sum]
  norm_num

/-- The centroids of the example scenario are a fixed point of one pass. -/
theorem example_fixed_point (sqrt : α → α)
    (hlt : ∀ x y : α, 0 ≤ x → x < y → sqrt x < sqrt y) :
    one_pass sqrt [[1, 1], [1, 2], [10, 10], [10, 11]] [[1, 3 / 2], [10, 21 / 2]] 2
      = [[1, 3 / 2], [10, 21 / 2]] := by
  have hnlt := not_sqrt_lt_of_le sqrt hlt
  have e1 : find_closest_centroid sqrt [[1, 3 / 2], [10, 21 / 2]] [1, 1] 2 2 = some 0 := by
    rw [find_closest_two, compute_distance_two, compute_distance_two,
      if_neg (hnlt _ _ (by norm_num) (by norm_num))]
  have e2 : find_closest_centroid sqrt [[1, 3 / 2], [10, 21 / 2]] [1, 2] 2 2 = some 0 := by
    rw [find_closest_two, compute_distance_two, compute_distance_two,
      if_neg (hnlt _ _ (by norm_num) (by norm_num))]
  have e3 : find_closest_centroid sqrt [[1, 3 / 2], [10, 21 / 2]] [10, 10] 2 2 = some 1 := by
    rw [find_closest_two, compute_distance_two, compute_distance_two,
      if_pos (hlt _ _ (by norm_num) (by norm_num))]
  have e4 : find_closest_centroid sqrt [[1, 3 / 2], [10, 21 / 2]] [10, 11] 2 2 = some 1 := by
    rw [find_closest_two, compute_distance_two, compute_distance_two,
      if_pos (hlt _ _ (by norm_num) (by norm_num))]
  simp [one_pass, cluster, List.range_succ, List.filter_cons, e1, e2, e3, e4, vector_mean,
    vector_sum]
  norm_num

/-- C12: for points `[[1,1],[1,2],[10,10],[10,11]]`, `K = 2`, initial centroids
`[[1,1],[10,10]]`, `max_iter = 10` and `epsilon = 0.0001`, `fit` returns
exactly `[[1, 1.5], [10, 10.5]]`, in that order, for every square root function
that is strictly increasing on the non-negative numbers. -/
theorem fit_example_scenario (sqrt : α → α)
    (hlt : ∀ x y : α, 0 ≤ x → x < y → sqrt x < sqrt y) :
    fit sqrt 2 10 (1 / 10000) [[1, 1], [1, 2], [10, 10], [10, 11]] [[1, 1], [10, 10]]
      = some [[1, 3 / 2], [10, 21 / 2]] := by
  obtain ⟨t, _, h2, h3, _⟩ := fit_result sqrt 2 10 (1 / 10000)
    [[1, 1], [1, 2], [10, 10], [10, 11]] [[1, 1], [10, 10]] 2 (by decide) (by simp)
    (by
      intro p hp
      simp only [List.mem_cons, List.mem_singleton, List.not_mem_nil, or_false] at hp
      rcases hp with rfl | rfl | rfl | rfl <;> rfl)
    (by simp)
    (by
      intro p hp
      simp only [List.mem_cons, List.mem_singleton, List.not_mem_nil, or_false] at hp
      rcases hp with rfl | rfl <;> rfl)
  obtain ⟨u, rfl⟩ : ∃ u, t = u + 1 := ⟨t - 1, by have := h2 (by decide); omega⟩
  have hiter : (fun C => one_pass sqrt [[1, 1], [1, 2], [10, 10], [10, 11]] C 2)^[u + 1]
      [[1, 1], [10, 10]] = [[1, 3 / 2], [10, 21 / 2]] := by
    rw [Function.iterate_succ_apply]
    show (fun C => one_pass sqrt [[1, 1], [1, 2], [10, 10], [10, 11]] C 2)^[u]
      (one_pass sqrt [[1, 1], [1, 2], [10, 10], [10, 11]] [[1, 1], [10, 10]] 2) = _
    rw [example_first_pass sqrt hlt]
    exact @Function.iterate_fixed _ (fun C => one_pass sqrt [[1, 1], [1, 2], [10, 10], [10, 11]] C 2)
      [[1, 3 / 2], [10, 21 / 2]] (example_fixed_point sqrt hlt) u
  rw [h3, hiter]

theorem fit_example_scenario_witness :
    fit Real.sqrt 2 10 (1 / 10000) [[1, 1], [1, 2], [10, 10], [10, 11]] [[1, 1], [10, 10]]
      = some [[1, 3 / 2], [10, 21 / 2]] :=
  fit_example_scenario Real.sqrt (fun _ _ hx hxy => Real.sqrt_lt_sqrt hx hxy)

/-! ## The loops as functions of the centroids -/

/-- One iteration of `fit` on a well-formed state: the new centroids are
`one_pass` of the old ones and the flag is `pass_converged`. -/
theorem fit_iteration_pass (sqrt : α → α) (head_data : List (List α)) (K dim : Nat)
    (epsilon : α) (st : FitState α) (hwf : WellFormed head_data K dim st) :
    ∃ st1, fit_iteration sqrt head_data K dim epsilon st
        = some (st1, pass_converged sqrt head_data st.centroids dim epsilon)
      ∧ WellFormed head_data K dim st1
      ∧ st1.centroids = one_pass sqrt head_data st.centroids dim := by
  obtain ⟨sums1, counts1, st1, conv, _, h2, h3, h4, h5, h6⟩ :=
    fit_iteration_spec sqrt head_data K dim epsilon st hwf
  obtain ⟨st2, conv2, g1, _, g3⟩ := fit_iteration_centroids sqrt head_data K dim epsilon st hwf
  have hsame : (st2, conv2) = (st1, conv) := Option.some.inj (g1.symm.trans h2)
  obtain ⟨hs, _⟩ := Prod.mk.inj hsame
  subst hs
  have hflag : conv = pass_converged sqrt head_data st.centroids dim epsilon := by
    rw [Bool.eq_iff_iff, h6]
    simp only [pass_converged, List.all_eq_true, List.mem_range, Bool.and_eq_true,
      decide_eq_true_eq, hwf.cent_len]
    constructor
    · intro h j hj
      obtain ⟨ha, hb⟩ := h j hj
      have hne : (cluster sqrt st.centroids K dim head_data j).length ≠ 0 := by
        rw [← (h4 j hj).1]; exact ha
      refine ⟨hne, ?_⟩
      rw [← g3, h5 j hj, if_neg ha]
      exact hb
    · intro h j hj
      obtain ⟨ha, hb⟩ := h j hj
      have hne : counts1.getD j 0 ≠ 0 := by rw [(h4 j hj).1]; exact ha
      refine ⟨hne, ?_⟩
      rw [← g3, h5 j hj, if_neg hne] at hb
      exact hb
  rw [hflag] at h2
  exact ⟨st2, h2, h3, g3⟩

/-- The loop of `fit` from a well-formed state computes `lloyd_loop` on the
centroids. -/
theorem fit_loop_eq_lloyd (sqrt : α → α) (head_data : List (List α)) (K dim : Nat)
    (epsilon : α) :
    ∀ (n : Nat) (st : FitState α), WellFormed head_data K dim st →
      ∃ st1, fit_loop sqrt head_data K dim epsilon n st = some st1
        ∧ WellFormed head_data K dim st1
        ∧ st1.centroids = lloyd_loop sqrt head_data dim epsilon n st.centroids := by
  intro n
  induction n with
  | zero => intro st hwf; exact ⟨st, rfl, hwf, rfl⟩
  | succ n ih =>
    intro st hwf
    obtain ⟨st1, h1, h2, h3⟩ := fit_iteration_pass sqrt head_data K dim epsilon st hwf
    by_cases hc : pass_converged sqrt head_data st.centroids dim epsilon = true
    · refine ⟨st1, ?_, h2, ?_⟩
      · rw [fit_loop, h1]; simp [hc]
      · rw [lloyd_loop, if_pos hc, h3]
    · obtain ⟨st2, e1, e2, e3⟩ := ih st1 h2
      refine ⟨st2, ?_, e2, ?_⟩
      · rw [fit_loop, h1]; simp [hc, e1]
      · rw [lloyd_loop, if_neg hc, e3, h3]

/-- Under the preconditions of `fit`, the call returns `lloyd_loop` of the
initial centroids with the iteration cap as bound. -/
theorem fit_eq_lloyd (sqrt : α → α) (K0 max_iter : Int) (epsilon : α)
    (data centroids : List (List α)) (dim : Nat) (hdim : 1 ≤ dim)
    (hdata : data ≠ []) (hdd : ∀ p ∈ data, p.length = dim)
    (hcent : centroids ≠ []) (hcd : ∀ c ∈ centroids, c.length = dim) :
    fit sqrt K0 max_iter epsilon data centroids
      = some (lloyd_loop sqrt data dim epsilon max_iter.toNat centroids) := by
  obtain ⟨st1, e1, e2, e3⟩ := fit_loop_eq_lloyd sqrt data centroids.length dim epsilon
    max_iter.toNat (initial_state centroids dim)
    (initial_state_wf data centroids dim hdata hdd hcent hcd)
  have e3a : st1.centroids = lloyd_loop sqrt data dim epsilon max_iter.toNat centroids := e3
  rw [fit_unfold sqrt K0 max_iter epsilon data centroids dim hdim hdata hdd hcent hcd, e1, ← e3a]
  exact result_to_python_eq dim centroids.length st1.centroids e2.cent_len e2.cent_dim

/-! ## Running `fit` again on its own output -/

theorem compute_distance_one (a b : ℚ) :
    compute_distance Rat.sqrt [a] [b] 1 = |a - b| := by
  simp [compute_distance, compute_distance_loop, Rat.sqrt_eq]

theorem find_closest_line (a b x : ℚ) :
    find_closest_centroid Rat.sqrt [[a], [b]] [x] 2 1
      = some (if |b - x| < |a - x| then 1 else 0) := by
  rw [find_closest_two, compute_distance_one, compute_distance_one]

theorem boundary_data_dim : ∀ p ∈ boundary_data, p.length = 1 := by
  intro p hp
  simp only [boundary_data, List.mem_cons, List.mem_singleton, List.not_mem_nil, or_false] at hp
  rcases hp with rfl | rfl | rfl <;> rfl

theorem boundary_pass_one :
    one_pass Rat.sqrt boundary_data [[0], [10]] 1 = [[-1 / 2000], [10]] := by
  simp [boundary_data, one_pass, cluster, List.range_succ, List.filter_cons, find_closest_line,
    vector_mean, vector_sum]
  norm_num [abs_of_nonneg, abs_of_nonpos, abs_lt, lt_abs]
  simp [vector_sum]
  norm_num

theorem boundary_pass_two :
    one_pass Rat.sqrt boundary_data [[-1 / 2000], [10]] 1 = [[-5001 / 1000], [15 / 2]] := by
  simp [boundary_data, one_pass, cluster, List.range_succ, List.filter_cons, find_closest_line,
    vector_mean, vector_sum]
  norm_num [abs_of_nonneg, abs_of_nonpos, abs_lt, lt_abs]
  simp [vector_sum]
  norm_num

theorem boundary_pass_three :
    one_pass Rat.sqrt boundary_data [[-5001 / 1000], [15 / 2]] 1
      = [[-5001 / 1000], [15 / 2]] := by
  simp [boundary_data, one_pass, cluster, List.range_succ, List.filter_cons, find_closest_line,
    vector_mean, vector_sum]
  norm_num [abs_of_nonneg, abs_of_nonpos, abs_lt, lt_abs]
  simp [vector_sum]
  norm_num

theorem boundary_flag_one :
    pass_converged Rat.sqrt boundary_data [[0], [10]] 1 (1 / 1000) = true := by
  rw [pass_converged, boundary_pass_one]
  simp [boundary_data, cluster, List.range_succ, List.filter_cons, find_closest_line,
    compute_distance_one]
  norm_num [abs_of_nonneg, abs_of_nonpos, abs_lt, lt_abs]
  simp

theorem boundary_flag_two :
    pass_converged Rat.sqrt boundary_data [[-1 / 2000], [10]] 1 (1 / 1000) = false := by
  rw [pass_converged, boundary_pass_two]
  simp [boundary_data, cluster, List.range_succ, List.filter_cons, find_closest_line,
    compute_distance_one]
  norm_num [abs_of_nonneg, abs_of_nonpos, abs_lt, lt_abs]

theorem boundary_flag_three :
    pass_converged Rat.sqrt boundary_data [[-5001 / 1000], [15 / 2]] 1 (1 / 1000) = true := by
  rw [pass_converged, boundary_pass_three]
  simp [boundary_data, cluster, List.range_succ, List.filter_cons, find_closest_line,
    compute_distance_one]
  norm_num [abs_of_nonneg, abs_of_nonpos, abs_lt, lt_abs]
  simp

/-- C15 fails as stated: on `boundary_data` with initial centroids
`[[0], [10]]`, `max_iter = 10` and `epsilon = 0.001`, `fit` stops by
convergence with `[[-1/2000], [10]]`; run again from that output with
`max_iter = 100` it returns `[[-5001/1000], [15/2]]`, whose first centroid is
not at distance less than `epsilon` from the first centroid of the output. -/
theorem fit_rerun_counterexample :
    fit Rat.sqrt 2 10 (1 / 1000) boundary_data [[0], [10]] = some [[-1 / 2000], [10]]
      ∧ fit Rat.sqrt 2 100 (1 / 1000) boundary_data [[-1 / 2000], [10]]
          = some [[-5001 / 1000], [15 / 2]]
      ∧ ¬ compute_distance Rat.sqrt [-1 / 2000] [-5001 / 1000] 1 < 1 / 1000 := by
  refine ⟨?_, ?_, ?_⟩
  · rw [fit_eq_lloyd Rat.sqrt 2 10 (1 / 1000) boundary_data [[0], [10]] 1 (by decide)
      (by simp [boundary_data]) boundary_data_dim (by simp)
      (by intro c hc; simp at hc; rcases hc with rfl | rfl <;> rfl)]
    have h10 : (10 : Int).toNat = 9 + 1 := rfl
    rw [h10, lloyd_loop, if_pos boundary_flag_one, boundary_pass_one]
  · rw [fit_eq_lloyd Rat.sqrt 2 100 (1 / 1000) boundary_data [[-1 / 2000], [10]] 1 (by decide)
      (by simp [boundary_data]) boundary_data_dim (by simp)
      (by intro c hc; simp at hc; rcases hc with rfl | rfl <;> rfl)]
    have h100 : (100 : Int).toNat = 98 + 1 + 1 := rfl
    rw [h100, lloyd_loop, boundary_flag_two, boundary_pass_two]
    simp only [Bool.false_eq_true, if_false]
    rw [lloyd_loop, if_pos boundary_flag_three, boundary_pass_three]
  · rw [compute_distance_one]
    norm_num [abs_of_nonneg]

/-! ## The standalone loop as a function of the centroids -/

/-- One iteration of the standalone loop on a well-formed state: the new
centroids are `one_pass` of the old ones and `changed` is `pass_changed`. -/
theorem main_iteration_pass (sqrt : α → α) (head_vec : List (List α)) (K dim : Nat)
    (st : FitState α) (hwf : WellFormed head_vec K dim st) (hdim : 1 ≤ dim) :
    ∃ st1, main_iteration sqrt head_vec K dim st
        = some (st1, pass_changed sqrt head_vec st.centroids dim)
      ∧ WellFormed head_vec K dim st1
      ∧ st1.centroids = one_pass sqrt head_vec st.centroids dim := by
  obtain ⟨sums1, counts1, st1, changed, _, h2, h3, h4, h5, h6⟩ :=
    main_iteration_spec sqrt head_vec K dim st hwf hdim
  have hone : st1.centroids = one_pass sqrt head_vec st.centroids dim := by
    apply ext_of_getD _ _ [] (by rw [h3.cent_len, one_pass_length, hwf.cent_len])
    intro j hj
    have hjK : j < K := by rw [← h3.cent_len]; exact hj
    rw [h5 j hjK, one_pass_getD sqrt head_vec st.centroids dim j (by rw [hwf.cent_len]; exact hjK),
      hwf.cent_len, (h4 j hjK).1, (h4 j hjK).2]
    rfl
  have hflag : changed = pass_changed sqrt head_vec st.centroids dim := by
    rw [Bool.eq_iff_iff, h6]
    simp only [pass_changed, List.any_eq_true, List.mem_range, decide_eq_true_eq, hwf.cent_len,
      ← hone]
  rw [hflag] at h2
  exact ⟨st1, h2, h3, hone⟩

/-- The standalone loop from a well-formed state computes `standalone_loop` on
the centroids. -/
theorem main_loop_eq_standalone (sqrt : α → α) (head_vec : List (List α)) (K dim : Nat)
    (hdim : 1 ≤ dim) :
    ∀ (n : Nat) (st : FitState α), WellFormed head_vec K dim st →
      ∃ st1, main_loop sqrt head_vec K dim n st = some st1
        ∧ WellFormed head_vec K dim st1
        ∧ st1.centroids = standalone_loop sqrt head_vec dim n st.centroids := by
  intro n
  induction n with
  | zero => intro st hwf; exact ⟨st, rfl, hwf, rfl⟩
  | succ n ih =>
    intro st hwf
    obtain ⟨st1, h1, h2, h3⟩ := main_iteration_pass sqrt head_vec K dim st hwf hdim
    by_cases hc : pass_changed sqrt head_vec st.centroids dim = true
    · obtain ⟨st2, e1, e2, e3⟩ := ih st1 h2
      refine ⟨st2, ?_, e2, ?_⟩
      · rw [main_loop, h1]; simp [hc, e1]
      · rw [standalone_loop, if_pos hc, e3, h3]
    · refine ⟨st1, ?_, h2, ?_⟩
      · rw [main_loop, h1]; simp [hc]
      · rw [standalone_loop, if_neg hc, h3]

/-! ## The set-up phase of the standalone program -/

theorem atoi_eq (str : List Char) (h : digits_value str 0 ≤ INT_MAX) :
    atoi str = some (digits_value str 0 : Int) := by
  simp [atoi, h]

theorem cords_to_python_take {β : Type} :
    ∀ (dim : Nat) (v : List β), dim ≤ v.length → cords_to_python v dim = some (v.take dim)
  | 0, _, _ => by simp [cords_to_python]
  | dim + 1, [], h => by simp at h
  | dim + 1, c :: v, h => by
      have h1 : dim ≤ v.length := by simpa using h
      simp [cords_to_python, cords_to_python_take dim v h1]

theorem initialize_centroids_loop_take {β : Type} (dim : Nat) :
    ∀ (K : Nat) (l : List (List β)), (∀ v ∈ l, v.length = dim) →
      initialize_centroids_loop l K dim = some (l.take K)
  | 0, _, _ => by simp [initialize_centroids_loop]
  | K + 1, [], _ => by simp [initialize_centroids_loop]
  | K + 1, v :: l, hd => by
      have hv : v.length = dim := hd v (by simp)
      have hl : ∀ w ∈ l, w.length = dim := fun w hw => hd w (by simp [hw])
      simp [initialize_centroids_loop, cords_to_python_eq dim v hv,
        initialize_centroids_loop_take dim K l hl]

theorem initialize_centroids_take {β : Type} (K dim : Nat) (l : List (List β)) (hK : 1 ≤ K)
    (hdim : 1 ≤ dim) (hl : l ≠ []) (hd : ∀ v ∈ l, v.length = dim) :
    initialize_centroids l K dim = some (l.take K) := by
  have hne : dim ≠ 0 := by omega
  rw [initialize_centroids, if_neg hne, initialize_centroids_loop_take dim K l hd]
  match l, hl, K, hK with
  | [], hl, _, _ => exact absurd rfl hl
  | _ :: _, _, K + 1, _ => rfl

/-- The set-up phase of `main` once both arguments passed `isInteger`: the
chain of range checks, with `K` and `max_iter` the values of the arguments. -/
theorem main_start_eq (arg1 : List Char) (arg2 : Option (List Char)) (head_vec : List (List α))
    (h1 : isInteger (some arg1) = true) (hr1 : digits_value arg1 0 ≤ INT_MAX)
    (h2 : ∀ x, arg2 = some x → isInteger (some x) = true)
    (hr2 : ∀ x, arg2 = some x → digits_value x 0 ≤ INT_MAX) :
    main_start (arg1 :: arg2.toList) head_vec =
      if digits_value arg1 0 ≤ 1 then some (.rejected ERROR_NUM_CLUSTERS)
      else if given_max_iter arg2 ≤ 1 ∨ 800 ≤ given_max_iter arg2 then
        some (.rejected ERROR_MAX_ITER)
      else if head_vec.length = 0 ∨ find_dim head_vec.head? ≤ 0 then
        some (.rejected ERROR_OCCURED)
      else if head_vec.length ≤ digits_value arg1 0 then some (.rejected ERROR_NUM_CLUSTERS)
      else
        match initialize_centroids head_vec (digits_value arg1 0) (find_dim head_vec.head?),
          initialize_sum_vectors (digits_value arg1 0) (find_dim head_vec.head?) with
        | some centroids, some sum_vectors =>
          some (.loop (digits_value arg1 0) (given_max_iter arg2) (find_dim head_vec.head?)
            ⟨centroids, sum_vectors, List.replicate (digits_value arg1 0) 0⟩)
        | _, _ => none := by
  have c1 : ((digits_value arg1 0 : Nat) : Int) ≤ 1 ↔ digits_value arg1 0 ≤ 1 := by
    constructor <;> intro h <;> omega
  have c4 : ((digits_value arg1 0 : Nat) : Int) ≥ (head_vec.length : Int)
      ↔ head_vec.length ≤ digits_value arg1 0 := by
    constructor <;> intro h <;> omega
  cases arg2 with
  | none =>
    have c2 : ((400 : Int) ≤ 1 ∨ (400 : Int) ≥ 800) ↔ False := by norm_num
    simp only [Option.toList, main_start, h1, not_true_eq_false, if_false, atoi_eq arg1 hr1,
      MAX_ITER_DEFAULT, c1, c2, c4, given_max_iter, Int.toNat_ofNat]
    have c3 : ((400 : Nat) ≤ 1 ∨ 800 ≤ (400 : Nat)) ↔ False := by norm_num
    simp only [c3, if_false]
    rfl
  | some x =>
    have hx := h2 x rfl
    have hrx := hr2 x rfl
    have c2 : (((digits_value x 0 : Nat) : Int) ≤ 1 ∨ ((digits_value x 0 : Nat) : Int) ≥ 800)
        ↔ (digits_value x 0 ≤ 1 ∨ 800 ≤ digits_value x 0) := by
      constructor <;> intro h <;> omega
    simp only [Option.toList, main_start, h1, hx, not_true_eq_false, if_false, atoi_eq arg1 hr1,
      atoi_eq x hrx, Option.map_some', c1, c2, c4, given_max_iter, Int.toNat_ofNat]

theorem isInteger_loop_iff : ∀ (str : List Char),
    isInteger_loop str = true ↔ ∀ ch ∈ str, '0' ≤ ch ∧ ch ≤ '9'
  | [] => by simp [isInteger_loop]
  | ch :: rest => by
      rw [isInteger_loop]
      by_cases h : ch < '0' ∨ ch > '9'
      · rw [if_pos h]
        simp only [Bool.false_eq_true, List.mem_cons, forall_eq_or_imp, false_iff, not_and]
        intro h1
        rcases h with h | h
        · exact absurd h1.1 (not_le.mpr h)
        · exact absurd h1.2 (not_le.mpr h)
      · rw [if_neg h, isInteger_loop_iff rest]
        have h1 : '0' ≤ ch ∧ ch ≤ '9' := by
          constructor
          · exact not_lt.mp (fun h2 => h (Or.inl h2))
          · exact not_lt.mp (fun h2 => h (Or.inr h2))
        simp [h1]

/-- The function `isInteger` accepts exactly the digit strings. -/
theorem isInteger_iff (str : List Char) : isInteger (some str) = true ↔ digit_string str := by
  cases str with
  | nil => simp [isInteger, digit_string]
  | cons ch rest =>
    rw [isInteger, isInteger_loop_iff]
    simp [digit_string]

theorem main_start_not_integer (arg1 : List Char) (arg2 : Option (List Char))
    (head_vec : List (List α)) (h1 : ¬ isInteger (some arg1) = true) :
    main_start (arg1 :: arg2.toList) head_vec = some (.rejected ERROR_NUM_CLUSTERS) := by
  cases arg2 <;> simp [Option.toList, main_start, h1]

theorem main_start_second_not_integer (arg1 x : List Char) (head_vec : List (List α))
    (h1 : isInteger (some arg1) = true) (hr1 : digits_value arg1 0 ≤ INT_MAX)
    (h2 : ¬ isInteger (some x) = true) :
    main_start (arg1 :: (some x).toList) head_vec = some (.rejected ERROR_MAX_ITER) := by
  simp [Option.toList, main_start, h1, h2, atoi_eq arg1 hr1]

theorem find_dim_head {β : Type} (head_vec : List (List β)) (dim : Nat) (hne : head_vec ≠ [])
    (hdd : ∀ p ∈ head_vec, p.length = dim) : find_dim head_vec.head? = dim := by
  match head_vec, hne, hdd with
  | [], hne, _ => exact absurd rfl hne
  | p :: _, _, hdd => simpa [find_dim] using hdd p (by simp)

/-- With valid arguments and a dataset of uniform dimension the set-up phase
reaches the loop, with the first `K` points as centroids. -/
theorem main_start_valid (arg1 : List Char) (arg2 : Option (List Char))
    (head_vec : List (List α)) (dim : Nat) (hdim : 1 ≤ dim)
    (hdd : ∀ p ∈ head_vec, p.length = dim)
    (hr1 : digits_value arg1 0 ≤ INT_MAX)
    (hr2 : ∀ x, arg2 = some x → digits_value x 0 ≤ INT_MAX)
    (hK : valid_K_arg arg1 head_vec.length) (hM : valid_max_iter_arg arg2) :
    main_start (arg1 :: arg2.toList) head_vec =
      some (.loop (digits_value arg1 0) (given_max_iter arg2) dim
        (initial_state (head_vec.take (digits_value arg1 0)) dim)) := by
  obtain ⟨hd1, hK1, hK2⟩ := hK
  have hne : head_vec ≠ [] := by
    intro h; rw [h] at hK2; simp at hK2
  have hmi : 1 < given_max_iter arg2 ∧ given_max_iter arg2 < 800 := by
    cases arg2 with
    | none => simp [given_max_iter]
    | some x => exact (hM x rfl).2
  rw [main_start_eq arg1 arg2 head_vec ((isInteger_iff arg1).mpr hd1) hr1
    (fun x hx => (isInteger_iff x).mpr (hM x hx).1) hr2, find_dim_head head_vec dim hne hdd]
  have hlen : head_vec.length ≠ 0 := fun h => hne (List.eq_nil_of_length_eq_zero h)
  rw [if_neg (by omega), if_neg (by omega), if_neg (by omega), if_neg (by omega),
    initialize_centroids_take _ dim head_vec (by omega) hdim hne hdd]
  have hK0 : digits_value arg1 0 ≠ 0 := by omega
  have hd0 : dim ≠ 0 := by omega
  have hmin : min (digits_value arg1 0) head_vec.length = digits_value arg1 0 := by omega
  simp [initialize_sum_vectors, hK0, hd0, initial_state, hmin]

/-- C16 fails as stated: with `K = "5"` and an empty input (so `K ≥ N`) the
program prints "An Error Has Occurred", not "Incorrect number of clusters!";
with `K = "1"` and `max_iter = "1"` it prints "Incorrect number of clusters!",
not "Incorrect maximum iteration!". -/
theorem main_rejection_counterexample :
    main Rat.sqrt [['5']] [] = some (.error ERROR_OCCURED)
      ∧ ERROR_OCCURED ≠ ERROR_NUM_CLUSTERS
      ∧ main Rat.sqrt [['1'], ['1']] [[0], [0], [0]] = some (.error ERROR_NUM_CLUSTERS)
      ∧ ERROR_NUM_CLUSTERS ≠ ERROR_MAX_ITER := by
  refine ⟨rfl, by decide, rfl, by decide⟩

/-- C16, amended: given one or two arguments whose digit values fit an `int`
and a dataset of uniform dimension, the standalone program reaches the
clustering loop if and only if the `K` argument is a digit string with
`1 < K < N` and the `max_iter` argument (when given) is a digit string with
`1 < max_iter < 800`.  Otherwise it returns 1 without printing centroids, and
the message is that of the first failing check, in this order: `K` not a digit
string (clusters), `max_iter` not a digit string (iteration), `K ≤ 1`
(clusters), `max_iter ≤ 1` or `≥ 800` (iteration), `N = 0` (error occurred),
`K ≥ N` (clusters). -/
theorem main_reaches_loop_iff (sqrt : α → α) (arg1 : List Char) (arg2 : Option (List Char))
    (head_vec : List (List α)) (dim : Nat) (hdim : 1 ≤ dim)
    (hdd : ∀ p ∈ head_vec, p.length = dim)
    (hr1 : digits_value arg1 0 ≤ INT_MAX)
    (hr2 : ∀ x, arg2 = some x → digits_value x 0 ≤ INT_MAX) :
    ((∃ K max_iter d st,
        main_start (arg1 :: arg2.toList) head_vec = some (.loop K max_iter d st))
      ↔ valid_K_arg arg1 head_vec.length ∧ valid_max_iter_arg arg2)
    ∧ (¬ (valid_K_arg arg1 head_vec.length ∧ valid_max_iter_arg arg2) →
        ∃ message, main sqrt (arg1 :: arg2.toList) head_vec = some (.error message)
          ∧ (Outcome.error message : Outcome α).status = 1
          ∧ (Outcome.error message : Outcome α).output = none)
    ∧ (¬ digit_string arg1 →
        main sqrt (arg1 :: arg2.toList) head_vec = some (.error ERROR_NUM_CLUSTERS))
    ∧ (digit_string arg1 → (∃ x, arg2 = some x ∧ ¬ digit_string x) →
        main sqrt (arg1 :: arg2.toList) head_vec = some (.error ERROR_MAX_ITER))
    ∧ (digit_string arg1 → (∀ x, arg2 = some x → digit_string x) → digits_value arg1 0 ≤ 1 →
        main sqrt (arg1 :: arg2.toList) head_vec = some (.error ERROR_NUM_CLUSTERS))
    ∧ (digit_string arg1 → (∀ x, arg2 = some x → digit_string x) → 1 < digits_value arg1 0 →
        (given_max_iter arg2 ≤ 1 ∨ 800 ≤ given_max_iter arg2) →
        main sqrt (arg1 :: arg2.toList) head_vec = some (.error ERROR_MAX_ITER))
    ∧ (digit_string arg1 → 1 < digits_value arg1 0 → valid_max_iter_arg arg2 →
        head_vec = [] →
        main sqrt (arg1 :: arg2.toList) head_vec = some (.error ERROR_OCCURED))
    ∧ (digit_string arg1 → 1 < digits_value arg1 0 → valid_max_iter_arg arg2 →
        head_vec ≠ [] → head_vec.length ≤ digits_value arg1 0 →
        main sqrt (arg1 :: arg2.toList) head_vec = some (.error ERROR_NUM_CLUSTERS)) := by
  have hmi : valid_max_iter_arg arg2 →
      1 < given_max_iter arg2 ∧ given_max_iter arg2 < 800 := by
    intro hM
    cases arg2 with
    | none => simp [given_max_iter]
    | some x => exact (hM x rfl).2
  have hmi2 : (∀ x, arg2 = some x → digit_string x) →
      1 < given_max_iter arg2 → given_max_iter arg2 < 800 → valid_max_iter_arg arg2 := by
    intro hd h1 h2 x hx
    subst hx
    exact ⟨hd x rfl, h1, h2⟩
  -- the three early exits and the chain of range checks
  have A : ¬ digit_string arg1 →
      main_start (arg1 :: arg2.toList) head_vec = some (.rejected ERROR_NUM_CLUSTERS) :=
    fun h => main_start_not_integer arg1 arg2 head_vec (fun h1 => h ((isInteger_iff arg1).mp h1))
  have B : digit_string arg1 → (∃ x, arg2 = some x ∧ ¬ digit_string x) →
      main_start (arg1 :: arg2.toList) head_vec = some (.rejected ERROR_MAX_ITER) := by
    rintro h1 ⟨x, rfl, h2⟩
    exact main_start_second_not_integer arg1 x head_vec ((isInteger_iff arg1).mpr h1) hr1
      (fun h3 => h2 ((isInteger_iff x).mp h3))
  have C : digit_string arg1 → (∀ x, arg2 = some x → digit_string x) →
      main_start (arg1 :: arg2.toList) head_vec = _ :=
    fun h1 h2 => main_start_eq arg1 arg2 head_vec ((isInteger_iff arg1).mpr h1) hr1
      (fun x hx => (isInteger_iff x).mpr (h2 x hx)) hr2
  have hfd : head_vec ≠ [] → ¬ (head_vec.length = 0 ∨ find_dim head_vec.head? ≤ 0) := by
    intro hne
    rw [find_dim_head head_vec dim hne hdd]
    have : head_vec.length ≠ 0 := fun h => hne (List.eq_nil_of_length_eq_zero h)
    omega
  have E1 : digit_string arg1 → (∀ x, arg2 = some x → digit_string x) →
      digits_value arg1 0 ≤ 1 →
      main_start (arg1 :: arg2.toList) head_vec = some (.rejected ERROR_NUM_CLUSTERS) := by
    intro h1 h2 h3
    rw [C h1 h2, if_pos h3]
  have E2 : digit_string arg1 → (∀ x, arg2 = some x → digit_string x) →
      1 < digits_value arg1 0 → (given_max_iter arg2 ≤ 1 ∨ 800 ≤ given_max_iter arg2) →
      main_start (arg1 :: arg2.toList) head_vec = some (.rejected ERROR_MAX_ITER) := by
    intro h1 h2 h3 h4
    rw [C h1 h2, if_neg (by omega), if_pos h4]
  have E3 : digit_string arg1 → 1 < digits_value arg1 0 → valid_max_iter_arg arg2 →
      head_vec = [] →
      main_start (arg1 :: arg2.toList) head_vec = some (.rejected ERROR_OCCURED) := by
    intro h1 h3 hM h5
    have := hmi hM
    rw [C h1 (fun x hx => (hM x hx).1), if_neg (by omega), if_neg (by omega),
      if_pos (Or.inl (by rw [h5]; rfl))]
  have E4 : digit_string arg1 → 1 < digits_value arg1 0 → valid_max_iter_arg arg2 →
      head_vec ≠ [] → head_vec.length ≤ digits_value arg1 0 →
      main_start (arg1 :: arg2.toList) head_vec = some (.rejected ERROR_NUM_CLUSTERS) := by
    intro h1 h3 hM h5 h6
    have := hmi hM
    rw [C h1 (fun x hx => (hM x hx).1), if_neg (by omega), if_neg (by omega),
      if_neg (hfd h5), if_pos h6]
  -- every input that is not valid is rejected
  have R : ¬ (valid_K_arg arg1 head_vec.length ∧ valid_max_iter_arg arg2) →
      ∃ message, main_start (arg1 :: arg2.toList) head_vec = some (.rejected message) := by
    intro hnot
    by_cases h1 : digit_string arg1
    · by_cases h2 : ∀ x, arg2 = some x → digit_string x
      · by_cases h3 : digits_value arg1 0 ≤ 1
        · exact ⟨_, E1 h1 h2 h3⟩
        · by_cases h4 : given_max_iter arg2 ≤ 1 ∨ 800 ≤ given_max_iter arg2
          · exact ⟨_, E2 h1 h2 (by omega) h4⟩
          · have hM : valid_max_iter_arg arg2 := hmi2 h2 (by omega) (by omega)
            by_cases h5 : head_vec = []
            · exact ⟨_, E3 h1 (by omega) hM h5⟩
            · by_cases h6 : head_vec.length ≤ digits_value arg1 0
              · exact ⟨_, E4 h1 (by omega) hM h5 h6⟩
              · exact absurd ⟨⟨h1, by omega, by omega⟩, hM⟩ hnot
      · have h2a : ∃ x, arg2 = some x ∧ ¬ digit_string x := by
          by_contra hcon
          apply h2
          intro x hx
          by_contra hd
          exact hcon ⟨x, hx, hd⟩
        exact ⟨_, B h1 h2a⟩
    · exact ⟨_, A h1⟩
  have toMain : ∀ message,
      main_start (arg1 :: arg2.toList) head_vec = some (.rejected message) →
      main sqrt (arg1 :: arg2.toList) head_vec = some (.error message) := by
    intro message h
    rw [main, h]
  refine ⟨⟨?_, ?_⟩, ?_, fun h => toMain _ (A h), fun h1 h2 => toMain _ (B h1 h2),
    fun h1 h2 h3 => toMain _ (E1 h1 h2 h3), fun h1 h2 h3 h4 => toMain _ (E2 h1 h2 h3 h4),
    fun h1 h3 hM h5 => toMain _ (E3 h1 h3 hM h5),
    fun h1 h3 hM h5 h6 => toMain _ (E4 h1 h3 hM h5 h6)⟩
  · rintro ⟨K, mi, d, st, hloop⟩
    by_contra hnot
    obtain ⟨message, hrej⟩ := R hnot
    rw [hrej] at hloop
    cases hloop
  · rintro ⟨hK, hM⟩
    exact ⟨_, _, _, _, main_start_valid arg1 arg2 head_vec dim hdim hdd hr1 hr2 hK hM⟩
  · intro hnot
    obtain ⟨message, hrej⟩ := R hnot
    exact ⟨message, toMain _ hrej, rfl, rfl⟩

theorem main_reaches_loop_iff_witness :
    ∃ K max_iter d st,
      main_start [['2'], ['4', '0', '0']] line_data = some (Start.loop K max_iter d st) := by
  have h := (main_reaches_loop_iff Rat.sqrt ['2'] (some ['4', '0', '0']) line_data 1
    (by decide) far_state_wf.data_dim (by decide)
    (by intro x hx; cases hx; decide)).1
  apply h.mpr
  refine ⟨⟨⟨by simp, ?_⟩, by decide, by decide⟩, ?_⟩
  · intro ch hch
    simp only [List.mem_singleton] at hch
    subst hch
    decide
  · intro x hx
    cases hx
    refine ⟨⟨by simp, ?_⟩, by decide, by decide⟩
    intro ch hch
    simp only [List.mem_cons, List.mem_singleton, List.not_mem_nil, or_false] at hch
    rcases hch with rfl | rfl | rfl <;> decide

/-! ## The standalone program against `fit` -/

theorem print_the_result_eq {β : Type} (cs : List (List β)) (K dim : Nat)
    (hlen : cs.length = K) (hd : ∀ c ∈ cs, c.length = dim) :
    print_the_result cs K dim = cs := by
  rw [print_the_result, ← hlen, List.take_length]
  conv_rhs => rw [← List.map_id cs]
  apply List.map_congr_left
  intro c hc
  rw [← hd c hc, List.take_length]
  rfl

/-- With valid arguments and a dataset of uniform dimension, `main` prints
`standalone_loop` run from the first `K` points. -/
theorem main_eq_standalone (sqrt : α → α) (arg1 : List Char) (arg2 : Option (List Char))
    (head_vec : List (List α)) (dim : Nat) (hdim : 1 ≤ dim)
    (hdd : ∀ p ∈ head_vec, p.length = dim)
    (hr1 : digits_value arg1 0 ≤ INT_MAX)
    (hr2 : ∀ x, arg2 = some x → digits_value x 0 ≤ INT_MAX)
    (hK : valid_K_arg arg1 head_vec.length) (hM : valid_max_iter_arg arg2) :
    main sqrt (arg1 :: arg2.toList) head_vec =
      some (.printed (standalone_loop sqrt head_vec dim (given_max_iter arg2)
        (head_vec.take (digits_value arg1 0)))) := by
  have hne : head_vec ≠ [] := by
    intro h
    have := hK.2.2
    rw [h] at this
    simp at this
  have hK1 := hK.2.1
  have hK2 := hK.2.2
  have htake_len : (head_vec.take (digits_value arg1 0)).length = digits_value arg1 0 := by
    rw [List.length_take]; omega
  have htake_ne : head_vec.take (digits_value arg1 0) ≠ [] := by
    intro h
    rw [h] at htake_len
    simp at htake_len
    omega
  have hwf := initial_state_wf head_vec (head_vec.take (digits_value arg1 0)) dim hne hdd
    htake_ne (fun c hc => hdd c (List.mem_of_mem_take hc))
  rw [htake_len] at hwf
  obtain ⟨st1, e1, e2, e3⟩ := main_loop_eq_standalone sqrt head_vec (digits_value arg1 0) dim hdim
    (given_max_iter arg2) _ hwf
  rw [main, main_start_valid arg1 arg2 head_vec dim hdim hdd hr1 hr2 hK hM]
  simp only [e1]
  rw [print_the_result_eq st1.centroids _ dim e2.cent_len e2.cent_dim, e3]
  rfl

theorem zero_data_pass : one_pass Rat.sqrt zero_data [[0], [0]] 1 = [[0], [0]] := by
  simp [zero_data, one_pass, cluster, List.range_succ, List.filter_cons, find_closest_line,
    vector_mean, vector_sum]

theorem zero_data_dim : ∀ p ∈ zero_data, p.length = 1 := by
  intro p hp
  simp only [zero_data, List.mem_cons, List.mem_singleton, List.not_mem_nil, or_false] at hp
  rcases hp with rfl | rfl | rfl <;> rfl

/-- C18 at its failing input: on three equal points with `K = 2` the second
cluster receives no point in the first iteration of the standalone loop, yet
`changed` stays 0 and the loop ends there through `if (!changed) break;`; the
same iteration in `fit` reports `converged = 0`. -/
theorem main_loop_breaks_on_empty_cluster :
    cluster Rat.sqrt [[0], [0]] 2 1 zero_data 1 = []
      ∧ (∃ st1, main_iteration Rat.sqrt zero_data 2 1 (initial_state [[0], [0]] 1)
            = some (st1, false)
          ∧ main_loop Rat.sqrt zero_data 2 1 400 (initial_state [[0], [0]] 1) = some st1)
      ∧ main Rat.sqrt [['2']] zero_data = some (.printed [[0], [0]])
      ∧ ∃ st2, fit_iteration Rat.sqrt zero_data 2 1 EPS (initial_state [[0], [0]] 1)
          = some (st2, false) := by
  have hcd : ∀ c ∈ ([[0], [0]] : List (List ℚ)), c.length = 1 := by
    intro c hc; simp at hc; rw [hc]; rfl
  have hwf : WellFormed zero_data 2 1 (initial_state [[0], [0]] 1) :=
    initial_state_wf zero_data [[0], [0]] 1 (by simp [zero_data]) zero_data_dim (by simp) hcd
  have hchanged : pass_changed Rat.sqrt zero_data [[0], [0]] 1 = false := by
    rw [pass_changed, zero_data_pass]
    simp [List.range_succ, compute_distance_one, EPS]
  have hconv : pass_converged Rat.sqrt zero_data [[0], [0]] 1 EPS = false := by
    rw [pass_converged, zero_data_pass]
    simp [zero_data, List.range_succ, cluster, List.filter_cons, find_closest_line]
  refine ⟨?_, ?_, ?_, ?_⟩
  · simp [zero_data, cluster, List.filter_cons, find_closest_line]
  · obtain ⟨st1, h1, _, _⟩ := main_iteration_pass Rat.sqrt zero_data 2 1
      (initial_state [[0], [0]] 1) hwf (by decide)
    have h1a : main_iteration Rat.sqrt zero_data 2 1 (initial_state [[0], [0]] 1)
        = some (st1, false) := by rw [← hchanged]; exact h1
    refine ⟨st1, h1a, ?_⟩
    have h400 : (400 : Nat) = 399 + 1 := rfl
    rw [h400, main_loop, h1a]
    simp
  · have h := main_eq_standalone Rat.sqrt ['2'] none zero_data 1 (by decide) zero_data_dim
      (by decide) (by intro x hx; cases hx)
      ⟨⟨by simp, by intro ch hch; simp only [List.mem_singleton] at hch; subst hch; decide⟩,
        by decide, by decide⟩
      (by intro x hx; cases hx)
    have h400 : given_max_iter none = 399 + 1 := rfl
    rw [h400, standalone_loop] at h
    have htake : List.take (digits_value ['2'] 0) zero_data = [[0], [0]] := by decide
    rw [htake, hchanged] at h
    simp only [Bool.false_eq_true, if_false] at h
    rw [zero_data_pass] at h
    exact h
  · obtain ⟨st2, h2, _, _⟩ := fit_iteration_pass Rat.sqrt zero_data 2 1 EPS
      (initial_state [[0], [0]] 1) hwf
    exact ⟨st2, by rw [← hconv]; exact h2⟩

theorem close_data_dim : ∀ p ∈ close_data, p.length = 1 := by
  intro p hp
  simp only [close_data, List.mem_cons, List.mem_singleton, List.not_mem_nil, or_false] at hp
  rcases hp with rfl | rfl | rfl <;> rfl

theorem close_pass_one :
    one_pass Rat.sqrt close_data [[0], [0]] 1 = [[1 / 30000], [0]] := by
  simp [close_data, one_pass, cluster, List.range_succ, List.filter_cons, find_closest_line,
    vector_mean, vector_sum]
  norm_num

theorem close_pass_two :
    one_pass Rat.sqrt close_data [[1 / 30000], [0]] 1 = [[1 / 10000], [0]] := by
  simp [close_data, one_pass, cluster, List.range_succ, List.filter_cons, find_closest_line,
    vector_mean, vector_sum]
  norm_num [abs_of_nonneg, abs_of_nonpos, abs_lt, lt_abs]
  simp [vector_sum]

theorem close_changed_one : pass_changed Rat.sqrt close_data [[0], [0]] 1 = false := by
  rw [pass_changed, close_pass_one]
  simp [List.range_succ, compute_distance_one, EPS]
  norm_num [abs_of_nonneg, abs_of_nonpos, abs_lt, lt_abs]

theorem close_flag_one :
    pass_converged Rat.sqrt close_data [[0], [0]] 1 (1 / 1000) = false := by
  rw [pass_converged, close_pass_one]
  simp [close_data, List.range_succ, cluster, List.filter_cons, find_closest_line]

theorem close_flag_two :
    pass_converged Rat.sqrt close_data [[1 / 30000], [0]] 1 (1 / 1000) = true := by
  rw [pass_converged, close_pass_two]
  simp [close_data, List.range_succ, cluster, List.filter_cons, find_closest_line,
    compute_distance_one]
  norm_num [abs_of_nonneg, abs_of_nonpos, abs_lt, lt_abs]

/-- C19 at its failing input: on the points `0, 0, 0.0001` with `K = 2` and
`max_iter = 400` the standalone program stops after its first iteration and
prints `[[1/30000], [0]]`, while `fit` with the same `K` and `max_iter`,
`epsilon = 0.001` and the first two points as initial centroids runs a second
iteration and returns `[[1/10000], [0]]`. -/
theorem main_and_fit_differ :
    main Rat.sqrt [['2'], ['4', '0', '0']] close_data = some (.printed [[1 / 30000], [0]])
      ∧ fit Rat.sqrt 2 400 (1 / 1000) close_data (close_data.take 2) = some [[1 / 10000], [0]]
      ∧ ([[1 / 30000], [0]] : List (List ℚ)) ≠ [[1 / 10000], [0]] := by
  have htake : close_data.take 2 = [[0], [0]] := by decide
  have hcd : ∀ c ∈ ([[0], [0]] : List (List ℚ)), c.length = 1 := by
    intro c hc; simp at hc; rw [hc]; rfl
  refine ⟨?_, ?_, by intro h; simp at h⟩
  · have h := main_eq_standalone Rat.sqrt ['2'] (some ['4', '0', '0']) close_data 1 (by decide)
      close_data_dim (by decide) (by intro x hx; cases hx; decide)
      ⟨⟨by simp, by intro ch hch; simp only [List.mem_singleton] at hch; subst hch; decide⟩,
        by decide, by decide⟩
      (by
        intro x hx
        cases hx
        refine ⟨⟨by simp, ?_⟩, by decide, by decide⟩
        intro ch hch
        simp only [List.mem_cons, List.mem_singleton, List.not_mem_nil, or_false] at hch
        rcases hch with rfl | rfl | rfl <;> decide)
    have h400 : given_max_iter (some ['4', '0', '0']) = 399 + 1 := by decide
    have htake2 : List.take (digits_value ['2'] 0) close_data = [[0], [0]] := by decide
    rw [h400, standalone_loop, htake2, close_changed_one] at h
    simp only [Bool.false_eq_true, if_false] at h
    rw [close_pass_one] at h
    exact h
  · rw [htake, fit_eq_lloyd Rat.sqrt 2 400 (1 / 1000) close_data [[0], [0]] 1 (by decide)
      (by simp [close_data]) close_data_dim (by simp) hcd]
    have h400 : (400 : Int).toNat = 398 + 1 + 1 := rfl
    rw [h400, lloyd_loop, close_flag_one, close_pass_one]
    simp only [Bool.false_eq_true, if_false]
    rw [lloyd_loop, if_pos close_flag_two, close_pass_two]

/-! ## The accumulation pass is a reduction -/

theorem zipWith_add_left_comm :
    ∀ (a b c : List α),
      List.zipWith (fun a b => a + b) a (List.zipWith (fun a b => a + b) b c)
        = List.zipWith (fun a b => a + b) b (List.zipWith (fun a b => a + b) a c)
  | [], _, _ => by simp
  | _ :: _, [], _ => by simp
  | _ :: _, _ :: _, [] => by simp
  | x :: a, y :: b, z :: c => by
      simp [zipWith_add_left_comm a b c, add_left_comm]

/-- The coordinate-wise sum does not depend on the order of the points. -/
theorem vector_sum_perm (dim : Nat) {ps qs : List (List α)} (h : ps.Perm qs) :
    vector_sum dim ps = vector_sum dim qs := by
  induction h with
  | nil => rfl
  | cons p _ ih => simp only [vector_sum, ih]
  | swap p q l => simp only [vector_sum]; exact zipWith_add_left_comm q p _
  | trans _ _ ih1 ih2 => exact ih1.trans ih2

theorem cluster_perm (sqrt : α → α) (centroids : List (List α)) (K dim : Nat)
    {data data2 : List (List α)} (h : data.Perm data2) (j : Nat) :
    (cluster sqrt centroids K dim data j).Perm (cluster sqrt centroids K dim data2 j) :=
  List.Perm.filter _ h

/-- C20: for fixed centroids and every permutation of the dataset, the reset
and assignment pass over the permuted dataset yields the same per-cluster
sums and the same per-cluster counts as over the original order. -/
theorem fit_assignment_perm (sqrt : α → α) (head_data data2 : List (List α)) (K dim : Nat)
    (st : FitState α) (hwf : WellFormed head_data K dim st) (hperm : head_data.Perm data2) :
    ∃ sums1 counts1, fit_assignment sqrt head_data K dim st = some (sums1, counts1)
      ∧ fit_assignment sqrt data2 K dim st = some (sums1, counts1) := by
  have hwf2 : WellFormed data2 K dim st :=
    ⟨hwf.K_pos, fun h => hwf.data_ne (List.Perm.eq_nil (h ▸ hperm)),
      fun p hp => hwf.data_dim p (hperm.mem_iff.mpr hp), hwf.cent_len, hwf.cent_dim,
      hwf.sums_len, hwf.sums_dim, hwf.counts_len⟩
  obtain ⟨sums1, counts1, h1, h2, _, h4, h5⟩ := fit_assignment_spec sqrt head_data K dim st hwf
  obtain ⟨sums2, counts2, g1, g2, _, g4, g5⟩ := fit_assignment_spec sqrt data2 K dim st hwf2
  have hs : sums2 = sums1 := by
    apply ext_of_getD _ _ [] (by rw [g2, h2])
    intro j hj
    rw [(g5 j (by omega)).2, (h5 j (by omega)).2]
    exact (vector_sum_perm dim (cluster_perm sqrt st.centroids K dim hperm j)).symm
  have hc : counts2 = counts1 := by
    apply ext_of_getD _ _ 0 (by rw [g4, h4])
    intro j hj
    rw [(g5 j (by omega)).1, (h5 j (by omega)).1]
    exact (cluster_perm sqrt st.centroids K dim hperm j).length_eq.symm
  exact ⟨sums1, counts1, h1, by rw [g1, hs, hc]⟩

theorem fit_assignment_perm_witness :
    ∃ sums1 counts1, fit_assignment Rat.sqrt sample_data 2 2 sample_state = some (sums1, counts1)
      ∧ fit_assignment Rat.sqrt [[10, 11], [1, 1], [10, 10], [1, 2]] 2 2 sample_state
          = some (sums1, counts1) :=
  fit_assignment_perm Rat.sqrt sample_data [[10, 11], [1, 1], [10, 10], [1, 2]] 2 2 sample_state
    sample_state_wf (by simp only [sample_data]; decide)

/-! ## The short-circuit of `compute_distance` -/

theorem compute_distance_loop_short (sqrt : α → α) :
    ∀ (dim : Nat) (a b : List α) (acc : α), a.length < dim ∨ b.length < dim →
      compute_distance_loop sqrt a b dim acc = 0
  | 0, _, _, _, h => by simp at h
  | dim + 1, [], _, _, _ => by simp [compute_distance_loop]
  | dim + 1, _ :: _, [], _, _ => by simp [compute_distance_loop]
  | dim + 1, x :: a, y :: b, acc, h => by
      rw [compute_distance_loop]
      apply compute_distance_loop_short sqrt dim a b
      simpa using h

/-- C22: for every `dim` (necessarily `≥ 1`) and every pair of points of which
at least one has fewer than `dim` coordinates, `compute_distance` returns
exactly `0.0`, whatever the coordinates that are present and whatever the
square root of the partial sum would have been. -/
theorem compute_distance_short_circuit (sqrt : α → α) (a b : List α) (dim : Nat)
    (hshort : a.length < dim ∨ b.length < dim) :
    compute_distance sqrt a b dim = 0 :=
  compute_distance_loop_short sqrt dim a b 0 hshort

theorem compute_distance_short_circuit_witness :
    compute_distance Rat.sqrt [3, 4] [0, 0, 7] 3 = 0 :=
  compute_distance_short_circuit Rat.sqrt [3, 4] [0, 0, 7] 3 (Or.inl (by decide))

/-! ## Nothing leaks between iterations -/

/-- The reset and assignment pass gives the same accumulators and counts for
any two well-formed states with the same centroids. -/
theorem fit_assignment_reset (sqrt : α → α) (head_data : List (List α)) (K dim : Nat)
    (st st2 : FitState α) (hwf : WellFormed head_data K dim st)
    (hwf2 : WellFormed head_data K dim st2) (hcent : st2.centroids = st.centroids) :
    fit_assignment sqrt head_data K dim st2 = fit_assignment sqrt head_data K dim st := by
  obtain ⟨sums1, counts1, h1, h2, _, h4, h5⟩ := fit_assignment_spec sqrt head_data K dim st hwf
  obtain ⟨sums2, counts2, g1, g2, _, g4, g5⟩ := fit_assignment_spec sqrt head_data K dim st2 hwf2
  rw [hcent] at g5
  have hs : sums2 = sums1 := by
    apply ext_of_getD _ _ [] (by rw [g2, h2])
    intro j hj
    rw [(g5 j (by omega)).2, (h5 j (by omega)).2]
  have hc : counts2 = counts1 := by
    apply ext_of_getD _ _ 0 (by rw [g4, h4])
    intro j hj
    rw [(g5 j (by omega)).1, (h5 j (by omega)).1]
  rw [g1, h1, hs, hc]

/-- C21: one iteration of `fit` gives the same new centroids, the same counts
and the same `converged` flag for any two initial contents of the accumulators
and counts (`K` accumulators of `dim` coordinates, `K` counts); so does one
iteration of the standalone loop. -/
theorem fit_iteration_independent_of_accumulators (sqrt : α → α) (head_data : List (List α))
    (K dim : Nat) (epsilon : α) (centroids : List (List α))
    (sums sums2 : List (List α)) (counts counts2 : List Nat)
    (hwf : WellFormed head_data K dim ⟨centroids, sums, counts⟩)
    (hwf2 : WellFormed head_data K dim ⟨centroids, sums2, counts2⟩) :
    (∃ st1 conv,
        fit_iteration sqrt head_data K dim epsilon ⟨centroids, sums, counts⟩ = some (st1, conv)
        ∧ fit_iteration sqrt head_data K dim epsilon ⟨centroids, sums2, counts2⟩
            = some (st1, conv))
      ∧ main_iteration sqrt head_data K dim ⟨centroids, sums2, counts2⟩
          = main_iteration sqrt head_data K dim ⟨centroids, sums, counts⟩ := by
  have hassign := fit_assignment_reset sqrt head_data K dim ⟨centroids, sums, counts⟩
    ⟨centroids, sums2, counts2⟩ hwf hwf2 rfl
  obtain ⟨st1, h1, _, _⟩ :=
    fit_iteration_pass sqrt head_data K dim epsilon ⟨centroids, sums, counts⟩ hwf
  refine ⟨⟨st1, _, h1, ?_⟩, ?_⟩
  · rw [← h1]
    simp only [fit_iteration, hassign]
  · simp only [main_iteration, hassign]

theorem fit_iteration_independent_of_accumulators_witness :
    ∃ st1 conv,
      fit_iteration Rat.sqrt sample_data 2 2 (1 / 1000) ⟨[[1, 1], [10, 10]], [[0, 0], [0, 0]], [0, 0]⟩
        = some (st1, conv)
      ∧ fit_iteration Rat.sqrt sample_data 2 2 (1 / 1000)
          ⟨[[1, 1], [10, 10]], [[7, 8], [9, 3]], [5, 6]⟩ = some (st1, conv) :=
  (fit_iteration_independent_of_accumulators Rat.sqrt sample_data 2 2 (1 / 1000)
    [[1, 1], [10, 10]] [[0, 0], [0, 0]] [[7, 8], [9, 3]] [0, 0] [5, 6] sample_state_wf
    ⟨by decide, by simp [sample_data], sample_state_wf.data_dim, rfl, sample_state_wf.cent_dim,
      rfl, by intro s hs; simp at hs; rcases hs with rfl | rfl <;> rfl, rfl⟩).1

/-! ## Fixed points -/

theorem lloyd_loop_fixed (sqrt : α → α) (data : List (List α)) (dim : Nat) (epsilon : α)
    (C : List (List α)) (hfix : one_pass sqrt data C dim = C) :
    ∀ n, lloyd_loop sqrt data dim epsilon n C = C := by
  intro n
  induction n with
  | zero => rfl
  | succ n ih =>
    rw [lloyd_loop, hfix, ih]
    simp

/-- C30: if one assignment and update pass over the dataset maps the centroid
list `C` to itself, then `fit` called with `C` as initial centroids returns
exactly `C`, for every `max_iter` and every `epsilon`. -/
theorem fit_preserves_fixed_point (sqrt : α → α) (K0 max_iter : Int) (epsilon epsilon0 : α)
    (data C : List (List α)) (dim : Nat) (hdim : 1 ≤ dim)
    (hdata : data ≠ []) (hdd : ∀ p ∈ data, p.length = dim)
    (hcent : C ≠ []) (hcd : ∀ c ∈ C, c.length = dim)
    (st1 : FitState α) (conv : Bool)
    (hpass : fit_iteration sqrt data C.length dim epsilon0 (initial_state C dim)
      = some (st1, conv))
    (hfix : st1.centroids = C) :
    fit sqrt K0 max_iter epsilon data C = some C := by
  obtain ⟨st2, g1, _, g3⟩ := fit_iteration_pass sqrt data C.length dim epsilon0
    (initial_state C dim) (initial_state_wf data C dim hdata hdd hcent hcd)
  have hsame : st2 = st1 := (Prod.mk.inj (Option.some.inj (g1.symm.trans hpass))).1
  have hone : one_pass sqrt data C dim = C := by
    have g3a : st2.centroids = one_pass sqrt data C dim := g3
    rw [hsame, hfix] at g3a
    exact g3a.symm
  rw [fit_eq_lloyd sqrt K0 max_iter epsilon data C dim hdim hdata hdd hcent hcd,
    lloyd_loop_fixed sqrt data dim epsilon C hone]

theorem fit_preserves_fixed_point_witness :
    fit Rat.sqrt 2 (-1) 0 boundary_data [[-5001 / 1000], [15 / 2]]
        = some [[-5001 / 1000], [15 / 2]]
      ∧ fit Rat.sqrt 2 300 (1 / 7) boundary_data [[-5001 / 1000], [15 / 2]]
        = some [[-5001 / 1000], [15 / 2]] := by
  have hcd : ∀ c ∈ ([[-5001 / 1000], [15 / 2]] : List (List ℚ)), c.length = 1 := by
    intro c hc; simp at hc; rcases hc with rfl | rfl <;> rfl
  have hne : boundary_data ≠ [] := by simp [boundary_data]
  obtain ⟨st1, h1, _, h3⟩ := fit_iteration_pass Rat.sqrt boundary_data 2 1 (1 / 1000)
    (initial_state [[-5001 / 1000], [15 / 2]] 1)
    (initial_state_wf boundary_data [[-5001 / 1000], [15 / 2]] 1 hne boundary_data_dim
      (by simp) hcd)
  have h3a : st1.centroids = [[-5001 / 1000], [15 / 2]] := by
    rw [h3]; exact boundary_pass_three
  exact ⟨fit_preserves_fixed_point Rat.sqrt 2 (-1) 0 (1 / 1000) boundary_data
      [[-5001 / 1000], [15 / 2]] 1 (by decide) hne boundary_data_dim (by simp) hcd st1 _ h1 h3a,
    fit_preserves_fixed_point Rat.sqrt 2 300 (1 / 7) (1 / 1000) boundary_data
      [[-5001 / 1000], [15 / 2]] 1 (by decide) hne boundary_data_dim (by simp) hcd st1 _ h1 h3a⟩

/-! ## `isInteger` and `initialize_centroids` -/

/-- C25 at its failing input: `isInteger("0")` returns 1 although the numeral
`0` does not denote an integer greater than 0; the function accepts every
non-empty string of digits. -/
theorem isInteger_accepts_zero :
    isInteger (some ['0']) = true ∧ digits_value ['0'] 0 = 0
      ∧ isInteger (some ['0', '0', '0']) = true ∧ digits_value ['0', '0', '0'] 0 = 0
      ∧ isInteger none = false ∧ isInteger (some []) = false := by
  decide

theorem initialize_centroids_loop_first_vectors {β : Type} (dim : Nat) :
    ∀ (K : Nat) (l : List (List β)), (∀ v ∈ l, dim ≤ v.length) →
      initialize_centroids_loop l K dim = some ((l.take K).map (fun v => v.take dim))
  | 0, _, _ => by simp [initialize_centroids_loop]
  | K + 1, [], _ => by simp [initialize_centroids_loop]
  | K + 1, v :: l, hd => by
      have hv : dim ≤ v.length := hd v (by simp)
      have hl : ∀ w ∈ l, dim ≤ w.length := fun w hw => hd w (by simp [hw])
      simp [initialize_centroids_loop, cords_to_python_take dim v hv,
        initialize_centroids_loop_first_vectors dim K l hl]

/-- C24: for `dim ≥ 1` and an input list whose vectors have at least `dim`
coordinates each, `initialize_centroids` builds the list of the first
`min(K, length)` vectors cut to their first `dim` coordinates, in order (its
`NULL` result when that list is empty is the empty list); in the standalone
program the initial centroids are the first `K` dataset points. -/
theorem initialize_centroids_copies_first_vectors (head_vec : List (List α)) (K dim : Nat)
    (hdim : 1 ≤ dim) (hd : ∀ v ∈ head_vec, dim ≤ v.length) :
    initialize_centroids_loop head_vec K dim
        = some ((head_vec.take K).map (fun v => v.take dim))
      ∧ ((head_vec.take K).map (fun v => v.take dim)).length = min K head_vec.length
      ∧ (∀ i, i < min K head_vec.length →
          ((head_vec.take K).map (fun v => v.take dim)).getD i []
              = (head_vec.getD i []).take dim
          ∧ ((head_vec.getD i []).take dim).length = dim)
      ∧ (1 ≤ min K head_vec.length →
          initialize_centroids head_vec K dim
            = some ((head_vec.take K).map (fun v => v.take dim)))
      ∧ (min K head_vec.length = 0 → initialize_centroids head_vec K dim = none)
      ∧ ((∀ p ∈ head_vec, p.length = dim) →
          ∀ (arg1 : List Char) (arg2 : Option (List Char)),
            digits_value arg1 0 ≤ INT_MAX →
            (∀ x, arg2 = some x → digits_value x 0 ≤ INT_MAX) →
            valid_K_arg arg1 head_vec.length → valid_max_iter_arg arg2 →
            ∃ max_iter st, main_start (arg1 :: arg2.toList) head_vec
                = some (.loop (digits_value arg1 0) max_iter dim st)
              ∧ st.centroids = head_vec.take (digits_value arg1 0)) := by
  have hloop := initialize_centroids_loop_first_vectors dim K head_vec hd
  have hne : dim ≠ 0 := by omega
  refine ⟨hloop, by simp, ?_, ?_, ?_, ?_⟩
  · intro i hi
    have hiK : i < K := lt_of_lt_of_le hi (min_le_left _ _)
    have hil : i < head_vec.length := lt_of_lt_of_le hi (min_le_right _ _)
    refine ⟨?_, ?_⟩
    · simp [List.getD_eq_getElem?_getD, List.getElem?_map, List.getElem?_take, hiK, hil]
    · rw [List.length_take]
      exact min_eq_left (hd _ (getD_mem_of_lt head_vec i [] hil))
  · intro hpos
    have hlen : ((head_vec.take K).map (fun v => v.take dim)).length = min K head_vec.length := by
      simp
    rw [initialize_centroids, if_neg hne, hloop]
    rcases hlist : (head_vec.take K).map (fun v => v.take dim) with _ | ⟨v, r⟩
    · rw [hlist] at hlen
      have : min K head_vec.length = 0 := hlen.symm
      omega
    · rw [hlist]
  · intro hzero
    rw [initialize_centroids, if_neg hne, hloop]
    have h : (head_vec.take K).map (fun v => v.take dim) = [] := by
      apply List.eq_nil_of_length_eq_zero
      simpa using hzero
    rw [h]
  · intro hdd arg1 arg2 hr1 hr2 hK hM
    exact ⟨_, _, main_start_valid arg1 arg2 head_vec dim hdim hdd hr1 hr2 hK hM, rfl⟩

theorem initialize_centroids_copies_first_vectors_witness :
    initialize_centroids_loop ([[1, 2, 3], [4, 5, 6], [7, 8, 9]] : List (List ℚ)) 2 2
      = some ((([[1, 2, 3], [4, 5, 6], [7, 8, 9]] : List (List ℚ)).take 2).map
          (fun v => v.take 2)) :=
  (initialize_centroids_copies_first_vectors ([[1, 2, 3], [4, 5, 6], [7, 8, 9]] : List (List ℚ)) 2 2
    (by decide)
    (by intro v hv; simp at hv; rcases hv with rfl | rfl | rfl <;> decide)).1

/-! ## Every point is in exactly one cluster -/

/-- A sum over the points, each weighted by its own index, is the sum over
the indices of the sums over the points with that index. -/
theorem sum_partition {β M : Type} [AddCommMonoid M] (a : β → Nat) (g : Nat → β → M) (K : Nat) :
    ∀ (data : List β), (∀ p ∈ data, a p < K) →
      (data.map (fun p => g (a p) p)).sum
        = ∑ j in Finset.range K, ((data.filter (fun p => decide (a p = j))).map (g j)).sum := by
  intro data
  induction data with
  | nil => intro _; simp
  | cons x rest ih =>
    intro h
    have hx : a x < K := h x (by simp)
    have hrest := ih (fun p hp => h p (by simp [hp]))
    have hstep : ∀ j, (((x :: rest).filter (fun p => decide (a p = j))).map (g j)).sum
        = (if a x = j then g j x else 0)
          + ((rest.filter (fun p => decide (a p = j))).map (g j)).sum := by
      intro j
      by_cases hj : a x = j
      · simp [List.filter_cons, hj]
      · simp [List.filter_cons, hj]
    simp only [List.map_cons, List.sum_cons, hstep, Finset.sum_add_distrib, hrest]
    congr 1
    rw [Finset.sum_ite_eq]
    simp [hx]

theorem cluster_eq_filter_index (sqrt : α → α) (centroids : List (List α)) (K dim : Nat)
    (hK : 1 ≤ K) (hlen : centroids.length = K) (data : List (List α)) (j : Nat) :
    cluster sqrt centroids K dim data j
      = data.filter (fun p => decide (assigned_index sqrt centroids K dim p = j)) := by
  rw [cluster]
  apply List.filter_congr
  intro p _
  obtain ⟨m, hm, _⟩ := find_closest_centroid_spec sqrt centroids p K dim hK hlen
  simp [assigned_index, hm]

theorem assigned_index_lt (sqrt : α → α) (centroids : List (List α)) (K dim : Nat)
    (hK : 1 ≤ K) (hlen : centroids.length = K) (p : List α) :
    assigned_index sqrt centroids K dim p < K := by
  obtain ⟨m, hm, hmK, _⟩ := find_closest_centroid_spec sqrt centroids p K dim hK hlen
  simp [assigned_index, hm, hmK]

/-- Sums over the clusters add up to the sum over the dataset. -/
theorem sum_over_clusters {M : Type} [AddCommMonoid M] (sqrt : α → α)
    (centroids : List (List α)) (K dim : Nat) (hK : 1 ≤ K) (hlen : centroids.length = K)
    (data : List (List α)) (g : Nat → List α → M) :
    ∑ j in Finset.range K, ((cluster sqrt centroids K dim data j).map (g j)).sum
      = (data.map (fun p => g (assigned_index sqrt centroids K dim p) p)).sum := by
  rw [sum_partition (assigned_index sqrt centroids K dim) g K data
    (fun p _ => assigned_index_lt sqrt centroids K dim hK hlen p)]
  apply Finset.sum_congr rfl
  intro j _
  rw [cluster_eq_filter_index sqrt centroids K dim hK hlen]

theorem list_sum_eq_sum_range {M : Type} [AddCommMonoid M] :
    ∀ (l : List M), l.sum = ∑ j in Finset.range l.length, l.getD j 0
  | [] => by simp
  | x :: l => by
      rw [List.length_cons, Finset.sum_range_succ', List.sum_cons, list_sum_eq_sum_range l,
        add_comm]
      simp

/-- C27, amended: after the assignment pass of an iteration over `N` points
with `K ≥ 1` centroids the counts sum to `N`, at least one cluster is
non-empty, and, in exact arithmetic, the coordinate-wise sum of the `K`
accumulators is the coordinate-wise sum of all dataset points.  (On C doubles
the sums round.) -/
theorem fit_assignment_totals (sqrt : α → α) (head_data : List (List α)) (K dim : Nat)
    (st : FitState α) (hwf : WellFormed head_data K dim st) :
    ∃ sums1 counts1, fit_assignment sqrt head_data K dim st = some (sums1, counts1)
      ∧ counts1.sum = head_data.length
      ∧ (∃ j, j < K ∧ 0 < counts1.getD j 0)
      ∧ vector_sum dim sums1 = vector_sum dim head_data
      ∧ ∀ i, i < dim →
          (sums1.map (fun s => s.getD i 0)).sum = (head_data.map (fun p => p.getD i 0)).sum := by
  obtain ⟨sums1, counts1, h1, h2, h3, h4, h5⟩ := fit_assignment_spec sqrt head_data K dim st hwf
  have hcount : counts1.sum = head_data.length := by
    rw [list_sum_eq_sum_range, h4]
    have hj : ∀ j ∈ Finset.range K, counts1.getD j 0
        = ((cluster sqrt st.centroids K dim head_data j).map (fun _ => 1)).sum := by
      intro j hj
      rw [(h5 j (Finset.mem_range.mp hj)).1]
      simp
    rw [Finset.sum_congr rfl hj,
      sum_over_clusters sqrt st.centroids K dim hwf.K_pos hwf.cent_len head_data (fun _ _ => 1)]
    simp
  have hcoord : ∀ i, i < dim →
      (sums1.map (fun s => s.getD i 0)).sum = (head_data.map (fun p => p.getD i 0)).sum := by
    intro i hi
    rw [list_sum_eq_sum_range, List.length_map, h2]
    have hj : ∀ j ∈ Finset.range K, (sums1.map (fun s => s.getD i 0)).getD j 0
        = ((cluster sqrt st.centroids K dim head_data j).map (fun p => p.getD i 0)).sum := by
      intro j hj
      have hjK := Finset.mem_range.mp hj
      have hjl : j < sums1.length := by omega
      rw [← vector_sum_getD dim i hi _ (fun p hp => hwf.data_dim p
        (cluster_subset sqrt st.centroids K dim head_data j p hp)), ← (h5 j hjK).2]
      simp [List.getD_eq_getElem?_getD, List.getElem?_map, List.getElem?_eq_getElem hjl]
    rw [Finset.sum_congr rfl hj, sum_over_clusters sqrt st.centroids K dim hwf.K_pos hwf.cent_len
      head_data (fun _ p => p.getD i 0)]
  refine ⟨sums1, counts1, h1, hcount, ?_, ?_, hcoord⟩
  · match hd : head_data, hwf.data_ne with
    | [], hne => exact absurd rfl hne
    | p0 :: rest, _ =>
      rw [hd] at h5
      refine ⟨assigned_index sqrt st.centroids K dim p0,
        assigned_index_lt sqrt st.centroids K dim hwf.K_pos hwf.cent_len p0, ?_⟩
      rw [(h5 _ (assigned_index_lt sqrt st.centroids K dim hwf.K_pos hwf.cent_len p0)).1,
        cluster_eq_filter_index sqrt st.centroids K dim hwf.K_pos hwf.cent_len]
      simp [List.filter_cons]
  · apply ext_of_getD _ _ 0
      (by rw [vector_sum_length dim sums1 h3, vector_sum_length dim head_data hwf.data_dim])
    intro i hi
    rw [vector_sum_length dim sums1 h3] at hi
    rw [vector_sum_getD dim i hi sums1 h3, vector_sum_getD dim i hi head_data hwf.data_dim]
    exact hcoord i hi

theorem fit_assignment_totals_witness :
    ∃ sums1 counts1, fit_assignment Rat.sqrt sample_data 2 2 sample_state = some (sums1, counts1)
      ∧ counts1.sum = sample_data.length
      ∧ vector_sum 2 sums1 = vector_sum 2 sample_data := by
  obtain ⟨sums1, counts1, h1, h2, _, h4, _⟩ :=
    fit_assignment_totals Rat.sqrt sample_data 2 2 sample_state sample_state_wf
  exact ⟨sums1, counts1, h1, h2, h4⟩

/-! ## No step goes out of bounds -/

theorem takes_short_circuit_false_iff {β : Type} :
    ∀ (dim : Nat) (a b : List β),
      takes_short_circuit a b dim = false ↔ dim ≤ a.length ∧ dim ≤ b.length
  | 0, _, _ => by simp [takes_short_circuit]
  | dim + 1, [], _ => by simp [takes_short_circuit]
  | dim + 1, _ :: _, [] => by simp [takes_short_circuit]
  | dim + 1, _ :: a, _ :: b => by
      simp [takes_short_circuit, takes_short_circuit_false_iff dim a b]

/-- C26: under the preconditions of `fit`, before and during every iteration:
no `compute_distance` call takes the `0.0` short-circuit branch (both
arguments have `dim` coordinates), every index returned by
`find_closest_centroid` is below the number of accumulators and of counts,
the iteration has a result (no list runs out), and a centroid is divided only
by a non-zero count. -/
theorem fit_iterations_in_bounds (sqrt : α → α) (epsilon : α)
    (data centroids : List (List α)) (dim : Nat)
    (hdata : data ≠ []) (hdd : ∀ p ∈ data, p.length = dim)
    (hcent : centroids ≠ []) (hcd : ∀ c ∈ centroids, c.length = dim) :
    ∀ t, ∃ st_t flag,
      fit_iterate sqrt data centroids.length dim epsilon t (initial_state centroids dim)
        = some (st_t, flag)
      ∧ (∀ c ∈ st_t.centroids, ∀ p ∈ data, takes_short_circuit c p dim = false)
      ∧ (∀ p ∈ data, ∃ m,
          find_closest_centroid sqrt st_t.centroids p centroids.length dim = some m
          ∧ m < st_t.sums.length ∧ m < st_t.counts.length)
      ∧ ∃ sums1 counts1 st1 conv,
          fit_assignment sqrt data centroids.length dim st_t = some (sums1, counts1)
          ∧ fit_iteration sqrt data centroids.length dim epsilon st_t = some (st1, conv)
          ∧ ∀ j, j < centroids.length →
              (counts1.getD j 0 ≠ 0 →
                takes_short_circuit (st_t.centroids.getD j [])
                    (divide_vector_by_scalar (sums1.getD j []) (counts1.getD j 0)) dim = false
                ∧ st1.centroids.getD j []
                    = divide_vector_by_scalar (sums1.getD j []) (counts1.getD j 0))
              ∧ (counts1.getD j 0 = 0 → st1.centroids.getD j [] = data.getD 0 []) := by
  intro t
  obtain ⟨st_t, flag, h1, hwf, _⟩ := fit_iterate_spec sqrt data centroids.length dim epsilon
    (initial_state centroids dim) (initial_state_wf data centroids dim hdata hdd hcent hcd) t
  obtain ⟨sums1, counts1, st1, conv, e1, e2, _, _, e5, _⟩ :=
    fit_iteration_spec sqrt data centroids.length dim epsilon st_t hwf
  obtain ⟨_, _, f1, f2, f3, _, _⟩ :=
    fit_assignment_spec sqrt data centroids.length dim st_t hwf
  have hsame := Prod.mk.inj (Option.some.inj (f1.symm.trans e1))
  rw [hsame.1] at f2 f3
  refine ⟨st_t, flag, h1, ?_, ?_, sums1, counts1, st1, conv, e1, e2, ?_⟩
  · intro c hc p hp
    rw [takes_short_circuit_false_iff, hwf.cent_dim c hc, hdd p hp]
    exact ⟨le_refl _, le_refl _⟩
  · intro p _
    obtain ⟨m, hm, hmK, _⟩ :=
      find_closest_centroid_spec sqrt st_t.centroids p centroids.length dim hwf.K_pos hwf.cent_len
    exact ⟨m, hm, by rw [hwf.sums_len]; exact hmK, by rw [hwf.counts_len]; exact hmK⟩
  · intro j hj
    refine ⟨fun hne => ⟨?_, by rw [e5 j hj, if_neg hne]⟩, fun h0 => ?_⟩
    · rw [takes_short_circuit_false_iff, divide_vector_by_scalar_length,
        hwf.cent_dim _ (getD_mem_of_lt st_t.centroids j [] (by rw [hwf.cent_len]; exact hj)),
        f3 _ (getD_mem_of_lt sums1 j [] (by rw [f2]; exact hj))]
      exact ⟨le_refl _, le_refl _⟩
    · rw [e5 j hj, if_pos h0, headD_eq_getD_zero]

theorem fit_iterations_in_bounds_witness :
    ∃ st_t flag,
      fit_iterate Rat.sqrt sample_data ([[1, 1], [10, 10]] : List (List ℚ)).length 2 (1 / 1000) 3
        (initial_state [[1, 1], [10, 10]] 2) = some (st_t, flag)
      ∧ ∀ c ∈ st_t.centroids, ∀ p ∈ sample_data, takes_short_circuit c p 2 = false := by
  obtain ⟨st_t, flag, h1, h2, _⟩ := fit_iterations_in_bounds Rat.sqrt (1 / 1000) sample_data
    [[1, 1], [10, 10]] 2 (by simp [sample_data]) sample_state_wf.data_dim (by simp)
    sample_state_wf.cent_dim 3
  exact ⟨st_t, flag, h1, h2⟩

/-! ## Centroids stay inside the bounding box of the data -/

theorem coordinate_min_le (i : Nat) :
    ∀ (data : List (List α)) (p : List α), p ∈ data → coordinate_min i data ≤ p.getD i 0
  | [], _, h => by simp at h
  | [q], p, h => by
      rw [List.mem_singleton.mp h, coordinate_min]
  | q :: r :: ps, p, h => by
      rw [coordinate_min]
      rcases List.mem_cons.mp h with h1 | h1
      · rw [h1]; exact min_le_left _ _
      · exact le_trans (min_le_right _ _) (coordinate_min_le i (r :: ps) p h1)

theorem le_coordinate_max (i : Nat) :
    ∀ (data : List (List α)) (p : List α), p ∈ data → p.getD i 0 ≤ coordinate_max i data
  | [], _, h => by simp at h
  | [q], p, h => by
      rw [List.mem_singleton.mp h, coordinate_max]
  | q :: r :: ps, p, h => by
      rw [coordinate_max]
      rcases List.mem_cons.mp h with h1 | h1
      · rw [h1]; exact le_max_left _ _
      · exact le_trans (le_coordinate_max i (r :: ps) p h1) (le_max_right _ _)

theorem list_sum_bounds (lo hi : α) :
    ∀ (l : List α), (∀ x ∈ l, lo ≤ x ∧ x ≤ hi) →
      (l.length : α) * lo ≤ l.sum ∧ l.sum ≤ (l.length : α) * hi
  | [], _ => by simp
  | x :: l, h => by
      obtain ⟨h1, h2⟩ := list_sum_bounds lo hi l (fun y hy => h y (by simp [hy]))
      obtain ⟨hx1, hx2⟩ := h x (by simp)
      simp only [List.length_cons, List.sum_cons, Nat.cast_add, Nat.cast_one]
      constructor <;> nlinarith

theorem vector_mean_getD (dim : Nat) (ps : List (List α)) (hd : ∀ p ∈ ps, p.length = dim)
    (i : Nat) (hi : i < dim) :
    (vector_mean dim ps).getD i 0 = (ps.map (fun p => p.getD i 0)).sum / (ps.length : α) := by
  have hsl := vector_sum_length dim ps hd
  rw [← vector_sum_getD dim i hi ps hd]
  simp [vector_mean, List.getD_eq_getElem?_getD, List.getElem?_map, hsl, hi]

/-- Every coordinate of the mean of a non-empty list of points lies between
any bounds of that coordinate over the points. -/
theorem vector_mean_bounds (dim : Nat) (ps : List (List α)) (hne : ps ≠ [])
    (hd : ∀ p ∈ ps, p.length = dim) (i : Nat) (hi : i < dim) (lo hi' : α)
    (hb : ∀ p ∈ ps, lo ≤ p.getD i 0 ∧ p.getD i 0 ≤ hi') :
    lo ≤ (vector_mean dim ps).getD i 0 ∧ (vector_mean dim ps).getD i 0 ≤ hi' := by
  have hn : (0 : α) < (ps.length : α) := by
    have : 0 < ps.length := List.length_pos.mpr hne
    exact_mod_cast this
  obtain ⟨h1, h2⟩ := list_sum_bounds lo hi' (ps.map (fun p => p.getD i 0)) (by
    intro x hx
    obtain ⟨p, hp, rfl⟩ := List.mem_map.mp hx
    exact hb p hp)
  rw [List.length_map] at h1 h2
  rw [vector_mean_getD dim ps hd i hi]
  constructor
  · rw [le_div_iff₀ hn]; linarith
  · rw [div_le_iff₀ hn]; linarith

/-- Every centroid one pass produces is inside any box that holds the data. -/
theorem one_pass_bounds (sqrt : α → α) (data centroids : List (List α)) (dim : Nat)
    (hdata : data ≠ []) (hdd : ∀ p ∈ data, p.length = dim) (i : Nat) (hi : i < dim)
    (lo hi' : α) (hb : ∀ p ∈ data, lo ≤ p.getD i 0 ∧ p.getD i 0 ≤ hi') :
    ∀ c ∈ one_pass sqrt data centroids dim, lo ≤ c.getD i 0 ∧ c.getD i 0 ≤ hi' := by
  intro c hc
  obtain ⟨j, _, rfl⟩ := List.mem_map.mp hc
  by_cases h0 : (cluster sqrt centroids centroids.length dim data j).length = 0
  · simp only [h0, if_true]
    match data, hdata, hb with
    | [], hne, _ => exact absurd rfl hne
    | p0 :: _, _, hb => exact hb p0 (by simp)
  · simp only [h0, if_false]
    exact vector_mean_bounds dim _ (fun h => h0 (by rw [h]; rfl))
      (fun p hp => hdd p (cluster_subset sqrt centroids centroids.length dim data j p hp))
      i hi lo hi'
      (fun p hp => hb p (cluster_subset sqrt centroids centroids.length dim data j p hp))

/-- C28, amended: in exact arithmetic, under the preconditions of `fit` with
`max_iter ≥ 1`, every coordinate `i` of every returned centroid lies between
the minimum and the maximum of coordinate `i` over the dataset points,
wherever the initial centroids were.  (On C doubles a mean of equal numbers
can round past them.) -/
theorem fit_result_in_bounding_box (sqrt : α → α) (K0 max_iter : Int) (epsilon : α)
    (data centroids : List (List α)) (dim : Nat) (hdim : 1 ≤ dim)
    (hdata : data ≠ []) (hdd : ∀ p ∈ data, p.length = dim)
    (hcent : centroids ≠ []) (hcd : ∀ c ∈ centroids, c.length = dim)
    (hmax : 1 ≤ max_iter) :
    ∃ result, fit sqrt K0 max_iter epsilon data centroids = some result
      ∧ ∀ c ∈ result, ∀ i, i < dim →
          coordinate_min i data ≤ c.getD i 0 ∧ c.getD i 0 ≤ coordinate_max i data := by
  obtain ⟨t, _, h2, h3, _⟩ :=
    fit_result sqrt K0 max_iter epsilon data centroids dim hdim hdata hdd hcent hcd
  obtain ⟨u, rfl⟩ : ∃ u, t = u + 1 := ⟨t - 1, by have := h2 hmax; omega⟩
  refine ⟨_, h3, ?_⟩
  intro c hc i hi
  rw [Function.iterate_succ_apply'] at hc
  exact one_pass_bounds sqrt data _ dim hdata hdd i hi _ _
    (fun p hp => ⟨coordinate_min_le i data p hp, le_coordinate_max i data p hp⟩) c hc

theorem fit_result_in_bounding_box_witness :
    ∃ result, fit Rat.sqrt 2 5 (1 / 1000) sample_data [[100, -40], [-7, 300]] = some result
      ∧ ∀ c ∈ result, ∀ i, i < 2 →
          coordinate_min i sample_data ≤ c.getD i 0
          ∧ c.getD i 0 ≤ coordinate_max i sample_data :=
  fit_result_in_bounding_box Rat.sqrt 2 5 (1 / 1000) sample_data [[100, -40], [-7, 300]] 2
    (by decide) (by simp [sample_data]) sample_state_wf.data_dim (by simp)
    (by intro c hc; simp at hc; rcases hc with rfl | rfl <;> rfl) (by decide)

/-! ## Displacements of consecutive iterations -/

theorem foldl_max_ge (ds : List α) :
    ∀ d : α, d ≤ ds.foldl max d ∧ ∀ x ∈ ds, x ≤ ds.foldl max d := by
  induction ds with
  | nil => intro d; simp
  | cons y ds ih =>
    intro d
    obtain ⟨h1, h2⟩ := ih (max d y)
    refine ⟨le_trans (le_max_left d y) h1, ?_⟩
    intro x hx
    rcases List.mem_cons.mp hx with h | h
    · rw [h]; exact le_trans (le_max_right d y) h1
    · exact h2 x h

theorem foldl_max_le (b : α) (ds : List α) :
    ∀ d : α, d ≤ b → (∀ x ∈ ds, x ≤ b) → ds.foldl max d ≤ b := by
  induction ds with
  | nil => intro d hd _; simpa using hd
  | cons y ds ih =>
    intro d hd h
    exact ih (max d y) (max_le hd (h y (by simp))) (fun x hx => h x (by simp [hx]))

theorem le_list_max (l : List α) (x : α) (hx : x ∈ l) : x ≤ list_max l := by
  match l, hx with
  | d :: ds, hx =>
    rcases List.mem_cons.mp hx with h | h
    · rw [h]; exact (foldl_max_ge ds d).1
    · exact (foldl_max_ge ds d).2 x h

theorem list_max_le (l : List α) (b : α) (hne : l ≠ []) (h : ∀ x ∈ l, x ≤ b) :
    list_max l ≤ b := by
  match l, hne, h with
  | [], hne, _ => exact absurd rfl hne
  | d :: ds, _, h => exact foldl_max_le b ds d (h d (by simp)) (fun x hx => h x (by simp [hx]))

theorem compute_distance_eq_sqrt_sq_dist (sqrt : α → α) (a b : List α) (dim : Nat)
    (ha : dim ≤ a.length) (hb : dim ≤ b.length) :
    compute_distance sqrt a b dim = sqrt (sq_dist a b dim) := by
  rw [compute_distance, compute_distance_loop_eq sqrt dim a b 0 ha hb, zero_add, sq_dist]

theorem sq_dist_nonneg (a b : List α) (dim : Nat) : 0 ≤ sq_dist a b dim :=
  Finset.sum_nonneg (fun _ _ => sq_nonneg _)

theorem sq_dist_self (a : List α) (dim : Nat) : sq_dist a a dim = 0 := by
  simp [sq_dist]

theorem one_pass_congr (sqrt : α → α) (data C1 C2 : List (List α)) (dim : Nat)
    (hlen : C1.length = C2.length)
    (hsame : ∀ p ∈ data, find_closest_centroid sqrt C1 p C1.length dim
      = find_closest_centroid sqrt C2 p C2.length dim) :
    one_pass sqrt data C1 dim = one_pass sqrt data C2 dim := by
  have hcl : ∀ j, cluster sqrt C1 C1.length dim data j = cluster sqrt C2 C2.length dim data j := by
    intro j
    simp only [cluster]
    apply List.filter_congr
    intro p hp
    rw [hsame p hp]
  rw [hlen] at hcl
  simp only [one_pass, hlen, hcl]

/-- Iterations `t + 1` and `t + 2` of `fit` from a well-formed state: their
states are well formed and each has the centroids `one_pass` of the previous
ones. -/
theorem fit_iterate_consecutive (sqrt : α → α) (head_data : List (List α)) (K dim : Nat)
    (epsilon : α) (st : FitState α) (hwf : WellFormed head_data K dim st) (t : Nat)
    (s0 s1 : FitState α) (f0 f1 : Bool)
    (h0 : fit_iterate sqrt head_data K dim epsilon t st = some (s0, f0))
    (h1 : fit_iterate sqrt head_data K dim epsilon (t + 1) st = some (s1, f1)) :
    WellFormed head_data K dim s0 ∧ WellFormed head_data K dim s1
      ∧ s1.centroids = one_pass sqrt head_data s0.centroids dim
      ∧ f1 = pass_converged sqrt head_data s0.centroids dim epsilon := by
  obtain ⟨s0a, f0a, g0, g1, _⟩ := fit_iterate_spec sqrt head_data K dim epsilon st hwf t
  have hs0 : s0a = s0 := (Prod.mk.inj (Option.some.inj (g0.symm.trans h0))).1
  subst hs0
  obtain ⟨st1, e1, e2, e3⟩ := fit_iteration_pass sqrt head_data K dim epsilon s0a g1
  rw [fit_iterate, h0] at h1
  have hs1 := Prod.mk.inj (Option.some.inj (e1.symm.trans h1))
  rw [← hs1.1, ← hs1.2]
  exact ⟨g1, e2, e3, rfl⟩

theorem boundary_flag_small_one :
    pass_converged Rat.sqrt boundary_data [[0], [10]] 1 (1 / 10000) = false := by
  rw [pass_converged, boundary_pass_one]
  simp [boundary_data, cluster, List.range_succ, List.filter_cons, find_closest_line,
    compute_distance_one]
  norm_num [abs_of_nonneg, abs_of_nonpos, abs_lt, lt_abs]

/-- C23 fails as stated: in the run of `fit` on `boundary_data` from the
centroids `[[0], [10]]` with `epsilon = 0.0001`, iteration 1 moves the
centroids to `[[-1/2000], [10]]` (maximum displacement `1/2000`, not
converged) and iteration 2 moves them to `[[-5001/1000], [15/2]]` (maximum
displacement `10001/2000`); no cluster is empty in either iteration. -/
theorem max_displacement_counterexample :
    ∃ s1 s2 f2,
      fit_iterate Rat.sqrt boundary_data 2 1 (1 / 10000) 1 (initial_state [[0], [10]] 1)
        = some (s1, false)
      ∧ fit_iterate Rat.sqrt boundary_data 2 1 (1 / 10000) 2 (initial_state [[0], [10]] 1)
        = some (s2, f2)
      ∧ s1.centroids = [[-1 / 2000], [10]]
      ∧ s2.centroids = [[-5001 / 1000], [15 / 2]]
      ∧ (∀ j, j < 2 → cluster Rat.sqrt [[0], [10]] 2 1 boundary_data j ≠ []
          ∧ cluster Rat.sqrt [[-1 / 2000], [10]] 2 1 boundary_data j ≠ [])
      ∧ max_displacement Rat.sqrt [[0], [10]] [[-1 / 2000], [10]] 1 = 1 / 2000
      ∧ max_displacement Rat.sqrt [[-1 / 2000], [10]] [[-5001 / 1000], [15 / 2]] 1
          = 10001 / 2000
      ∧ ¬ max_displacement Rat.sqrt [[-1 / 2000], [10]] [[-5001 / 1000], [15 / 2]] 1
          ≤ max_displacement Rat.sqrt [[0], [10]] [[-1 / 2000], [10]] 1 := by
  have hcd : ∀ c ∈ ([[0], [10]] : List (List ℚ)), c.length = 1 := by
    intro c hc; simp at hc; rcases hc with rfl | rfl <;> rfl
  have hwf : WellFormed boundary_data 2 1 (initial_state [[0], [10]] 1) :=
    initial_state_wf boundary_data [[0], [10]] 1 (by simp [boundary_data]) boundary_data_dim
      (by simp) hcd
  obtain ⟨s1, h1, hwf1, hc1⟩ :=
    fit_iteration_pass Rat.sqrt boundary_data 2 1 (1 / 10000) (initial_state [[0], [10]] 1) hwf
  have hc1a : s1.centroids = [[-1 / 2000], [10]] := by rw [hc1]; exact boundary_pass_one
  have hf1 : pass_converged Rat.sqrt boundary_data (initial_state [[0], [10]] 1).centroids 1
      (1 / 10000) = false := boundary_flag_small_one
  rw [hf1] at h1
  obtain ⟨s2, h2, _, hc2⟩ := fit_iteration_pass Rat.sqrt boundary_data 2 1 (1 / 10000) s1 hwf1
  have hc2a : s2.centroids = [[-5001 / 1000], [15 / 2]] := by
    rw [hc2, hc1a]; exact boundary_pass_two
  have hit1 : fit_iterate Rat.sqrt boundary_data 2 1 (1 / 10000) 1 (initial_state [[0], [10]] 1)
      = some (s1, false) := by rw [fit_iterate_one]; exact h1
  have hd1 : max_displacement Rat.sqrt [[0], [10]] [[-1 / 2000], [10]] 1 = 1 / 2000 := by
    simp [max_displacement, displacements, list_max, List.range_succ, compute_distance_one]
    norm_num [abs_of_nonneg]
  have hd2 : max_displacement Rat.sqrt [[-1 / 2000], [10]] [[-5001 / 1000], [15 / 2]] 1
      = 10001 / 2000 := by
    simp [max_displacement, displacements, list_max, List.range_succ, compute_distance_one]
    norm_num [abs_of_nonneg]
  refine ⟨s1, s2, pass_converged Rat.sqrt boundary_data s1.centroids 1 (1 / 10000), hit1, ?_,
    hc1a, hc2a, ?_, hd1, hd2, ?_⟩
  · rw [fit_iterate, hit1]
    exact h2
  · intro j hj
    interval_cases j <;> constructor <;>
      (simp [boundary_data, cluster, List.filter_cons, find_closest_line]
       try norm_num [abs_of_nonneg, abs_of_nonpos, abs_lt, lt_abs]
       try simp)
  · rw [hd1, hd2]
    norm_num

/-- C23, amended: in a run of `fit`, when iteration `t + 2` assigns every
point to the same cluster as iteration `t + 1` did, the maximum displacement
of iteration `t + 2` is at most that of iteration `t + 1` (no centroid moves
in iteration `t + 2`); for a square root with `sqrt 0 ≤ sqrt x` for `x ≥ 0`. -/
theorem max_displacement_same_assignment (sqrt : α → α)
    (hsqrt : ∀ x : α, 0 ≤ x → sqrt 0 ≤ sqrt x) (epsilon : α)
    (data centroids : List (List α)) (dim : Nat)
    (hdata : data ≠ []) (hdd : ∀ p ∈ data, p.length = dim)
    (hcent : centroids ≠ []) (hcd : ∀ c ∈ centroids, c.length = dim)
    (t : Nat) (s0 s1 s2 : FitState α) (f0 f1 f2 : Bool)
    (h0 : fit_iterate sqrt data centroids.length dim epsilon t (initial_state centroids dim)
      = some (s0, f0))
    (h1 : fit_iterate sqrt data centroids.length dim epsilon (t + 1)
      (initial_state centroids dim) = some (s1, f1))
    (h2 : fit_iterate sqrt data centroids.length dim epsilon (t + 2)
      (initial_state centroids dim) = some (s2, f2))
    (hsame : ∀ p ∈ data,
      find_closest_centroid sqrt s1.centroids p centroids.length dim
        = find_closest_centroid sqrt s0.centroids p centroids.length dim) :
    max_displacement sqrt s1.centroids s2.centroids dim
      ≤ max_displacement sqrt s0.centroids s1.centroids dim := by
  have hwf := initial_state_wf data centroids dim hdata hdd hcent hcd
  obtain ⟨w0, w1, e1, _⟩ := fit_iterate_consecutive sqrt data centroids.length dim epsilon
    (initial_state centroids dim) hwf t s0 s1 f0 f1 h0 h1
  obtain ⟨_, _, e2, _⟩ := fit_iterate_consecutive sqrt data centroids.length dim epsilon
    (initial_state centroids dim) hwf (t + 1) s1 s2 f1 f2 h1 h2
  have hstay : s2.centroids = s1.centroids := by
    have hcongr := one_pass_congr sqrt data s1.centroids s0.centroids dim
      (by rw [w1.cent_len, w0.cent_len])
      (by
        intro p hp
        rw [w1.cent_len, w0.cent_len]
        exact hsame p hp)
    rw [e2, hcongr, ← e1]
  have hK : 0 < s1.centroids.length := by rw [w1.cent_len]; exact w0.K_pos
  have hK0 : 0 < s0.centroids.length := by rw [w0.cent_len]; exact w0.K_pos
  have hupper : max_displacement sqrt s1.centroids s2.centroids dim ≤ sqrt 0 := by
    apply list_max_le
    · intro hnil
      have hl : (displacements sqrt s1.centroids s2.centroids dim).length
          = s1.centroids.length := by simp [displacements]
      rw [hnil, List.length_nil] at hl
      omega
    · intro x hx
      obtain ⟨j, hj, rfl⟩ := List.mem_map.mp hx
      have hjl : j < s1.centroids.length := List.mem_range.mp hj
      have hlen := w1.cent_dim _ (getD_mem_of_lt s1.centroids j [] hjl)
      rw [hstay, compute_distance_eq_sqrt_sq_dist sqrt _ _ dim (by omega) (by omega),
        sq_dist_self]
  have hlower : sqrt 0 ≤ max_displacement sqrt s0.centroids s1.centroids dim := by
    have hmem : compute_distance sqrt (s0.centroids.getD 0 []) (s1.centroids.getD 0 []) dim
        ∈ displacements sqrt s0.centroids s1.centroids dim :=
      List.mem_map.mpr ⟨0, List.mem_range.mpr hK0, rfl⟩
    refine le_trans ?_ (le_list_max _ _ hmem)
    have hl0 := w0.cent_dim _ (getD_mem_of_lt s0.centroids 0 [] hK0)
    have hl1 := w1.cent_dim _ (getD_mem_of_lt s1.centroids 0 [] hK)
    rw [compute_distance_eq_sqrt_sq_dist sqrt _ _ dim (by omega) (by omega)]
    exact hsqrt _ (sq_dist_nonneg _ _ _)
  exact le_trans hupper hlower

theorem max_displacement_same_assignment_witness :
    ∃ s1 s2 : FitState ℚ,
      max_displacement Rat.sqrt s1.centroids s2.centroids 1
        ≤ max_displacement Rat.sqrt (initial_state [[-5001 / 1000], [15 / 2]] 1).centroids
            s1.centroids 1 := by
  have hcd : ∀ c ∈ ([[-5001 / 1000], [15 / 2]] : List (List ℚ)), c.length = 1 := by
    intro c hc; simp at hc; rcases hc with rfl | rfl <;> rfl
  have hne : boundary_data ≠ [] := by simp [boundary_data]
  have hwf := initial_state_wf boundary_data [[-5001 / 1000], [15 / 2]] 1 hne boundary_data_dim
    (by simp) hcd
  obtain ⟨s1, f1, h1, _, c1⟩ := fit_iterate_spec Rat.sqrt boundary_data 2 1 (1 / 1000)
    (initial_state [[-5001 / 1000], [15 / 2]] 1) hwf 1
  obtain ⟨s2, f2, h2, _, _⟩ := fit_iterate_spec Rat.sqrt boundary_data 2 1 (1 / 1000)
    (initial_state [[-5001 / 1000], [15 / 2]] 1) hwf 2
  have c1a : s1.centroids = [[-5001 / 1000], [15 / 2]] := by
    rw [c1]; exact boundary_pass_three
  have hs0 : Rat.sqrt 0 = 0 := by simp
  exact ⟨s1, s2, max_displacement_same_assignment Rat.sqrt
    (fun x _ => by rw [hs0]; exact Rat.sqrt_nonneg x) (1 / 1000) boundary_data
    [[-5001 / 1000], [15 / 2]] 1 hne boundary_data_dim (by simp) hcd 0
    (initial_state [[-5001 / 1000], [15 / 2]] 1) s1 s2 false f1 f2 rfl h1 h2
    (by intro p _; rw [c1a]; rfl)⟩

/-! ## The k-means objective -/

theorem foldl_min_le {β : Type} (g : β → α) (cs : List β) :
    ∀ m : α, cs.foldl (fun m c2 => min m (g c2)) m ≤ m
      ∧ ∀ c ∈ cs, cs.foldl (fun m c2 => min m (g c2)) m ≤ g c := by
  induction cs with
  | nil => intro m; simp
  | cons y cs ih =>
    intro m
    obtain ⟨h1, h2⟩ := ih (min m (g y))
    refine ⟨le_trans h1 (min_le_left _ _), ?_⟩
    intro c hc
    rcases List.mem_cons.mp hc with h | h
    · rw [h]; exact le_trans h1 (min_le_right _ _)
    · exact h2 c h

theorem le_foldl_min {β : Type} (g : β → α) (x : α) (cs : List β) :
    ∀ m : α, x ≤ m → (∀ c ∈ cs, x ≤ g c) → x ≤ cs.foldl (fun m c2 => min m (g c2)) m := by
  induction cs with
  | nil => intro m hm _; simpa using hm
  | cons y cs ih =>
    intro m hm h
    exact ih (min m (g y)) (le_min hm (h y (by simp))) (fun c hc => h c (by simp [hc]))

theorem nearest_sq_dist_le (centroids : List (List α)) (p : List α) (dim : Nat) (c : List α)
    (hc : c ∈ centroids) : nearest_sq_dist centroids p dim ≤ sq_dist c p dim := by
  match centroids, hc with
  | c0 :: cs, hc =>
    rw [nearest_sq_dist]
    rcases List.mem_cons.mp hc with h | h
    · rw [h]; exact (foldl_min_le (fun c2 => sq_dist c2 p dim) cs _).1
    · exact (foldl_min_le (fun c2 => sq_dist c2 p dim) cs _).2 c h

theorem le_nearest_sq_dist (centroids : List (List α)) (p : List α) (dim : Nat) (x : α)
    (hne : centroids ≠ []) (h : ∀ c ∈ centroids, x ≤ sq_dist c p dim) :
    x ≤ nearest_sq_dist centroids p dim := by
  match centroids, hne, h with
  | [], hne, _ => exact absurd rfl hne
  | c0 :: cs, _, h =>
    rw [nearest_sq_dist]
    exact le_foldl_min (fun c2 => sq_dist c2 p dim) x cs _ (h c0 (by simp))
      (fun c hc => h c (by simp [hc]))

/-- The centroid `find_closest_centroid` picks is the nearest one in squared
distance, for a square root that is strictly increasing on the non-negative
numbers. -/
theorem nearest_sq_dist_eq_assigned (sqrt : α → α)
    (hsqrt : ∀ x y : α, 0 ≤ x → x < y → sqrt x < sqrt y)
    (centroids : List (List α)) (K dim : Nat) (hK : 1 ≤ K) (hlen : centroids.length = K)
    (hcd : ∀ c ∈ centroids, c.length = dim) (p : List α) (hp : p.length = dim) :
    nearest_sq_dist centroids p dim
      = sq_dist (centroids.getD (assigned_index sqrt centroids K dim p) []) p dim := by
  obtain ⟨m, hm, hmK, h3, _⟩ := find_closest_centroid_spec sqrt centroids p K dim hK hlen
  have hidx : assigned_index sqrt centroids K dim p = m := by simp [assigned_index, hm]
  rw [hidx]
  have hmem : centroids.getD m [] ∈ centroids := getD_mem_of_lt centroids m [] (by omega)
  apply le_antisymm (nearest_sq_dist_le centroids p dim _ hmem)
  apply le_nearest_sq_dist centroids p dim _
    (fun h => by rw [h] at hlen; simp at hlen; omega)
  intro c hc
  obtain ⟨j, hj, rfl⟩ := List.getElem_of_mem hc
  have hjK : j < K := by omega
  have hdist := h3 j hjK
  simp only [dist_to] at hdist
  rw [List.getD_eq_getElem centroids [] hj,
    compute_distance_eq_sqrt_sq_dist sqrt _ _ dim (by rw [hcd _ hmem]) (by omega),
    compute_distance_eq_sqrt_sq_dist sqrt _ _ dim (by rw [hcd _ (List.getElem_mem _)])
      (by omega)] at hdist
  by_contra hcon
  exact absurd (hsqrt _ _ (sq_dist_nonneg _ _ _) (not_le.mp hcon)) (not_lt.mpr hdist)

theorem sum_sq_expand (c : α) :
    ∀ xs : List α, (xs.map (fun x => (c - x) ^ 2)).sum
      = (xs.length : α) * c ^ 2 - 2 * c * xs.sum + (xs.map (fun x => x ^ 2)).sum
  | [] => by simp
  | x :: xs => by
      simp only [List.map_cons, List.sum_cons, List.length_cons, Nat.cast_add, Nat.cast_one,
        sum_sq_expand c xs]
      ring

/-- The mean of a non-empty list of numbers minimises the sum of the squared
differences. -/
theorem mean_minimizes_scalar (xs : List α) (hne : xs ≠ []) (c : α) :
    (xs.map (fun x => (xs.sum / (xs.length : α) - x) ^ 2)).sum
      ≤ (xs.map (fun x => (c - x) ^ 2)).sum := by
  have hn : (0 : α) < (xs.length : α) := by
    have : 0 < xs.length := List.length_pos.mpr hne
    exact_mod_cast this
  have hS : xs.sum = (xs.length : α) * (xs.sum / (xs.length : α)) := by
    field_simp
  rw [sum_sq_expand, sum_sq_expand]
  have key : (xs.length : α) * c ^ 2 - 2 * c * xs.sum
      - ((xs.length : α) * (xs.sum / (xs.length : α)) ^ 2
          - 2 * (xs.sum / (xs.length : α)) * xs.sum)
      = (xs.length : α) * (c - xs.sum / (xs.length : α)) ^ 2 := by
    have h2 : 2 * c * xs.sum = 2 * c * ((xs.length : α) * (xs.sum / (xs.length : α))) := by
      rw [← hS]
    have h3 : 2 * (xs.sum / (xs.length : α)) * xs.sum
        = 2 * (xs.sum / (xs.length : α)) * ((xs.length : α) * (xs.sum / (xs.length : α))) := by
      rw [← hS]
    rw [h2, h3]
    ring
  have hpos : 0 ≤ (xs.length : α) * (c - xs.sum / (xs.length : α)) ^ 2 :=
    mul_nonneg (le_of_lt hn) (sq_nonneg _)
  linarith

theorem sum_map_sum_range {β : Type} (dim : Nat) (f : Nat → β → α) :
    ∀ ps : List β, (ps.map (fun p => ∑ i in Finset.range dim, f i p)).sum
      = ∑ i in Finset.range dim, (ps.map (f i)).sum
  | [] => by simp
  | p :: ps => by
      simp only [List.map_cons, List.sum_cons, sum_map_sum_range dim f ps,
        Finset.sum_add_distrib]

/-- The mean of a non-empty list of points minimises the sum of the squared
distances to a common point. -/
theorem mean_minimizes (dim : Nat) (ps : List (List α)) (hne : ps ≠ [])
    (hd : ∀ p ∈ ps, p.length = dim) (c : List α) :
    (ps.map (fun p => sq_dist (vector_mean dim ps) p dim)).sum
      ≤ (ps.map (fun p => sq_dist c p dim)).sum := by
  have e1 := sum_map_sum_range dim
    (fun i (p : List α) => ((vector_mean dim ps).getD i 0 - p.getD i 0) ^ 2) ps
  have e2 := sum_map_sum_range dim (fun i (p : List α) => (c.getD i 0 - p.getD i 0) ^ 2) ps
  simp only [sq_dist]
  simp only at e1 e2
  rw [e1, e2]
  apply Finset.sum_le_sum
  intro i hi
  have hi' := Finset.mem_range.mp hi
  have hxs : ps.map (fun p => p.getD i 0) ≠ [] := by
    intro h; exact hne (List.map_eq_nil_iff.mp h)
  have h := mean_minimizes_scalar (ps.map (fun p => p.getD i 0)) hxs (c.getD i 0)
  rw [List.length_map, ← vector_mean_getD dim ps hd i hi'] at h
  simpa [List.map_map, Function.comp] using h

/-- Claim C29: one iteration of `fit` on a well-formed state returns, and the
k-means objective (the sum over the dataset of the squared distance from each
point to its nearest centroid) of the new centroids is at most that of the old
ones, in exact arithmetic with a square root that is strictly increasing on the
non-negative numbers. It holds whether or not a cluster is empty, so in
particular in an iteration in which no cluster is empty. -/
theorem fit_iteration_objective_nonincreasing (sqrt : α → α)
    (hsqrt : ∀ x y : α, 0 ≤ x → x < y → sqrt x < sqrt y)
    (head_data : List (List α)) (K dim : Nat) (epsilon : α) (st : FitState α)
    (hwf : WellFormed head_data K dim st) :
    ∃ st1 conv, fit_iteration sqrt head_data K dim epsilon st = some (st1, conv)
      ∧ objective head_data st1.centroids dim ≤ objective head_data st.centroids dim := by
  obtain ⟨st1, conv, h1, hwf1, hc⟩ := fit_iteration_centroids sqrt head_data K dim epsilon st hwf
  refine ⟨st1, conv, h1, ?_⟩
  have hK := hwf.K_pos
  have hlen := hwf.cent_len
  have hold : objective head_data st.centroids dim
      = (head_data.map (fun p =>
          sq_dist (st.centroids.getD (assigned_index sqrt st.centroids K dim p) []) p dim)).sum := by
    unfold objective
    congr 1
    apply List.map_congr_left
    intro p hp
    exact nearest_sq_dist_eq_assigned sqrt hsqrt st.centroids K dim hK hlen hwf.cent_dim p
      (hwf.data_dim p hp)
  have hnew : objective head_data st1.centroids dim
      ≤ (head_data.map (fun p =>
          sq_dist (st1.centroids.getD (assigned_index sqrt st.centroids K dim p) []) p dim)).sum := by
    unfold objective
    apply List.sum_le_sum
    intro p _
    exact nearest_sq_dist_le _ p dim _ (getD_mem_of_lt _ _ []
      (by rw [hwf1.cent_len]; exact assigned_index_lt sqrt st.centroids K dim hK hlen p))
  have e1 := sum_over_clusters sqrt st.centroids K dim hK hlen head_data
    (fun j p => sq_dist (st1.centroids.getD j []) p dim)
  have e2 := sum_over_clusters sqrt st.centroids K dim hK hlen head_data
    (fun j p => sq_dist (st.centroids.getD j []) p dim)
  simp only at e1 e2
  rw [hold]
  refine le_trans hnew ?_
  rw [← e1, ← e2]
  apply Finset.sum_le_sum
  intro j hj
  have hjK := Finset.mem_range.mp hj
  by_cases hempty : cluster sqrt st.centroids K dim head_data j = []
  · rw [hempty]; simp
  · have hcj : st1.centroids.getD j []
        = vector_mean dim (cluster sqrt st.centroids K dim head_data j) := by
      rw [hc, one_pass_getD sqrt head_data st.centroids dim j (by rw [hlen]; exact hjK), hlen,
        if_neg]
      intro h
      exact hempty (List.eq_nil_of_length_eq_zero h)
    rw [hcj]
    exact mean_minimizes dim _ hempty
      (fun p hp => hwf.data_dim p (cluster_subset sqrt st.centroids K dim head_data j p hp)) _

theorem fit_iteration_objective_nonincreasing_witness :
    ∃ st1 conv,
      fit_iteration Real.sqrt [[1, 1], [1, 2], [10, 10], [10, 11]] 2 2 (1 / 10000)
          (initial_state [[1, 1], [10, 10]] 2) = some (st1, conv)
      ∧ objective [[1, 1], [1, 2], [10, 10], [10, 11]] st1.centroids 2
          ≤ objective [[1, 1], [1, 2], [10, 10], [10, 11]]
              (initial_state [[1, 1], [10, 10]] 2).centroids 2 :=
  fit_iteration_objective_nonincreasing Real.sqrt (fun _ _ hx hxy => Real.sqrt_lt_sqrt hx hxy)
    [[1, 1], [1, 2], [10, 10], [10, 11]] 2 2 (1 / 10000) (initial_state [[1, 1], [10, 10]] 2)
    (initial_state_wf [[1, 1], [1, 2], [10, 10], [10, 11]] [[1, 1], [10, 10]] 2 (by simp)
      (by intro p hp; simp at hp; rcases hp with rfl | rfl | rfl | rfl <;> rfl) (by simp)
      (by intro c hc; simp at hc; rcases hc with rfl | rfl <;> rfl))

/-! ## Tolerance zero, the `K` argument and a non-positive iteration cap -/

theorem compute_distance_loop_nonneg (sqrt : α → α) (hsqrt : ∀ x : α, 0 ≤ x → 0 ≤ sqrt x) :
    ∀ (dim : Nat) (v1 v2 : List α) (acc : α), 0 ≤ acc →
      0 ≤ compute_distance_loop sqrt v1 v2 dim acc
  | 0, _, _, acc, h => by
      rw [compute_distance_loop]
      exact hsqrt acc h
  | dim + 1, [], _, _, _ => by simp [compute_distance_loop]
  | dim + 1, _ :: _, [], _, _ => by simp [compute_distance_loop]
  | dim + 1, x :: v1, y :: v2, acc, h => by
      rw [compute_distance_loop]
      exact compute_distance_loop_nonneg sqrt hsqrt dim v1 v2 _
        (add_nonneg h (mul_self_nonneg _))

theorem compute_distance_nonneg (sqrt : α → α) (hsqrt : ∀ x : α, 0 ≤ x → 0 ≤ sqrt x)
    (v1 v2 : List α) (dim : Nat) : 0 ≤ compute_distance sqrt v1 v2 dim :=
  compute_distance_loop_nonneg sqrt hsqrt dim v1 v2 0 (le_refl 0)

/-- With tolerance zero a pass over at least one centroid never reports
convergence. -/
theorem pass_converged_zero (sqrt : α → α) (hsqrt : ∀ x : α, 0 ≤ x → 0 ≤ sqrt x)
    (data centroids : List (List α)) (dim : Nat) (hcent : centroids ≠ []) :
    pass_converged sqrt data centroids dim 0 = false := by
  rw [pass_converged, List.all_eq_false]
  refine ⟨0, List.mem_range.mpr (List.length_pos.mpr hcent), ?_⟩
  have h := compute_distance_nonneg sqrt hsqrt (centroids.getD 0 [])
    ((one_pass sqrt data centroids dim).getD 0 []) dim
  rw [Bool.and_eq_true, not_and_or]
  right
  simpa using h

/-- When no pass from a well-formed state reports convergence, the loop of
`fit` runs its body as many times as the cap allows. -/
theorem fit_loop_never_converged (sqrt : α → α) (head_data : List (List α)) (K dim : Nat)
    (epsilon : α)
    (hflag : ∀ C : List (List α), C ≠ [] → pass_converged sqrt head_data C dim epsilon = false) :
    ∀ (n : Nat) (st : FitState α), WellFormed head_data K dim st →
      ∃ st_n, fit_loop sqrt head_data K dim epsilon n st = some st_n
        ∧ fit_loop_count sqrt head_data K dim epsilon n st = some n
        ∧ WellFormed head_data K dim st_n
        ∧ st_n.centroids = (fun C => one_pass sqrt head_data C dim)^[n] st.centroids
  | 0, st, hwf => ⟨st, rfl, rfl, hwf, rfl⟩
  | n + 1, st, hwf => by
      obtain ⟨st1, h1, hwf1, hc1⟩ := fit_iteration_pass sqrt head_data K dim epsilon st hwf
      have hne : st.centroids ≠ [] := by
        intro h
        have := hwf.cent_len
        rw [h] at this
        have := hwf.K_pos
        simp at *
        omega
      rw [hflag st.centroids hne] at h1
      obtain ⟨st_n, g1, g2, g3, g4⟩ :=
        fit_loop_never_converged sqrt head_data K dim epsilon hflag n st1 hwf1
      refine ⟨st_n, ?_, ?_, g3, ?_⟩
      · rw [fit_loop, h1]
        simpa using g1
      · rw [fit_loop_count, h1]
        simp [g2]
      · rw [g4, hc1, Function.iterate_succ_apply]

/-- C31, amended: in exact arithmetic, with `epsilon = 0`, on every valid
input with `max_iter ≥ 1` (and a square root that is non-negative on the
non-negative numbers) no iteration of `fit` reports convergence, the loop body
runs exactly `max_iter` times, and the result is `max_iter` passes applied to
the initial centroids, whether or not the centroids still move.  (On C doubles
a displacement can be a NaN.) -/
theorem fit_epsilon_zero_runs_to_cap (sqrt : α → α) (hsqrt : ∀ x : α, 0 ≤ x → 0 ≤ sqrt x)
    (K0 max_iter : Int) (data centroids : List (List α)) (dim : Nat) (hdim : 1 ≤ dim)
    (hdata : data ≠ []) (hdd : ∀ p ∈ data, p.length = dim)
    (hcent : centroids ≠ []) (hcd : ∀ c ∈ centroids, c.length = dim)
    (hmax : 1 ≤ max_iter) :
    (∀ t : Nat, 1 ≤ t → ∃ st_t,
        fit_iterate sqrt data centroids.length dim 0 t (initial_state centroids dim)
          = some (st_t, false))
      ∧ fit_loop_count sqrt data centroids.length dim 0 max_iter.toNat
          (initial_state centroids dim) = some max_iter.toNat
      ∧ 1 ≤ max_iter.toNat
      ∧ fit sqrt K0 max_iter 0 data centroids
          = some ((fun C => one_pass sqrt data C dim)^[max_iter.toNat] centroids) := by
  have hwf := initial_state_wf data centroids dim hdata hdd hcent hcd
  have hflag : ∀ C : List (List α), C ≠ [] → pass_converged sqrt data C dim 0 = false :=
    fun C hC => pass_converged_zero sqrt hsqrt data C dim hC
  obtain ⟨st_n, g1, g2, g3, g4⟩ := fit_loop_never_converged sqrt data centroids.length dim 0
    hflag max_iter.toNat (initial_state centroids dim) hwf
  refine ⟨?_, g2, by omega, ?_⟩
  · intro t ht
    obtain ⟨s, rfl⟩ : ∃ s, t = s + 1 := ⟨t - 1, by omega⟩
    obtain ⟨s0, f0, h0, hwf0, _⟩ :=
      fit_iterate_spec sqrt data centroids.length dim 0 (initial_state centroids dim) hwf s
    obtain ⟨s1, f1, h1, _, _⟩ :=
      fit_iterate_spec sqrt data centroids.length dim 0 (initial_state centroids dim) hwf (s + 1)
    obtain ⟨_, _, _, hf⟩ := fit_iterate_consecutive sqrt data centroids.length dim 0
      (initial_state centroids dim) hwf s s0 s1 f0 f1 h0 h1
    have hne : s0.centroids ≠ [] := by
      intro h
      have h2 := hwf0.cent_len
      rw [h, List.length_nil] at h2
      exact hcent (List.eq_nil_of_length_eq_zero h2.symm)
    rw [hflag s0.centroids hne] at hf
    rw [hf] at h1
    exact ⟨s1, h1⟩
  · rw [fit_unfold sqrt K0 max_iter 0 data centroids dim hdim hdata hdd hcent hcd, g1]
    simp only
    rw [result_to_python_eq dim centroids.length st_n.centroids g3.cent_len g3.cent_dim, g4]
    rfl

theorem fit_epsilon_zero_runs_to_cap_witness :
    (∀ t : Nat, 1 ≤ t → ∃ st_t,
        fit_iterate Rat.sqrt boundary_data 2 1 0 t (initial_state [[-5001 / 1000], [15 / 2]] 1)
          = some (st_t, false))
      ∧ fit_loop_count Rat.sqrt boundary_data 2 1 0 5
          (initial_state [[-5001 / 1000], [15 / 2]] 1) = some 5
      ∧ 1 ≤ 5
      ∧ fit Rat.sqrt 2 5 0 boundary_data [[-5001 / 1000], [15 / 2]]
          = some ((fun C => one_pass Rat.sqrt boundary_data C 1)^[5]
              [[-5001 / 1000], [15 / 2]]) :=
  fit_epsilon_zero_runs_to_cap Rat.sqrt (fun x _ => Rat.sqrt_nonneg x) 2 5 boundary_data
    [[-5001 / 1000], [15 / 2]] 1 (by decide) (by simp [boundary_data]) boundary_data_dim
    (by simp) (by intro c hc; simp at hc; rcases hc with rfl | rfl <;> rfl) (by decide)

/-- Claim C32: the result of `fit` does not depend on its `K` argument, which
the length of `initial_centroids` overwrites before it is read: two calls that
differ only in `K` have the same outcome, and on a valid input both return the
same centroid list, whose length is the length of `initial_centroids`. -/
theorem fit_independent_of_K (sqrt : α → α) (K1 K2 max_iter : Int) (epsilon : α)
    (data centroids : List (List α)) (dim : Nat) :
    fit sqrt K1 max_iter epsilon data centroids = fit sqrt K2 max_iter epsilon data centroids
      ∧ (1 ≤ dim → data ≠ [] → (∀ p ∈ data, p.length = dim) → centroids ≠ [] →
          (∀ c ∈ centroids, c.length = dim) →
          ∃ result, fit sqrt K1 max_iter epsilon data centroids = some result
            ∧ fit sqrt K2 max_iter epsilon data centroids = some result
            ∧ result.length = centroids.length) := by
  refine ⟨rfl, ?_⟩
  intro hdim hdata hdd hcent hcd
  obtain ⟨t, _, _, h1, h2, _⟩ :=
    fit_result sqrt K1 max_iter epsilon data centroids dim hdim hdata hdd hcent hcd
  exact ⟨_, h1, h1, h2⟩

theorem fit_independent_of_K_witness :
    fit Rat.sqrt 2 10 (1 / 10000) sample_data [[1, 1], [10, 10]]
        = fit Rat.sqrt (-7) 10 (1 / 10000) sample_data [[1, 1], [10, 10]]
      ∧ ∃ result, fit Rat.sqrt 2 10 (1 / 10000) sample_data [[1, 1], [10, 10]] = some result
          ∧ fit Rat.sqrt (-7) 10 (1 / 10000) sample_data [[1, 1], [10, 10]] = some result
          ∧ result.length = 2 :=
  ⟨(fit_independent_of_K Rat.sqrt 2 (-7) 10 (1 / 10000) sample_data [[1, 1], [10, 10]] 2).1,
    (fit_independent_of_K Rat.sqrt 2 (-7) 10 (1 / 10000) sample_data [[1, 1], [10, 10]] 2).2
      (by decide) (by simp [sample_data]) sample_state_wf.data_dim (by simp)
      (by intro c hc; simp at hc; rcases hc with rfl | rfl <;> rfl)⟩

theorem python_to_c_list_some {β : Type} (l : List (List β)) (hne : l ≠ []) :
    ∃ N d, python_to_c_list l = some (l, N, d) := by
  unfold python_to_c_list
  cases h : l.getLast? with
  | none => exact absurd (List.getLast?_eq_none_iff.mp h) hne
  | some last => exact ⟨_, _, rfl⟩

/-- Claim C33: for every `max_iter ≤ 0` the loop body of `fit` never runs and
`fit` returns the initial centroids unchanged, in the same order, whatever
the (non-empty) dataset and `epsilon` are; the initial centroids being at
least one, each with the same number `dim ≥ 1` of coordinates. -/
theorem fit_nonpositive_max_iter (sqrt : α → α) (K0 max_iter : Int) (epsilon : α)
    (data centroids : List (List α)) (dim : Nat) (hmax : max_iter ≤ 0)
    (hdata : data ≠ []) (hdim : 1 ≤ dim)
    (hcent : centroids ≠ []) (hcd : ∀ c ∈ centroids, c.length = dim) :
    fit_loop_count sqrt data centroids.length dim epsilon max_iter.toNat
        (initial_state centroids dim) = some 0
      ∧ fit sqrt K0 max_iter epsilon data centroids = some centroids := by
  have hz : max_iter.toNat = 0 := Int.toNat_eq_zero.mpr hmax
  have hK : centroids.length ≠ 0 := fun h => hcent (List.eq_nil_of_length_eq_zero h)
  obtain ⟨N, d, hd⟩ := python_to_c_list_some data hdata
  refine ⟨by rw [hz]; rfl, ?_⟩
  have hinit : initialize_sum_vectors centroids.length dim
      = some (List.replicate centroids.length (List.replicate dim (0 : α))) := by
    rw [initialize_sum_vectors, if_neg]
    intro h
    rcases h with h | h
    · exact hK h
    · omega
  rw [fit, hd, python_to_c_list_eq centroids dim hcent hcd]
  simp only [hinit, hz, fit_loop]
  exact result_to_python_eq dim centroids.length centroids rfl hcd

theorem fit_nonpositive_max_iter_witness :
    fit_loop_count Rat.sqrt [[1, 2, 3]] 2 1 (1 / 1000) 0 (initial_state [[5], [7]] 1) = some 0
      ∧ fit Rat.sqrt 2 (-3) (1 / 1000) [[1, 2, 3]] [[5], [7]] = some [[5], [7]] :=
  fit_nonpositive_max_iter Rat.sqrt 2 (-3) (1 / 1000) [[1, 2, 3]] [[5], [7]] 1 (by decide)
    (by simp) (by decide) (by simp)
    (by intro c hc; simp at hc; rcases hc with rfl | rfl <;> rfl)

/-! ## C doubles: the arithmetic on known values -/

/-- The model of `double` on values every C program shows: `0.1 + 0.2` is
`0.30000000000000004`, `1e16 + 1.0` is `1e16`, `1e308 + 1e308` is `inf`,
`inf - inf` is a NaN, a NaN is neither `<` nor `>=` a number, `sqrt(2.0)` is
`1.4142135623730951`, and `-0.0` equals `0.0` in comparisons. -/
theorem Double.known_values :
    tenth + Double.dyadic 3602879701896397 (-54) = Double.dyadic 1351079888211149 (-52)
      ∧ ten_to_16 + Double.ofNat 1 = ten_to_16
      ∧ huge + huge = Double.inf false
      ∧ Double.inf false - Double.inf false = Double.nan
      ∧ ¬ Double.nan < (0 : Double) ∧ ¬ Double.nan ≥ (0 : Double)
      ∧ Double.sqrt (Double.ofNat 2) = Double.dyadic 6369051672525773 (-52)
      ∧ Double.sqrt (Double.inf false) = Double.inf false
      ∧ Double.sqrt Double.nan = Double.nan
      ∧ Double.finite true 0 ≤ (0 : Double) ∧ (0 : Double) ≤ Double.finite true 0 := by
  decide!

/-! ## C doubles: where rounding, overflow and NaN show -/

/-- C8 fails as stated on C doubles: in `fit(1, 10, 0.001, [[1e308], [1e308]],
[[0.0]])` the sum of the two points overflows, so iteration 1 moves the
centroid to `inf` (not converged); in iteration 2 the cluster again holds both
points, the displacement `compute_distance([inf], [inf])` is a NaN, the test
`NaN >= epsilon` is false and `converged` stays true, although the
displacement is not less than `epsilon`. -/
theorem converged_flag_counterexample :
    IEEE.fit_iteration overflow_data 1 1 thousandth ⟨[[0]], [[0]], [0]⟩
        = some (⟨[[Double.inf false]], [[Double.inf false]], [2]⟩, false)
      ∧ IEEE.fit_assignment overflow_data 1 1 ⟨[[Double.inf false]], [[Double.inf false]], [2]⟩
        = some ([[Double.inf false]], [2])
      ∧ IEEE.fit_iteration overflow_data 1 1 thousandth
          ⟨[[Double.inf false]], [[Double.inf false]], [2]⟩
        = some (⟨[[Double.inf false]], [[Double.inf false]], [2]⟩, true)
      ∧ IEEE.compute_distance [Double.inf false] [Double.inf false] 1 = Double.nan
      ∧ ¬ IEEE.compute_distance [Double.inf false] [Double.inf false] 1 < thousandth
      ∧ ¬ IEEE.compute_distance [Double.inf false] [Double.inf false] 1 ≥ thousandth := by
  decide!

/-- C27 fails as stated on C doubles: over the points `1e16`, `-1e16`, `1.0`
with centroids `1.0` and `-1e16`, the first and the third point go to cluster
0, whose accumulator ends at `1e16` (`1e16 + 1.0` rounds to `1e16`), and the
second to cluster 1; the counts `2` and `1` do sum to `3`, but the two
accumulators sum to `0` while the three points sum to `1`. -/
theorem accumulator_sum_counterexample :
    IEEE.fit_assignment absorb_data 2 1
        ⟨[[Double.ofNat 1], [Double.neg ten_to_16]], [[0], [0]], [0, 0]⟩
      = some ([[ten_to_16], [Double.neg ten_to_16]], [2, 1])
      ∧ (0 + ten_to_16) + Double.ofNat 1 = ten_to_16
      ∧ ([[ten_to_16], [Double.neg ten_to_16]].map (fun s => s.getD 0 0)).foldl (· + ·) 0 = 0
      ∧ (absorb_data.map (fun p => p.getD 0 0)).foldl (· + ·) 0 = Double.ofNat 1
      ∧ (0 : Double) ≠ Double.ofNat 1 := by
  decide!

/-- C28 fails as stated on C doubles: `fit(1, 1, 0.001, [[0.1], [0.1], [0.1]],
[[0.0]])` returns `[[0.10000000000000002]]`, above the maximum `0.1` of the
coordinate over the dataset: the accumulator is `0.30000000000000004` and its
third rounds up. -/
theorem bounding_box_counterexample :
    IEEE.fit 1 1 thousandth tenth_data [[0]] = some [[tenth_up]]
      ∧ (∀ p ∈ tenth_data, p = [tenth])
      ∧ ((0 + tenth) + tenth) + tenth = Double.dyadic 1351079888211149 (-52)
      ∧ Double.dyadic 1351079888211149 (-52) / ((3 : Nat) : Double) = tenth_up
      ∧ tenth < tenth_up
      ∧ ¬ tenth_up ≤ tenth := by
  decide!

/-- C31 fails as stated on C doubles: `fit(1, 10, 0.0, [[1e308], [1e308]],
[[0.0]])` has `epsilon = 0` and `max_iter = 10`, yet its second iteration
reports convergence (the displacement is a NaN, and `NaN >= 0.0` is false), so
the loop body runs twice and `fit` returns `[[inf]]`. -/
theorem epsilon_zero_counterexample :
    IEEE.fit_iteration overflow_data 1 1 0 ⟨[[0]], [[0]], [0]⟩
        = some (⟨[[Double.inf false]], [[Double.inf false]], [2]⟩, false)
      ∧ IEEE.fit_iteration overflow_data 1 1 0 ⟨[[Double.inf false]], [[Double.inf false]], [2]⟩
        = some (⟨[[Double.inf false]], [[Double.inf false]], [2]⟩, true)
      ∧ IEEE.fit_loop_count overflow_data 1 1 0 10 ⟨[[0]], [[0]], [0]⟩ = some 2
      ∧ IEEE.fit 1 10 0 overflow_data [[0]] = some [[Double.inf false]] := by
  decide!

/-! ## Running `fit` again after an iteration that moved nothing -/

/-- The counter of the loop of `fit` names the iteration whose state the loop
returns. -/
theorem fit_loop_count_spec (sqrt : α → α) (head_data : List (List α)) (K dim : Nat)
    (epsilon : α) :
    ∀ (n : Nat) (st : FitState α) (c : Nat),
      fit_loop_count sqrt head_data K dim epsilon n st = some c →
      ∃ s f, fit_iterate sqrt head_data K dim epsilon c st = some (s, f)
        ∧ fit_loop sqrt head_data K dim epsilon n st = some s
  | 0, st, c, h => by
      rw [fit_loop_count] at h
      obtain rfl := Option.some.inj h
      exact ⟨st, false, rfl, rfl⟩
  | n + 1, st, c, h => by
      rw [fit_loop_count] at h
      rcases hit : fit_iteration sqrt head_data K dim epsilon st with _ | ⟨st1, conv⟩
      · rw [hit] at h
        simp at h
      · rw [hit] at h
        cases conv with
        | true =>
          simp only [if_true] at h
          obtain rfl := Option.some.inj h
          refine ⟨st1, true, ?_, ?_⟩
          · rw [fit_iterate_one, hit]
          · rw [fit_loop, hit]
            simp
        | false =>
          simp only [Bool.false_eq_true, if_false] at h
          rcases hc : fit_loop_count sqrt head_data K dim epsilon n st1 with _ | c1
          · rw [hc] at h
            simp at h
          · rw [hc] at h
            simp only [Option.map_some'] at h
            obtain rfl := Option.some.inj h
            obtain ⟨s, f, g1, g2⟩ := fit_loop_count_spec sqrt head_data K dim epsilon n st1 c1 hc
            have hl : fit_loop sqrt head_data K dim epsilon (n + 1) st = some s := by
              rw [fit_loop, hit]
              simpa using g2
            cases c1 with
            | zero =>
              rw [fit_iterate] at g1
              obtain ⟨rfl, rfl⟩ := Prod.mk.inj (Option.some.inj g1)
              exact ⟨st1, false, by rw [fit_iterate_one, hit], hl⟩
            | succ c2 =>
              exact ⟨s, f, by rw [fit_iterate_shift sqrt head_data K dim epsilon st st1 false hit,
                g1], hl⟩

/-- On a well-formed state the counter of the loop of `fit` is the number of
passes of Lloyd's loop. -/
theorem fit_loop_count_eq_lloyd (sqrt : α → α) (head_data : List (List α)) (K dim : Nat)
    (epsilon : α) :
    ∀ (n : Nat) (st : FitState α), WellFormed head_data K dim st →
      fit_loop_count sqrt head_data K dim epsilon n st
        = some (lloyd_count sqrt head_data dim epsilon n st.centroids)
  | 0, _, _ => rfl
  | n + 1, st, hwf => by
      obtain ⟨st1, h1, hwf1, hc1⟩ := fit_iteration_pass sqrt head_data K dim epsilon st hwf
      rw [fit_loop_count, h1, lloyd_count]
      by_cases hf : pass_converged sqrt head_data st.centroids dim epsilon = true
      · simp [hf]
      · simp only [hf, if_false, Bool.false_eq_true]
        rw [fit_loop_count_eq_lloyd sqrt head_data K dim epsilon n st1 hwf1, hc1]
        rfl

/-- C15, amended: on a valid input with `epsilon > 0` (and `sqrt 0 = 0`), if
the last iteration a run of `fit` executes (iteration `t + 1`, the value of
its counter) leaves every centroid where the iteration before left it, then
the run returns those centroids `C*`, and `fit` run again on the same points
with `C*` as initial centroids returns `C*` itself for every `max_iter`: every
centroid it returns is at distance `0 < epsilon` from that of `C*`. -/
theorem fit_rerun_after_still_iteration (sqrt : α → α) (hsqrt : sqrt 0 = 0)
    (K0 max_iter : Int) (epsilon : α) (heps : 0 < epsilon)
    (data centroids : List (List α)) (dim : Nat) (hdim : 1 ≤ dim)
    (hdata : data ≠ []) (hdd : ∀ p ∈ data, p.length = dim)
    (hcent : centroids ≠ []) (hcd : ∀ c ∈ centroids, c.length = dim)
    (t : Nat) (s0 s1 : FitState α) (f0 f1 : Bool)
    (hcount : fit_loop_count sqrt data centroids.length dim epsilon max_iter.toNat
      (initial_state centroids dim) = some (t + 1))
    (h0 : fit_iterate sqrt data centroids.length dim epsilon t (initial_state centroids dim)
      = some (s0, f0))
    (h1 : fit_iterate sqrt data centroids.length dim epsilon (t + 1)
      (initial_state centroids dim) = some (s1, f1))
    (hstill : s1.centroids = s0.centroids) :
    fit sqrt K0 max_iter epsilon data centroids = some s1.centroids
      ∧ (∀ K2 max_iter2 : Int,
          fit sqrt K2 max_iter2 epsilon data s1.centroids = some s1.centroids)
      ∧ ∀ j, j < s1.centroids.length →
          compute_distance sqrt (s1.centroids.getD j []) (s1.centroids.getD j []) dim
            < epsilon := by
  have hwf := initial_state_wf data centroids dim hdata hdd hcent hcd
  obtain ⟨_, hwf1, hc, _⟩ := fit_iterate_consecutive sqrt data centroids.length dim epsilon
    (initial_state centroids dim) hwf t s0 s1 f0 f1 h0 h1
  have hfix : one_pass sqrt data s1.centroids dim = s1.centroids := by
    rw [hstill, ← hc]
    exact hstill
  have hne : s1.centroids ≠ [] := by
    intro h
    have h2 := hwf1.cent_len
    rw [h, List.length_nil] at h2
    exact hcent (List.eq_nil_of_length_eq_zero h2.symm)
  obtain ⟨s, f, g1, g2⟩ := fit_loop_count_spec sqrt data centroids.length dim epsilon
    max_iter.toNat (initial_state centroids dim) (t + 1) hcount
  have hs : s = s1 := (Prod.mk.inj (Option.some.inj (g1.symm.trans h1))).1
  subst hs
  refine ⟨?_, ?_, ?_⟩
  · rw [fit_unfold sqrt K0 max_iter epsilon data centroids dim hdim hdata hdd hcent hcd, g2]
    exact result_to_python_eq dim centroids.length s.centroids hwf1.cent_len hwf1.cent_dim
  · intro K2 max_iter2
    rw [fit_eq_lloyd sqrt K2 max_iter2 epsilon data s.centroids dim hdim hdata hdd hne
      hwf1.cent_dim, lloyd_loop_fixed sqrt data dim epsilon s.centroids hfix]
  · intro j hj
    have hl : (s.centroids.getD j []).length = dim :=
      hwf1.cent_dim _ (getD_mem_of_lt s.centroids j [] hj)
    rw [compute_distance_eq_sqrt_sq_dist sqrt _ _ dim (by omega) (by omega), sq_dist_self,
      hsqrt]
    exact heps

theorem fit_rerun_after_still_iteration_witness :
    fit Rat.sqrt 2 10 (1 / 1000) boundary_data [[-1 / 2000], [10]]
        = some [[-5001 / 1000], [15 / 2]]
      ∧ (∀ K2 max_iter2 : Int,
          fit Rat.sqrt K2 max_iter2 (1 / 1000) boundary_data [[-5001 / 1000], [15 / 2]]
            = some [[-5001 / 1000], [15 / 2]])
      ∧ ∀ j, j < ([[-5001 / 1000], [15 / 2]] : List (List ℚ)).length →
          compute_distance Rat.sqrt (([[-5001 / 1000], [15 / 2]] : List (List ℚ)).getD j [])
            (([[-5001 / 1000], [15 / 2]] : List (List ℚ)).getD j []) 1 < 1 / 1000 := by
  have hcd : ∀ c ∈ ([[-1 / 2000], [10]] : List (List ℚ)), c.length = 1 := by
    intro c hc; simp at hc; rcases hc with rfl | rfl <;> rfl
  have hne : boundary_data ≠ [] := by simp [boundary_data]
  have hwf := initial_state_wf boundary_data [[-1 / 2000], [10]] 1 hne boundary_data_dim
    (by simp) hcd
  obtain ⟨s0, f0, h0, _, hc0⟩ := fit_iterate_spec Rat.sqrt boundary_data 2 1 (1 / 1000)
    (initial_state [[-1 / 2000], [10]] 1) hwf 1
  obtain ⟨s1, f1, h1, _, hc1⟩ := fit_iterate_spec Rat.sqrt boundary_data 2 1 (1 / 1000)
    (initial_state [[-1 / 2000], [10]] 1) hwf (1 + 1)
  have e0 : s0.centroids = [[-5001 / 1000], [15 / 2]] := by
    rw [hc0]
    exact boundary_pass_two
  have e1 : s1.centroids = [[-5001 / 1000], [15 / 2]] := by
    rw [hc1, Function.iterate_succ_apply', ← hc0, e0]
    exact boundary_pass_three
  have hcount : fit_loop_count Rat.sqrt boundary_data 2 1 (1 / 1000) (10 : Int).toNat
      (initial_state [[-1 / 2000], [10]] 1) = some (1 + 1) := by
    rw [fit_loop_count_eq_lloyd Rat.sqrt boundary_data 2 1 (1 / 1000) _ _ hwf]
    have h10 : (10 : Int).toNat = 8 + 1 + 1 := rfl
    have hinit : (initial_state ([[-1 / 2000], [10]] : List (List ℚ)) 1).centroids
        = [[-1 / 2000], [10]] := rfl
    have step2 : lloyd_count Rat.sqrt boundary_data 1 (1 / 1000) (8 + 1)
        [[-5001 / 1000], [15 / 2]] = 1 := by
      rw [lloyd_count, if_pos boundary_flag_three]
    have step1 : lloyd_count Rat.sqrt boundary_data 1 (1 / 1000) (8 + 1 + 1)
        [[-1 / 2000], [10]] = 1 + 1 := by
      rw [lloyd_count, boundary_flag_two, boundary_pass_two, step2]
      simp
    rw [h10, hinit, step1]
  have h := fit_rerun_after_still_iteration Rat.sqrt (by simp) 2 10 (1 / 1000)
    (by norm_num) boundary_data [[-1 / 2000], [10]] 1 (by decide) hne boundary_data_dim
    (by simp) hcd 1 s0 s1 f0 f1 hcount h0 h1 (by rw [e0, e1])
  rw [e1] at h
  exact h

end KMeans
